import Mathlib

/-!
# Engine kinematics and combustion timing of `3js-sim`

A shallow embedding of the per-frame timing core of the repository
(`src/engines/BaseEngine2D.js`, `src/engines/BaseEngine.js`,
`src/engines/Inline4Engine2D.js`, `src/engines/V6Engine2D.js`,
`src/components/CamshaftDetail2D.js`, `src/components/Turbocharger2D.js`,
`src/effects/ParticleSystem2D.js`, `src/effects/ParticleSystem.js`,
`src/engines/Inline4Engine.js`, `src/engines/V6Engine.js`) together with the
properties the specification states about it.

JavaScript numbers are idealised as exact numbers: the purely arithmetic
functions are written over any ordered field with a floor function (so they
run over `ℚ`), the trigonometric ones over `ℝ`.  A `NaN` result is modelled by
`none`, and the results of `Math.random()` are an explicit stream `rand`.

The turbocharger update is given twice: `Turbocharger2D.update` is the exact
reading, and `Turbocharger2D.updateF64` evaluates the same expressions in
IEEE 754 binary64 arithmetic (every operation rounded to the nearest double,
ties to even), which is what the JavaScript engine computes.  Statements about
strict monotonicity or exact equalities of the turbocharger hold in the exact
reading only; where they fail in binary64 a counterexample over `updateF64`
is given, and the non-strict versions that do hold in binary64 are proved
over `updateF64` from the monotonicity of rounding.
-/

namespace EngineSim

/-! ## JavaScript primitives -/

section Arithmetic

variable {K : Type} [LinearOrderedField K] [FloorRing K]

/-- JavaScript `x % m` on finite numbers with `m ≠ 0`: the remainder of the
division whose quotient is truncated toward zero, so the result carries the
sign of the dividend `x`. -/
def jsRem (x m : K) : K :=
  if 0 ≤ x / m then x - m * ((⌊x / m⌋ : ℤ) : K) else x - m * ((⌈x / m⌉ : ℤ) : K)

/-- The `settings` object held by an engine (`BaseEngine2D` constructor). -/
structure EngineSettings (K : Type) where
  rpm : K
  throttle : K
  airFuelRatio : K
  ignitionTiming : K
  boost : K

/-- The numeric fields of a `BaseEngine2D` / `BaseEngine` instance. -/
structure BaseEngine2D (K : Type) where
  settings : EngineSettings K
  time : K
  crankAngle : K

/-- The default settings of the constructor. -/
def defaultSettings : EngineSettings K :=
  ⟨800, 25, 147 / 10, 15, 0⟩

/-- The state right after construction: `time = 0`, `crankAngle = 0`. -/
def BaseEngine2D.init : BaseEngine2D K :=
  ⟨defaultSettings, 0, 0⟩

/-- Source function `updateSettings(settings)` called with a full settings object, as the host
does. -/
def BaseEngine2D.updateSettings (e : BaseEngine2D K) (settings : EngineSettings K) :
    BaseEngine2D K :=
  ⟨settings, e.time, e.crankAngle⟩

/-- Source function `calculateCrankAngle(deltaTime)` of `BaseEngine2D.js` (lines 60-66) and,
with the same text, of `BaseEngine.js` (lines 134-140).  Returns the returned
value together with the engine after the assignment to `this.crankAngle`. -/
def BaseEngine2D.calculateCrankAngle (e : BaseEngine2D K) (deltaTime : K) :
    K × BaseEngine2D K :=
  let rps := e.settings.rpm / 60
  let anglePerSecond := rps * 360
  let crankAngle := jsRem (e.crankAngle + anglePerSecond * deltaTime) 360
  (crankAngle, ⟨e.settings, e.time, crankAngle⟩)

/-- A run of host frames: each frame installs a settings object and then calls
`calculateCrankAngle` with the `deltaTime` of that frame. -/
def BaseEngine2D.advanceFrames (e : BaseEngine2D K) :
    List (EngineSettings K × K) → BaseEngine2D K
  | [] => e
  | (s, dt) :: rest =>
      BaseEngine2D.advanceFrames ((e.updateSettings s).calculateCrankAngle dt).2 rest

end Arithmetic

/-- JavaScript `Array.prototype.indexOf` scanning from position `i`: the index
of the first element equal to `x`, or `-1` when there is none. -/
def jsIndexOfFrom (x : ℤ) : List ℤ → ℤ → ℤ
  | [], _ => -1
  | y :: ys, i => if y = x then i else jsIndexOfFrom x ys (i + 1)

/-- JavaScript `xs.indexOf(x)`. -/
def jsIndexOf (xs : List ℤ) (x : ℤ) : ℤ :=
  jsIndexOfFrom x xs 0

/-- Source function `getFiringOrder()` of `Inline4Engine2D.js` (lines 276-278); `BaseEngine2D`
and `BaseEngine` return the same array. -/
def Inline4Engine2D.getFiringOrder : List ℤ :=
  [1, 3, 4, 2]

/-- Source function `getFiringOrder()` of `V6Engine2D.js` (lines 331-333). -/
def V6Engine2D.getFiringOrder : List ℤ :=
  [1, 4, 2, 5, 3, 6]

/-! ## Trigonometric part of the model (over the reals) -/

/-- JavaScript `Math.asin`: the arcsine on `[-1, 1]`, `NaN` (here `none`) elsewhere. -/
noncomputable def Math.asin (x : ℝ) : Option ℝ :=
  if -1 ≤ x ∧ x ≤ 1 then some (Real.arcsin x) else none

/-- Source function `calculatePistonPosition(crankAngle, rodLength, crankRadius)` of
`BaseEngine2D.js` (lines 68-77) and `BaseEngine.js` (lines 142-151).  The
result is `none` when JavaScript yields `NaN`.  Division by `rodLength = 0`
gives an infinity or `NaN`, whose arcsine is `NaN`; that case is the first
guard. -/
noncomputable def calculatePistonPosition (crankAngle rodLength crankRadius : ℝ) :
    Option ℝ :=
  let crankRad := (crankAngle * Real.pi) / 180
  let cosA := Real.cos crankRad
  let sinA := Real.sin crankRad
  if rodLength = 0 then none
  else
    (Math.asin ((crankRadius * sinA) / rodLength)).map fun beta =>
      crankRadius * cosA + rodLength * Real.cos beta

/-- Source function `calculateValveLift(camAngle, valveType)` of `CamshaftDetail2D.js`
(lines 55-85). -/
noncomputable def CamshaftDetail2D.calculateValveLift (camAngle : ℝ) (valveType : String) :
    ℝ :=
  let maxLift : ℝ := 12
  if valveType = "intake" then
    let openAngle : ℝ := 350
    let closeAngle : ℝ := 110
    if camAngle ≥ openAngle ∨ camAngle ≤ closeAngle then
      let adjustedAngle := if camAngle ≥ openAngle then camAngle - 360 else camAngle
      let duration := closeAngle - (openAngle - 360)
      let progress := (adjustedAngle - (openAngle - 360)) / duration
      if progress ≥ 0 ∧ progress ≤ 1 then maxLift * Real.sin (progress * Real.pi) else 0
    else 0
  else if valveType = "exhaust" then
    let openAngle : ℝ := 130
    let closeAngle : ℝ := 350
    if camAngle ≥ openAngle ∧ camAngle ≤ closeAngle then
      let duration := closeAngle - openAngle
      let progress := (camAngle - openAngle) / duration
      maxLift * Real.sin (progress * Real.pi)
    else 0
  else 0

/-- Source function `getValveLift(valveType, crankAngle)` of `Inline4Engine2D.js`
(lines 60-89). -/
noncomputable def Inline4Engine2D.getValveLift (valveType : String) (crankAngle : ℝ) : ℝ :=
  let camAngle := jsRem (crankAngle / 2) 360
  let maxLift : ℝ := 15
  if valveType = "intake" then
    let openAngle : ℝ := 350
    let closeAngle : ℝ := 110
    if camAngle ≥ openAngle ∨ camAngle ≤ closeAngle then
      let adjustedAngle := if camAngle ≥ openAngle then camAngle - 360 else camAngle
      let duration := closeAngle - (openAngle - 360)
      let progress := (adjustedAngle - (openAngle - 360)) / duration
      if progress ≥ 0 ∧ progress ≤ 1 then maxLift * Real.sin (progress * Real.pi) else 0
    else 0
  else if valveType = "exhaust" then
    let openAngle : ℝ := 130
    let closeAngle : ℝ := 350
    if camAngle ≥ openAngle ∧ camAngle ≤ closeAngle then
      let duration := closeAngle - openAngle
      let progress := (camAngle - openAngle) / duration
      maxLift * Real.sin (progress * Real.pi)
    else 0
  else 0

/-- Source function `getValveLift(valveType, crankAngle)` of `V6Engine2D.js` (lines 63-92). -/
noncomputable def V6Engine2D.getValveLift (valveType : String) (crankAngle : ℝ) : ℝ :=
  let camAngle := jsRem (crankAngle / 2) 360
  let maxLift : ℝ := 12
  if valveType = "intake" then
    let openAngle : ℝ := 350
    let closeAngle : ℝ := 110
    if camAngle ≥ openAngle ∨ camAngle ≤ closeAngle then
      let adjustedAngle := if camAngle ≥ openAngle then camAngle - 360 else camAngle
      let duration := closeAngle - (openAngle - 360)
      let progress := (adjustedAngle - (openAngle - 360)) / duration
      if progress ≥ 0 ∧ progress ≤ 1 then maxLift * Real.sin (progress * Real.pi) else 0
    else 0
  else if valveType = "exhaust" then
    let openAngle : ℝ := 130
    let closeAngle : ℝ := 350
    if camAngle ≥ openAngle ∧ camAngle ≤ closeAngle then
      let duration := closeAngle - openAngle
      let progress := (camAngle - openAngle) / duration
      maxLift * Real.sin (progress * Real.pi)
    else 0
  else 0

/-- The lift curve with the maximum lift as a parameter: the common text of
`calculateValveLift` and of the two `getValveLift` bodies after `camAngle` has
been computed.  Used to state lemmas once for the three copies. -/
noncomputable def halfSineLift (maxLift camAngle : ℝ) (valveType : String) : ℝ :=
  if valveType = "intake" then
    let openAngle : ℝ := 350
    let closeAngle : ℝ := 110
    if camAngle ≥ openAngle ∨ camAngle ≤ closeAngle then
      let adjustedAngle := if camAngle ≥ openAngle then camAngle - 360 else camAngle
      let duration := closeAngle - (openAngle - 360)
      let progress := (adjustedAngle - (openAngle - 360)) / duration
      if progress ≥ 0 ∧ progress ≤ 1 then maxLift * Real.sin (progress * Real.pi) else 0
    else 0
  else if valveType = "exhaust" then
    let openAngle : ℝ := 130
    let closeAngle : ℝ := 350
    if camAngle ≥ openAngle ∧ camAngle ≤ closeAngle then
      let duration := closeAngle - openAngle
      let progress := (camAngle - openAngle) / duration
      maxLift * Real.sin (progress * Real.pi)
    else 0
  else 0

/-- The local constant `cylinderOffset` of `getCombustionIntensity`:
`(firingOrder.indexOf(cylinderIndex) * (720 / firingOrder.length)) % 720`,
for a non-empty firing order. -/
noncomputable def cylinderOffset (firingOrder : List ℤ) (cylinderIndex : ℤ) : ℝ :=
  jsRem (((jsIndexOf firingOrder cylinderIndex : ℤ) : ℝ) * (720 / (firingOrder.length : ℝ))) 720

/-- The local constant `adjustedAngle` of `getCombustionIntensity`:
`(crankAngle * 2 + cylinderOffset) % 720`. -/
noncomputable def adjustedAngle (firingOrder : List ℤ) (cylinderIndex : ℤ) (crankAngle : ℝ) :
    ℝ :=
  jsRem (crankAngle * 2 + cylinderOffset firingOrder cylinderIndex) 720

/-- Source function `getCombustionIntensity(cylinderIndex, crankAngle)` of `BaseEngine2D.js`
(lines 79-94) and `BaseEngine.js` (lines 153-168), with the result of
`this.getFiringOrder()` and `this.settings` as arguments.  For an empty firing
order `720 / 0` is infinite, the offset is `NaN`, both comparisons are false
and the function returns `0`: that is the first guard. -/
noncomputable def getCombustionIntensity (firingOrder : List ℤ) (settings : EngineSettings ℝ)
    (cylinderIndex : ℤ) (crankAngle : ℝ) : ℝ :=
  if firingOrder.length = 0 then 0
  else
    let adjusted := adjustedAngle firingOrder cylinderIndex crankAngle
    let ignitionStart := 720 - settings.ignitionTiming
    let combustionDuration : ℝ := 60
    if adjusted ≥ ignitionStart ∧ adjusted ≤ ignitionStart + combustionDuration then
      let progress := (adjusted - ignitionStart) / combustionDuration
      let intensity := Real.sin (progress * Real.pi) * settings.throttle / 100
      max 0 intensity
    else 0

/-! ## Turbocharger (`src/components/Turbocharger2D.js`) -/

section Turbo

variable {K : Type} [LinearOrderedField K]

/-- The numeric fields and the `enabled` flag of a `Turbocharger2D`. -/
structure Turbocharger2D (K : Type) where
  enabled : Bool
  turbineSpeed : K
  compressorSpeed : K
  boostPressure : K
  temperature : K

/-- The state set up by the constructor: disabled, all numbers zero. -/
def Turbocharger2D.init : Turbocharger2D K :=
  ⟨false, 0, 0, 0, 0⟩

/-- Source function `update(deltaTime, settings)` of `Turbocharger2D.js`
(lines 22-38), read in exact arithmetic: every `+`, `-`, `*`, `/` is the exact
operation of the field `K` and the literals 0.95, 0.9, 0.98 are the exact
decimal fractions.  The binary64 reading of the same lines is
`Turbocharger2D.updateF64`. -/
def Turbocharger2D.update (t : Turbocharger2D K) (deltaTime : K)
    (settings : EngineSettings K) : Turbocharger2D K :=
  if !t.enabled then
    ⟨t.enabled, t.turbineSpeed * 0.95, t.compressorSpeed * 0.95, t.boostPressure * 0.9,
      t.temperature⟩
  else
    let exhaustFlow := (settings.rpm / 8000) * (settings.throttle / 100)
    let targetTurbineSpeed := exhaustFlow * 200000
    let turbineSpeed := t.turbineSpeed + (targetTurbineSpeed - t.turbineSpeed) * deltaTime * 5
    let compressorSpeed := turbineSpeed * 0.98
    let boostPressure := min 30 ((compressorSpeed / 100000) * settings.throttle / 100 * 15)
    let temperature := 70 + (turbineSpeed / 1000) + (settings.throttle * 2)
    ⟨t.enabled, turbineSpeed, compressorSpeed, boostPressure, temperature⟩

/-- Source function `setEnabled(enabled)` of `Turbocharger2D.js`
(lines 279-281). -/
def Turbocharger2D.setEnabled (t : Turbocharger2D K) (enabled : Bool) : Turbocharger2D K :=
  ⟨enabled, t.turbineSpeed, t.compressorSpeed, t.boostPressure, t.temperature⟩

/-- One call made by the host on a turbocharger. -/
inductive TurboCall (K : Type) where
  | update (deltaTime : K) (settings : EngineSettings K)
  | setEnabled (enabled : Bool)

/-- The effect of one call. -/
def Turbocharger2D.call (t : Turbocharger2D K) : TurboCall K → Turbocharger2D K
  | TurboCall.update deltaTime settings => t.update deltaTime settings
  | TurboCall.setEnabled enabled => t.setEnabled enabled

/-- The effect of a sequence of calls, first call first. -/
def Turbocharger2D.run (t : Turbocharger2D K) (calls : List (TurboCall K)) :
    Turbocharger2D K :=
  calls.foldl Turbocharger2D.call t

/-- A call as the host makes it: an update has `rpm ≥ 0`, `throttle ≥ 0` and
a frame time `0 ≤ deltaTime ≤ 0.1` (longer frames are dropped by `animate`). -/
def TurboCall.hostFrame : TurboCall K → Prop
  | TurboCall.update deltaTime settings =>
      0 ≤ settings.rpm ∧ 0 ≤ settings.throttle ∧ 0 ≤ deltaTime ∧ deltaTime ≤ 0.1
  | TurboCall.setEnabled _ => True

end Turbo

/-! ## Binary64 arithmetic and the turbocharger as JavaScript computes it

A finite binary64 number is represented by the rational number it denotes.
Signed zeros are identified.  Results of magnitude `2 ^ 1024` or more (which
JavaScript turns into `Infinity`) are outside the model, which rounds them
like smaller numbers; none occurs in the statements below, where every result
is bounded by a double of the state or by the target speed. -/

namespace Binary64

/-- The power `2 ^ e` with an integer exponent. -/
def pow2 (e : ℤ) : ℚ :=
  if 0 ≤ e then ((2 ^ e.toNat : ℕ) : ℚ) else 1 / ((2 ^ (-e).toNat : ℕ) : ℚ)

/-- The number of binary digits of a number `n < 2 ^ 2 ^ k` (0 for `n = 0`),
by binary search: the upper half of the `2 ^ (k + 1)` digits is examined
first. -/
def bitLengthBelow : ℕ → ℕ → ℕ
  | 0, n => if n = 0 then 0 else 1
  | k + 1, n =>
      if n < 2 ^ 2 ^ k then bitLengthBelow k n
      else 2 ^ k + bitLengthBelow k (n / 2 ^ 2 ^ k)

/-- The number of binary digits of `n`, searching from `k` upwards for a
bound `n < 2 ^ 2 ^ k` in at most `fuel` steps. -/
def bitLengthFrom : ℕ → ℕ → ℕ → ℕ
  | 0, _, _ => 0
  | fuel + 1, k, n =>
      if n < 2 ^ 2 ^ k then bitLengthBelow k n else bitLengthFrom fuel (k + 1) n

/-- The number of binary digits of `n` (0 for `n = 0`). -/
def bitLength (n : ℕ) : ℕ := bitLengthFrom n 0 n

/-- The integer `e` with `2 ^ e ≤ x < 2 ^ (e + 1)`, for a positive `x`: the
difference of the bit lengths of numerator and denominator, or one less. -/
def log2Floor (x : ℚ) : ℤ :=
  let e : ℤ := (bitLength x.num.natAbs : ℤ) - (bitLength x.den : ℤ)
  if pow2 e ≤ x then e else e - 1

/-- Rounding to the nearest integer, ties to the even one. -/
def roundNearestEven (q : ℚ) : ℤ :=
  let f := q.floor
  let r := q - (f : ℚ)
  if r < 1 / 2 then f
  else if r > 1 / 2 then f + 1
  else if f % 2 = 0 then f else f + 1

/-- Rounding of an exact number to the nearest binary64 number, ties to even
(the IEEE 754 default, used by every JavaScript operation and literal): a
multiple of `2 ^ (e - 52)` where `e` is the binary exponent of `x`, not below
the exponent -1022 of the subnormal numbers. -/
def round (x : ℚ) : ℚ :=
  if x = 0 then 0
  else
    let e := max (log2Floor (if x < 0 then -x else x)) (-1022)
    (roundNearestEven (x / pow2 (e - 52)) : ℚ) * pow2 (e - 52)

/-- JavaScript `a + b` on finite doubles. -/
def add (a b : ℚ) : ℚ := round (a + b)

/-- JavaScript `a - b` on finite doubles. -/
def sub (a b : ℚ) : ℚ := round (a - b)

/-- JavaScript `a * b` on finite doubles. -/
def mul (a b : ℚ) : ℚ := round (a * b)

/-- JavaScript `a / b` on finite doubles with `b ≠ 0`. -/
def div (a b : ℚ) : ℚ := round (a / b)

end Binary64

/-- Source function `update(deltaTime, settings)` of `Turbocharger2D.js`
(lines 22-38) in binary64 arithmetic: the same expressions as in
`Turbocharger2D.update`, every operation rounded, in the evaluation order of
JavaScript; the literals 0.95, 0.9 and 0.98 are the doubles nearest to them,
the integer literals are doubles already.  The state and the arguments are
expected to hold doubles. -/
def Turbocharger2D.updateF64 (t : Turbocharger2D ℚ) (deltaTime : ℚ)
    (settings : EngineSettings ℚ) : Turbocharger2D ℚ :=
  if !t.enabled then
    ⟨t.enabled, Binary64.mul t.turbineSpeed (Binary64.round 0.95),
      Binary64.mul t.compressorSpeed (Binary64.round 0.95),
      Binary64.mul t.boostPressure (Binary64.round 0.9), t.temperature⟩
  else
    let exhaustFlow := Binary64.mul (Binary64.div settings.rpm 8000)
      (Binary64.div settings.throttle 100)
    let targetTurbineSpeed := Binary64.mul exhaustFlow 200000
    let turbineSpeed := Binary64.add t.turbineSpeed
      (Binary64.mul (Binary64.mul (Binary64.sub targetTurbineSpeed t.turbineSpeed) deltaTime) 5)
    let compressorSpeed := Binary64.mul turbineSpeed (Binary64.round 0.98)
    let boostPressure := min 30
      (Binary64.mul (Binary64.div (Binary64.mul (Binary64.div compressorSpeed 100000)
        settings.throttle) 100) 15)
    let temperature := Binary64.add (Binary64.add 70 (Binary64.div turbineSpeed 1000))
      (Binary64.mul settings.throttle 2)
    ⟨t.enabled, turbineSpeed, compressorSpeed, boostPressure, temperature⟩

/-- The effect of one call in binary64 arithmetic. -/
def Turbocharger2D.callF64 (t : Turbocharger2D ℚ) : TurboCall ℚ → Turbocharger2D ℚ
  | TurboCall.update deltaTime settings => t.updateF64 deltaTime settings
  | TurboCall.setEnabled enabled => t.setEnabled enabled

/-- The effect of a sequence of calls in binary64 arithmetic, first call
first. -/
def Turbocharger2D.runF64 (t : Turbocharger2D ℚ) (calls : List (TurboCall ℚ)) :
    Turbocharger2D ℚ :=
  calls.foldl Turbocharger2D.callF64 t

/-! ## Exhaust particles (`src/effects/ParticleSystem2D.js`,
`src/effects/ParticleSystem.js`) -/

section Particles

variable {K : Type} [LinearOrderedField K] [FloorRing K]

/-- An entry of `exhaustPorts` in `ParticleSystem2D`. -/
structure ExhaustPort (K : Type) where
  x : K
  y : K
  vx : K
  vy : K

/-- A particle object of `ParticleSystem2D.emitParticles`. -/
structure Particle2D (K : Type) where
  x : K
  y : K
  vx : K
  vy : K
  size : K
  age : K
  maxAge : K
  opacity : K

/-- The fields of a `ParticleSystem2D` that the update reads or writes. -/
structure ParticleSystem2D (K : Type) where
  visible : Bool
  particles : List (Particle2D K)
  maxParticles : ℕ
  emissionRate : K
  nextEmission : K
  time : K

/-- The `exhaustPorts` array of the `ParticleSystem2D` constructor. -/
def ParticleSystem2D.exhaustPorts : List (ExhaustPort K) :=
  [⟨-120, -50, -2, -1⟩, ⟨-40, -50, -2, -1⟩, ⟨40, -50, -2, -1⟩, ⟨120, -50, -2, -1⟩]

/-- The state set up by the `ParticleSystem2D` constructor. -/
def ParticleSystem2D.init : ParticleSystem2D K :=
  ⟨false, [], 200, 0, 0, 0⟩

/-- The particle built by one iteration of `emitParticles`; `rand 0`, ...,
`rand 6` are the results of the seven `Math.random()` calls in source order
(values in `[0, 1)`, so the port index is in range). -/
def ParticleSystem2D.newParticle (rand : ℕ → K) : Particle2D K :=
  let port := (ParticleSystem2D.exhaustPorts : List (ExhaustPort K)).getD
    (⌊rand 0 * 4⌋ : ℤ).toNat ⟨-120, -50, -2, -1⟩
  ⟨port.x + (rand 1 - 0.5) * 20, port.y + (rand 2 - 0.5) * 10, port.vx + (rand 3 - 0.5) * 2,
    port.vy + rand 4 * 2, 3 + rand 5 * 8, 0, 2 + rand 6 * 3, 0.8⟩

/-- The `for` loop of `emitParticles` with `n` iterations of `i < count` left:
it stops as soon as `particles.length < maxParticles` fails. -/
def ParticleSystem2D.emitLoop (maxParticles : ℕ) :
    ℕ → (ℕ → K) → List (Particle2D K) → List (Particle2D K)
  | 0, _, particles => particles
  | n + 1, rand, particles =>
      if particles.length < maxParticles then
        ParticleSystem2D.emitLoop maxParticles n (fun j => rand (j + 7))
          (particles ++ [ParticleSystem2D.newParticle rand])
      else particles

/-- Source function `emitParticles(count)` of `ParticleSystem2D.js`
(lines 38-55): the counter `i = 0, 1, ...` satisfies `i < count` for
`⌈count⌉` values (none when `count ≤ 0`). -/
def ParticleSystem2D.emitParticles (ps : ParticleSystem2D K) (count : K) (rand : ℕ → K) :
    ParticleSystem2D K :=
  ⟨ps.visible, ParticleSystem2D.emitLoop ps.maxParticles ⌈count⌉₊ rand ps.particles,
    ps.maxParticles, ps.emissionRate, ps.nextEmission, ps.time⟩

/-- The assignments made to one particle by the body of the loop of
`updateParticles` (lines 61-70). -/
def Particle2D.aged (particle : Particle2D K) (deltaTime : K) : Particle2D K :=
  let age := particle.age + deltaTime
  let x := particle.x + particle.vx * 60 * deltaTime
  let y := particle.y + particle.vy * 60 * deltaTime
  let vx := particle.vx * 0.98
  let vy := particle.vy * 0.95 - 0.5 * deltaTime
  let size := particle.size + 15 * deltaTime
  let opacity := max 0 (1 - (age / particle.maxAge))
  ⟨x, y, vx, vy, size, age, particle.maxAge, opacity⟩

/-- The removal test of `updateParticles` (line 72). -/
def Particle2D.expired (particle : Particle2D K) : Prop :=
  particle.age ≥ particle.maxAge ∨ particle.opacity ≤ 0.01

instance Particle2D.decidableExpired (particle : Particle2D K) : Decidable particle.expired :=
  inferInstanceAs (Decidable (_ ∨ _))

/-- The backward `for` loop of `updateParticles`: `n` is `i + 1`, the loop
runs while `i ≥ 0`; the particle at index `i` is updated in place and then
removed by `splice(i, 1)` when it has expired. -/
def ParticleSystem2D.updateParticlesLoop (deltaTime : K) :
    ℕ → List (Particle2D K) → List (Particle2D K)
  | 0, particles => particles
  | i + 1, particles =>
      match particles[i]? with
      | none => ParticleSystem2D.updateParticlesLoop deltaTime i particles
      | some particle =>
          let updated := particle.aged deltaTime
          let particles := particles.set i updated
          if updated.expired then
            ParticleSystem2D.updateParticlesLoop deltaTime i (particles.eraseIdx i)
          else
            ParticleSystem2D.updateParticlesLoop deltaTime i particles

/-- Source function `updateParticles(deltaTime)` of `ParticleSystem2D.js`
(lines 57-76). -/
def ParticleSystem2D.updateParticles (ps : ParticleSystem2D K) (deltaTime : K) :
    ParticleSystem2D K :=
  ⟨ps.visible, ParticleSystem2D.updateParticlesLoop deltaTime ps.particles.length ps.particles,
    ps.maxParticles, ps.emissionRate, ps.nextEmission, ps.time⟩

/-- Source function `update(deltaTime, settings)` of `ParticleSystem2D.js`
(lines 22-36). -/
def ParticleSystem2D.update (ps : ParticleSystem2D K) (deltaTime : K)
    (settings : EngineSettings K) (rand : ℕ → K) : ParticleSystem2D K :=
  if !ps.visible then ps
  else
    let time := ps.time + deltaTime
    let emissionRate := (settings.rpm / 1000) * (settings.throttle / 100) * 10
    let nextEmission := ps.nextEmission - deltaTime
    let ps : ParticleSystem2D K :=
      ⟨ps.visible, ps.particles, ps.maxParticles, emissionRate, nextEmission, time⟩
    let ps : ParticleSystem2D K :=
      if ps.nextEmission ≤ 0 ∧ ps.particles.length < ps.maxParticles then
        let ps := ps.emitParticles ((⌈ps.emissionRate⌉ : ℤ) : K) rand
        ⟨ps.visible, ps.particles, ps.maxParticles, ps.emissionRate, 1 / 30, ps.time⟩
      else ps
    ps.updateParticles deltaTime

/-- Source function `setVisible(visible)` of `ParticleSystem2D.js`
(lines 134-139). -/
def ParticleSystem2D.setVisible (ps : ParticleSystem2D K) (visible : Bool) :
    ParticleSystem2D K :=
  if !visible then ⟨visible, [], ps.maxParticles, ps.emissionRate, ps.nextEmission, ps.time⟩
  else ⟨visible, ps.particles, ps.maxParticles, ps.emissionRate, ps.nextEmission, ps.time⟩

/-- A `THREE.Vector3` of the `exhaustPorts` array of `ParticleSystem`. -/
structure Vector3 (K : Type) where
  x : K
  y : K
  z : K

/-- The fields of the 3D `ParticleSystem` that the update reads or writes; the
typed arrays are lists of exact numbers and the `THREE.Points` object, which
exists from construction on, is left out. -/
structure ParticleSystem (K : Type) where
  visible : Bool
  particleCount : ℕ
  positions : List K
  velocities : List K
  ages : List K
  maxAge : K
  time : K
  nextEmission : K

/-- The `exhaustPorts` array of the `ParticleSystem` constructor. -/
def ParticleSystem.exhaustPorts : List (Vector3 K) :=
  [⟨-3.75, 1, -2⟩, ⟨-1.25, 1, -2⟩, ⟨1.25, 1, -2⟩, ⟨3.75, 1, -2⟩]

/-- The state set up by the `ParticleSystem` constructor and
`createParticleSystem`: every age starts at `maxAge + 1`. -/
def ParticleSystem.init : ParticleSystem K :=
  ⟨false, 1000, List.replicate 3000 0, List.replicate 3000 0, List.replicate 1000 (3.0 + 1),
    3.0, 0, 0⟩

/-- The local constant `emissionRate` of `ParticleSystem.update` (line 107). -/
def ParticleSystem.emissionRate (settings : EngineSettings K) : K :=
  (settings.rpm / 1000) * (settings.throttle / 100) * 20

/-- The `for` loop of `ParticleSystem.emitParticles` (lines 127-143) at index
`i` with `fuel = particleCount - i` iterations left; the state is the triple
of `positions`, `velocities` and `ages`. -/
def ParticleSystem.emitLoop (count maxAge : K) :
    ℕ → ℕ → ℕ → (ℕ → K) → List K × List K × List K → List K × List K × List K
  | 0, _, _, _, arrays => arrays
  | fuel + 1, i, emitted, rand, (positions, velocities, ages) =>
      if (emitted : K) < count then
        if ages.getD i 0 > maxAge then
          let portIndex := (⌊rand 0 * 4⌋ : ℤ).toNat
          let port := (ParticleSystem.exhaustPorts : List (Vector3 K)).getD portIndex
            ⟨-3.75, 1, -2⟩
          let positions := positions.set (i * 3) (port.x + (rand 1 - 0.5) * 0.2)
          let positions := positions.set (i * 3 + 1) (port.y + (rand 2 - 0.5) * 0.2)
          let positions := positions.set (i * 3 + 2) (port.z + (rand 3 - 0.5) * 0.2)
          let velocities := velocities.set (i * 3) ((rand 4 - 0.5) * 2)
          let velocities := velocities.set (i * 3 + 1) (2 + rand 5 * 3)
          let velocities := velocities.set (i * 3 + 2) (-2 - rand 6 * 2)
          let ages := ages.set i 0
          ParticleSystem.emitLoop count maxAge fuel (i + 1) (emitted + 1)
            (fun j => rand (j + 7)) (positions, velocities, ages)
        else
          ParticleSystem.emitLoop count maxAge fuel (i + 1) emitted rand
            (positions, velocities, ages)
      else (positions, velocities, ages)

/-- Source function `emitParticles(count)` of `ParticleSystem.js`
(lines 124-144). -/
def ParticleSystem.emitParticles (ps : ParticleSystem K) (count : K) (rand : ℕ → K) :
    ParticleSystem K :=
  let arrays := ParticleSystem.emitLoop count ps.maxAge ps.particleCount 0 0 rand
    (ps.positions, ps.velocities, ps.ages)
  ⟨ps.visible, ps.particleCount, arrays.1, arrays.2.1, arrays.2.2, ps.maxAge, ps.time,
    ps.nextEmission⟩

/-- The `for` loop of `ParticleSystem.updateParticles` (lines 147-161) at
index `i` with `fuel = particleCount - i` iterations left. -/
def ParticleSystem.updateLoop (deltaTime maxAge : K) :
    ℕ → ℕ → List K × List K × List K → List K × List K × List K
  | 0, _, arrays => arrays
  | fuel + 1, i, (positions, velocities, ages) =>
      if ages.getD i 0 ≤ maxAge then
        let ages := ages.set i (ages.getD i 0 + deltaTime)
        let positions := positions.set (i * 3)
          (positions.getD (i * 3) 0 + velocities.getD (i * 3) 0 * deltaTime)
        let positions := positions.set (i * 3 + 1)
          (positions.getD (i * 3 + 1) 0 + velocities.getD (i * 3 + 1) 0 * deltaTime)
        let positions := positions.set (i * 3 + 2)
          (positions.getD (i * 3 + 2) 0 + velocities.getD (i * 3 + 2) 0 * deltaTime)
        let velocities := velocities.set (i * 3) (velocities.getD (i * 3) 0 * 0.98)
        let velocities := velocities.set (i * 3 + 1) (velocities.getD (i * 3 + 1) 0 * 0.95)
        let velocities := velocities.set (i * 3 + 2) (velocities.getD (i * 3 + 2) 0 * 0.98)
        let velocities := velocities.set (i * 3 + 1)
          (velocities.getD (i * 3 + 1) 0 + -0.5 * deltaTime)
        ParticleSystem.updateLoop deltaTime maxAge fuel (i + 1) (positions, velocities, ages)
      else
        ParticleSystem.updateLoop deltaTime maxAge fuel (i + 1) (positions, velocities, ages)

/-- Source function `updateParticles(deltaTime, settings)` of
`ParticleSystem.js` (lines 146-162). -/
def ParticleSystem.updateParticles (ps : ParticleSystem K) (deltaTime : K) :
    ParticleSystem K :=
  let arrays := ParticleSystem.updateLoop deltaTime ps.maxAge ps.particleCount 0
    (ps.positions, ps.velocities, ps.ages)
  ⟨ps.visible, ps.particleCount, arrays.1, arrays.2.1, arrays.2.2, ps.maxAge, ps.time,
    ps.nextEmission⟩

/-- Source function `update(deltaTime, settings)` of `ParticleSystem.js`
(lines 101-122), without the shader uniform and the `needsUpdate` flags. -/
def ParticleSystem.update (ps : ParticleSystem K) (deltaTime : K)
    (settings : EngineSettings K) (rand : ℕ → K) : ParticleSystem K :=
  if !ps.visible then ps
  else
    let time := ps.time + deltaTime
    let emissionRate := ParticleSystem.emissionRate settings
    let nextEmission := ps.nextEmission - deltaTime
    let ps : ParticleSystem K :=
      ⟨ps.visible, ps.particleCount, ps.positions, ps.velocities, ps.ages, ps.maxAge, time,
        nextEmission⟩
    let ps : ParticleSystem K :=
      if ps.nextEmission ≤ 0 then
        let ps := ps.emitParticles ((⌈emissionRate⌉ : ℤ) : K) rand
        ⟨ps.visible, ps.particleCount, ps.positions, ps.velocities, ps.ages, ps.maxAge,
          ps.time, 1 / 60⟩
      else ps
    ps.updateParticles deltaTime

/-- The number of live slots of the 3D pool: the entries of `ages` that pass
the test `ages[i] <= maxAge` of `updateParticles`; `emitParticles` reuses
exactly the other slots. -/
def ParticleSystem.liveCount (ps : ParticleSystem K) : ℕ :=
  ps.ages.countP fun a => decide (a ≤ ps.maxAge)

/-- Source function `setVisible(visible)` of `ParticleSystem.js`
(lines 164-169). -/
def ParticleSystem.setVisible (ps : ParticleSystem K) (visible : Bool) : ParticleSystem K :=
  ⟨visible, ps.particleCount, ps.positions, ps.velocities, ps.ages, ps.maxAge, ps.time,
    ps.nextEmission⟩

end Particles

/-! ## The 3D copies of the valve lift curve -/

/-- Source function `getValveLift(valveType, crankAngle)` of `Inline4Engine.js`
(lines 320-349). -/
noncomputable def Inline4Engine.getValveLift (valveType : String) (crankAngle : ℝ) : ℝ :=
  let camAngle := jsRem (crankAngle / 2) 360
  let maxLift : ℝ := 0.4
  if valveType = "intake" then
    let openAngle : ℝ := 350
    let closeAngle : ℝ := 110
    if camAngle ≥ openAngle ∨ camAngle ≤ closeAngle then
      let adjustedAngle := if camAngle ≥ openAngle then camAngle - 360 else camAngle
      let duration := closeAngle - (openAngle - 360)
      let progress := (adjustedAngle - (openAngle - 360)) / duration
      if progress ≥ 0 ∧ progress ≤ 1 then maxLift * Real.sin (progress * Real.pi) else 0
    else 0
  else if valveType = "exhaust" then
    let openAngle : ℝ := 130
    let closeAngle : ℝ := 350
    if camAngle ≥ openAngle ∧ camAngle ≤ closeAngle then
      let duration := closeAngle - openAngle
      let progress := (camAngle - openAngle) / duration
      maxLift * Real.sin (progress * Real.pi)
    else 0
  else 0

/-- Source function `getValveLift(valveType, crankAngle)` of `V6Engine.js`
(lines 376-405). -/
noncomputable def V6Engine.getValveLift (valveType : String) (crankAngle : ℝ) : ℝ :=
  let camAngle := jsRem (crankAngle / 2) 360
  let maxLift : ℝ := 0.35
  if valveType = "intake" then
    let openAngle : ℝ := 350
    let closeAngle : ℝ := 110
    if camAngle ≥ openAngle ∨ camAngle ≤ closeAngle then
      let adjustedAngle := if camAngle ≥ openAngle then camAngle - 360 else camAngle
      let duration := closeAngle - (openAngle - 360)
      let progress := (adjustedAngle - (openAngle - 360)) / duration
      if progress ≥ 0 ∧ progress ≤ 1 then maxLift * Real.sin (progress * Real.pi) else 0
    else 0
  else if valveType = "exhaust" then
    let openAngle : ℝ := 130
    let closeAngle : ℝ := 350
    if camAngle ≥ openAngle ∧ camAngle ≤ closeAngle then
      let duration := closeAngle - openAngle
      let progress := (camAngle - openAngle) / duration
      maxLift * Real.sin (progress * Real.pi)
    else 0
  else 0

/-! ## The 2D engines as they are driven (`Inline4Engine2D.js`,
`V6Engine2D.js`, `BaseEngine2D.update`) -/

/-- An entry of `valvePositions`. -/
structure ValvePosition where
  intake : ℝ
  exhaust : ℝ

/-- The numeric fields of an `Inline4Engine2D` or `V6Engine2D` instance: the
fields of the base class and the three per-cylinder arrays, which hold
`cylinderCount` entries from `initializeComponents` on.  A piston position is
`none` when JavaScript stores `NaN`. -/
structure Engine2D where
  base : BaseEngine2D ℝ
  cylinderCount : ℕ
  crankRadius : ℝ
  rodLength : ℝ
  pistonPositions : List (Option ℝ)
  valvePositions : List ValvePosition
  combustionIntensities : List ℝ

/-- The state set up by the `Inline4Engine2D` constructor. -/
noncomputable def Inline4Engine2D.init : Engine2D :=
  ⟨BaseEngine2D.init, 4, 45, 150, List.replicate 4 (some 0), List.replicate 4 ⟨0, 0⟩,
    List.replicate 4 0⟩

/-- The state set up by the `V6Engine2D` constructor. -/
noncomputable def V6Engine2D.init : Engine2D :=
  ⟨BaseEngine2D.init, 6, 50, 160, List.replicate 6 (some 0), List.replicate 6 ⟨0, 0⟩,
    List.replicate 6 0⟩

/-- Source function `updatePiston(cylinderIndex, crankAngle)` of
`Inline4Engine2D.js` (lines 45-48): `calculatePistonPosition(crankAngle)` is
called with one argument, so `rodLength` and `crankRadius` take the defaults
150 and 45 of `BaseEngine2D.calculatePistonPosition`. -/
noncomputable def Inline4Engine2D.updatePiston (e : Engine2D) (cylinderIndex : ℕ)
    (crankAngle : ℝ) : Engine2D :=
  let pistonPosition := calculatePistonPosition crankAngle 150 45
  ⟨e.base, e.cylinderCount, e.crankRadius, e.rodLength,
    e.pistonPositions.set cylinderIndex pistonPosition, e.valvePositions,
    e.combustionIntensities⟩

/-- Source function `updateValves(cylinderIndex, crankAngle)` of
`Inline4Engine2D.js` (lines 50-58). -/
noncomputable def Inline4Engine2D.updateValves (e : Engine2D) (cylinderIndex : ℕ)
    (crankAngle : ℝ) : Engine2D :=
  let intakeLift := Inline4Engine2D.getValveLift "intake" crankAngle
  let exhaustLift := Inline4Engine2D.getValveLift "exhaust" crankAngle
  ⟨e.base, e.cylinderCount, e.crankRadius, e.rodLength, e.pistonPositions,
    e.valvePositions.set cylinderIndex ⟨intakeLift, exhaustLift⟩, e.combustionIntensities⟩

/-- Source function `updateCombustion(cylinderIndex, crankAngle)` of
`Inline4Engine2D.js` (lines 91-93). -/
noncomputable def Inline4Engine2D.updateCombustion (e : Engine2D) (cylinderIndex : ℕ)
    (crankAngle : ℝ) : Engine2D :=
  ⟨e.base, e.cylinderCount, e.crankRadius, e.rodLength, e.pistonPositions, e.valvePositions,
    e.combustionIntensities.set cylinderIndex
      (getCombustionIntensity Inline4Engine2D.getFiringOrder e.base.settings
        (cylinderIndex : ℤ) crankAngle)⟩

/-- Source function `updateAnimation(deltaTime)` of `Inline4Engine2D.js`
(lines 34-43). -/
noncomputable def Inline4Engine2D.updateAnimation (e : Engine2D) : Engine2D :=
  let crankAngle := e.base.crankAngle
  (List.range e.cylinderCount).foldl
    (fun (e : Engine2D) (i : ℕ) =>
      let cylinderCrankAngle := crankAngle + ((i % 2 : ℕ) : ℝ) * 180
      let e := Inline4Engine2D.updatePiston e i cylinderCrankAngle
      let e := Inline4Engine2D.updateValves e i cylinderCrankAngle
      Inline4Engine2D.updateCombustion e i cylinderCrankAngle)
    e

/-- Source function `update(deltaTime)` of `BaseEngine2D.js` (lines 191-195)
on an `Inline4Engine2D`: `time` grows, the crank angle is advanced, then
`updateAnimation` runs. -/
noncomputable def Inline4Engine2D.update (e : Engine2D) (deltaTime : ℝ) : Engine2D :=
  let base : BaseEngine2D ℝ := ⟨e.base.settings, e.base.time + deltaTime, e.base.crankAngle⟩
  let base := (base.calculateCrankAngle deltaTime).2
  Inline4Engine2D.updateAnimation
    ⟨base, e.cylinderCount, e.crankRadius, e.rodLength, e.pistonPositions, e.valvePositions,
      e.combustionIntensities⟩

/-- Source function `updatePiston(cylinderIndex, crankAngle)` of
`V6Engine2D.js` (lines 48-51): `calculatePistonPosition(crankAngle)` is called
with one argument, so `rodLength` and `crankRadius` take the defaults 150 and
45 of `BaseEngine2D.calculatePistonPosition`. -/
noncomputable def V6Engine2D.updatePiston (e : Engine2D) (cylinderIndex : ℕ)
    (crankAngle : ℝ) : Engine2D :=
  let pistonPosition := calculatePistonPosition crankAngle 150 45
  ⟨e.base, e.cylinderCount, e.crankRadius, e.rodLength,
    e.pistonPositions.set cylinderIndex pistonPosition, e.valvePositions,
    e.combustionIntensities⟩

/-- Source function `updateValves(cylinderIndex, crankAngle)` of
`V6Engine2D.js` (lines 53-61). -/
noncomputable def V6Engine2D.updateValves (e : Engine2D) (cylinderIndex : ℕ)
    (crankAngle : ℝ) : Engine2D :=
  let intakeLift := V6Engine2D.getValveLift "intake" crankAngle
  let exhaustLift := V6Engine2D.getValveLift "exhaust" crankAngle
  ⟨e.base, e.cylinderCount, e.crankRadius, e.rodLength, e.pistonPositions,
    e.valvePositions.set cylinderIndex ⟨intakeLift, exhaustLift⟩, e.combustionIntensities⟩

/-- Source function `updateCombustion(cylinderIndex, crankAngle)` of
`V6Engine2D.js` (lines 94-96). -/
noncomputable def V6Engine2D.updateCombustion (e : Engine2D) (cylinderIndex : ℕ)
    (crankAngle : ℝ) : Engine2D :=
  ⟨e.base, e.cylinderCount, e.crankRadius, e.rodLength, e.pistonPositions, e.valvePositions,
    e.combustionIntensities.set cylinderIndex
      (getCombustionIntensity V6Engine2D.getFiringOrder e.base.settings
        (cylinderIndex : ℤ) crankAngle)⟩

/-- Source function `updateAnimation(deltaTime)` of `V6Engine2D.js`
(lines 35-46). -/
noncomputable def V6Engine2D.updateAnimation (e : Engine2D) : Engine2D :=
  let crankAngle := e.base.crankAngle
  let firingOrder := V6Engine2D.getFiringOrder
  (List.range e.cylinderCount).foldl
    (fun (e : Engine2D) (i : ℕ) =>
      let firingOffset : ℝ := ((jsIndexOf firingOrder (i : ℤ) : ℤ) : ℝ) * 120
      let cylinderCrankAngle := crankAngle + firingOffset
      let e := V6Engine2D.updatePiston e i cylinderCrankAngle
      let e := V6Engine2D.updateValves e i cylinderCrankAngle
      V6Engine2D.updateCombustion e i cylinderCrankAngle)
    e

/-- The three per-cylinder arrays hold `n = cylinderCount` entries, as they do
from `initializeComponents` on (the loops only assign to indices below
`cylinderCount`). -/
def Engine2D.WellFormed (e : Engine2D) (n : ℕ) : Prop :=
  e.cylinderCount = n ∧ e.pistonPositions.length = n ∧ e.valvePositions.length = n
    ∧ e.combustionIntensities.length = n

/-! ## Lemmas on the JavaScript remainder -/

section RemLemmas

variable {K : Type} [LinearOrderedField K] [FloorRing K]

theorem jsRem_of_nonneg {x m : K} (hm : 0 < m) (hx : 0 ≤ x) :
    jsRem x m = x - m * ((⌊x / m⌋ : ℤ) : K) := by
  unfold jsRem
  rw [if_pos (div_nonneg hx hm.le)]

theorem jsRem_nonneg {x m : K} (hm : 0 < m) (hx : 0 ≤ x) : 0 ≤ jsRem x m := by
  rw [jsRem_of_nonneg hm hx]
  have h := Int.floor_le (x / m)
  have h2 : m * ((⌊x / m⌋ : ℤ) : K) ≤ m * (x / m) := mul_le_mul_of_nonneg_left h hm.le
  rw [mul_div_cancel₀ x hm.ne.symm] at h2
  linarith

theorem jsRem_lt {x m : K} (hm : 0 < m) (hx : 0 ≤ x) : jsRem x m < m := by
  rw [jsRem_of_nonneg hm hx]
  have h := Int.lt_floor_add_one (x / m)
  have h2 : m * (x / m) < m * (((⌊x / m⌋ : ℤ) : K) + 1) := mul_lt_mul_of_pos_left h hm
  rw [mul_div_cancel₀ x hm.ne.symm] at h2
  linarith

theorem jsRem_abs_lt {x m : K} (hm : 0 < m) : |jsRem x m| < m := by
  rcases le_or_lt 0 x with hx | hx
  · rw [abs_of_nonneg (jsRem_nonneg hm hx)]
    exact jsRem_lt hm hx
  · have hq : x / m < 0 := div_neg_of_neg_of_pos hx hm
    unfold jsRem
    rw [if_neg (not_le.mpr hq)]
    have h1 := Int.le_ceil (x / m)
    have h2 := Int.ceil_lt_add_one (x / m)
    have h3 : m * (x / m) ≤ m * ((⌈x / m⌉ : ℤ) : K) := mul_le_mul_of_nonneg_left h1 hm.le
    have h4 : m * ((⌈x / m⌉ : ℤ) : K) < m * (x / m + 1) := mul_lt_mul_of_pos_left h2 hm
    rw [mul_div_cancel₀ x hm.ne.symm] at h3
    rw [mul_add, mul_div_cancel₀ x hm.ne.symm] at h4
    rw [abs_lt]
    constructor <;> linarith

theorem jsRem_add_period {x m : K} (hm : 0 < m) (hx : 0 ≤ x) :
    jsRem (x + m) m = jsRem x m := by
  have hx2 : 0 ≤ x + m := by linarith
  rw [jsRem_of_nonneg hm hx2, jsRem_of_nonneg hm hx]
  have h : (x + m) / m = x / m + 1 := by
    field_simp
  rw [h, Int.floor_add_one]
  push_cast
  ring

theorem jsRem_small {x m : K} (h0 : 0 ≤ x) (h1 : x < m) : jsRem x m = x := by
  have hm : 0 < m := lt_of_le_of_lt h0 h1
  rw [jsRem_of_nonneg hm h0]
  have hf : ⌊x / m⌋ = 0 := by
    rw [Int.floor_eq_iff]
    constructor
    · simpa using div_nonneg h0 hm.le
    · simpa using (div_lt_one hm).mpr h1
  rw [hf]
  simp

theorem jsRem_exists_int (x m : K) : ∃ n : ℤ, jsRem x m = x - m * (n : K) := by
  unfold jsRem
  split_ifs
  · exact ⟨_, rfl⟩
  · exact ⟨_, rfl⟩

theorem jsRem_of_abs_lt {x m : K} (h : |x| < m) : jsRem x m = x := by
  have hm : 0 < m := lt_of_le_of_lt (abs_nonneg x) h
  rcases le_or_lt 0 x with hx | hx
  · exact jsRem_small hx (abs_lt.mp h).2
  · have hq : x / m < 0 := div_neg_of_neg_of_pos hx hm
    have hc : ⌈x / m⌉ = 0 := by
      rw [Int.ceil_eq_iff]
      constructor
      · have : -1 < x / m := by
          rw [lt_div_iff₀ hm]
          linarith [(abs_lt.mp h).1]
        simpa using this
      · simpa using hq.le
    unfold jsRem
    rw [if_neg (not_le.mpr hq), hc]
    simp

theorem jsRem_le_of_nonneg {x m : K} (hm : 0 < m) (hx : 0 ≤ x) : jsRem x m ≤ x := by
  rw [jsRem_of_nonneg hm hx]
  have h : (0 : K) ≤ ((⌊x / m⌋ : ℤ) : K) := by
    exact_mod_cast Int.floor_nonneg.mpr (div_nonneg hx hm.le)
  have := mul_nonneg hm.le h
  linarith

theorem jsRem_nonpos_of_neg {x m : K} (hm : 0 < m) (hx : x < 0) : jsRem x m ≤ 0 := by
  have hq : x / m < 0 := div_neg_of_neg_of_pos hx hm
  unfold jsRem
  rw [if_neg (not_le.mpr hq)]
  have h1 := Int.le_ceil (x / m)
  have h3 : m * (x / m) ≤ m * ((⌈x / m⌉ : ℤ) : K) := mul_le_mul_of_nonneg_left h1 hm.le
  rw [mul_div_cancel₀ x hm.ne.symm] at h3
  linarith

end RemLemmas

/-! ## Crank angle integration -/

section CrankAngle

variable {K : Type} [LinearOrderedField K] [FloorRing K]

theorem calculateCrankAngle_range (e : BaseEngine2D K) (dt : K)
    (hrpm : 0 ≤ e.settings.rpm) (hdt : 0 ≤ dt) (h0 : 0 ≤ e.crankAngle) :
    0 ≤ (e.calculateCrankAngle dt).2.crankAngle ∧
      (e.calculateCrankAngle dt).2.crankAngle < 360 := by
  have hx : 0 ≤ e.crankAngle + e.settings.rpm / 60 * 360 * dt := by positivity
  exact ⟨jsRem_nonneg (by norm_num) hx, jsRem_lt (by norm_num) hx⟩

theorem advanceFrames_range (frames : List (EngineSettings K × K)) :
    ∀ e : BaseEngine2D K, 0 ≤ e.crankAngle → e.crankAngle < 360 →
      (∀ f ∈ frames, 0 < f.1.rpm ∧ 0 ≤ f.2) →
      0 ≤ (e.advanceFrames frames).crankAngle ∧ (e.advanceFrames frames).crankAngle < 360 := by
  induction frames with
  | nil => intro e h0 h1 _; exact ⟨h0, h1⟩
  | cons f rest ih =>
    intro e h0 h1 hf
    obtain ⟨s, dt⟩ := f
    have hs := hf (s, dt) (List.mem_cons_self _ _)
    have hstep := calculateCrankAngle_range (e.updateSettings s) dt hs.1.le hs.2 h0
    exact ih _ hstep.1 hstep.2 (fun g hg => hf g (List.mem_cons_of_mem _ hg))

/-- C1: for rpm > 0, deltaTime ≥ 0 and a stored crank angle in [0,360) (only
its lower bound is used), `calculateCrankAngle` stores and returns the
advanced angle reduced modulo 360, which is again in [0,360); and every run of
such frames from the initial engine (crank angle 0) keeps the crank angle in
[0,360). -/
theorem C1_crank_angle_in_range (e : BaseEngine2D K) (dt : K)
    (frames : List (EngineSettings K × K))
    (hrpm : 0 < e.settings.rpm) (hdt : 0 ≤ dt) (h0 : 0 ≤ e.crankAngle)
    (hframes : ∀ f ∈ frames, 0 < f.1.rpm ∧ 0 ≤ f.2) :
    ((e.calculateCrankAngle dt).1
        = (e.crankAngle + e.settings.rpm / 60 * 360 * dt)
          - 360 * ((⌊(e.crankAngle + e.settings.rpm / 60 * 360 * dt) / 360⌋ : ℤ) : K)
      ∧ (e.calculateCrankAngle dt).2.crankAngle = (e.calculateCrankAngle dt).1
      ∧ 0 ≤ (e.calculateCrankAngle dt).1 ∧ (e.calculateCrankAngle dt).1 < 360)
    ∧ (0 ≤ ((BaseEngine2D.init : BaseEngine2D K).advanceFrames frames).crankAngle
      ∧ ((BaseEngine2D.init : BaseEngine2D K).advanceFrames frames).crankAngle < 360) := by
  have hx : 0 ≤ e.crankAngle + e.settings.rpm / 60 * 360 * dt := by positivity
  refine ⟨⟨jsRem_of_nonneg (by norm_num) hx, rfl, ?_, ?_⟩, ?_⟩
  · exact (calculateCrankAngle_range e dt hrpm.le hdt h0).1
  · exact (calculateCrankAngle_range e dt hrpm.le hdt h0).2
  · exact advanceFrames_range frames BaseEngine2D.init (le_refl _) (by norm_num [BaseEngine2D.init]) hframes

/-- Witness for C1: an engine at 600 rpm with crank angle 350, one frame of a
tenth of a second, then two frames from the initial engine. -/
theorem C1_crank_angle_in_range_witness :
    (0 : ℚ) ≤ ((⟨⟨600, 25, 147 / 10, 15, 0⟩, 0, 350⟩ : BaseEngine2D ℚ).calculateCrankAngle
        (1 / 10)).1
      ∧ ((⟨⟨600, 25, 147 / 10, 15, 0⟩, 0, 350⟩ : BaseEngine2D ℚ).calculateCrankAngle
        (1 / 10)).1 < 360 :=
  (C1_crank_angle_in_range (⟨⟨600, 25, 147 / 10, 15, 0⟩, 0, 350⟩ : BaseEngine2D ℚ) (1 / 10)
    [(⟨800, 25, 147 / 10, 15, 0⟩, 1 / 60), (⟨6000, 80, 147 / 10, 15, 0⟩, 1 / 10)]
    (by norm_num) (by norm_num) (by norm_num)
    (by
      intro f hf
      simp only [List.mem_cons, List.mem_singleton, List.not_mem_nil, or_false] at hf
      rcases hf with rfl | rfl <;> norm_num)).1.2.2

end CrankAngle

/-! ## Valve lift -/

theorem calculateValveLift_eq (camAngle : ℝ) (valveType : String) :
    CamshaftDetail2D.calculateValveLift camAngle valveType
      = halfSineLift 12 camAngle valveType := rfl

theorem inline4_getValveLift_eq (valveType : String) (crankAngle : ℝ) :
    Inline4Engine2D.getValveLift valveType crankAngle
      = halfSineLift 15 (jsRem (crankAngle / 2) 360) valveType := rfl

theorem v6_getValveLift_eq (valveType : String) (crankAngle : ℝ) :
    V6Engine2D.getValveLift valveType crankAngle
      = halfSineLift 12 (jsRem (crankAngle / 2) 360) valveType := rfl

theorem sin_mul_pi_nonneg {p : ℝ} (h0 : 0 ≤ p) (h1 : p ≤ 1) : 0 ≤ Real.sin (p * Real.pi) := by
  apply Real.sin_nonneg_of_nonneg_of_le_pi
  · exact mul_nonneg h0 Real.pi_pos.le
  · calc p * Real.pi ≤ 1 * Real.pi := mul_le_mul_of_nonneg_right h1 Real.pi_pos.le
      _ = Real.pi := one_mul _

theorem sin_mul_pi_pos {p : ℝ} (h0 : 0 < p) (h1 : p < 1) : 0 < Real.sin (p * Real.pi) := by
  apply Real.sin_pos_of_pos_of_lt_pi
  · exact mul_pos h0 Real.pi_pos
  · calc p * Real.pi < 1 * Real.pi := mul_lt_mul_of_pos_right h1 Real.pi_pos
      _ = Real.pi := one_mul _

theorem halfSineLift_bounds (maxLift camAngle : ℝ) (valveType : String) (hM : 0 ≤ maxLift) :
    0 ≤ halfSineLift maxLift camAngle valveType
      ∧ halfSineLift maxLift camAngle valveType ≤ maxLift := by
  simp only [halfSineLift]
  split_ifs with h1 h2 h3 h4 h5 h6 h7
  all_goals first
    | exact ⟨le_refl _, hM⟩
    | skip
  · exact ⟨mul_nonneg hM (sin_mul_pi_nonneg h4.1 h4.2),
      mul_le_of_le_one_right hM (Real.sin_le_one _)⟩
  · exact ⟨mul_nonneg hM (sin_mul_pi_nonneg h5.1 h5.2),
      mul_le_of_le_one_right hM (Real.sin_le_one _)⟩
  · have hp0 : 0 ≤ (camAngle - 130) / (350 - 130) := by
      apply div_nonneg
      · linarith [h7.1]
      · norm_num
    have hp1 : (camAngle - 130) / (350 - 130) ≤ 1 := by
      rw [div_le_one (by norm_num)]
      linarith [h7.2]
    exact ⟨mul_nonneg hM (sin_mul_pi_nonneg hp0 hp1),
      mul_le_of_le_one_right hM (Real.sin_le_one _)⟩

theorem halfSineLift_intake_low (maxLift a : ℝ) (h0 : -10 ≤ a) (h1 : a ≤ 110) :
    halfSineLift maxLift a "intake" = maxLift * Real.sin ((a + 10) / 120 * Real.pi) := by
  have hn : ¬ a ≥ 350 := by
    intro h
    linarith
  have hp : (a - (350 - 360)) / (110 - (350 - 360)) ≥ 0
      ∧ (a - (350 - 360)) / (110 - (350 - 360)) ≤ 1 := by
    constructor
    · apply div_nonneg
      · linarith
      · norm_num
    · rw [div_le_one (by norm_num)]
      linarith
  unfold halfSineLift
  dsimp only
  rw [if_pos rfl, if_pos (Or.inr h1), if_neg hn, if_pos hp]
  norm_num

theorem halfSineLift_intake_high (maxLift a : ℝ) (h0 : 350 ≤ a) (h1 : a ≤ 470) :
    halfSineLift maxLift a "intake" = maxLift * Real.sin ((a - 350) / 120 * Real.pi) := by
  have hp : (a - 360 - (350 - 360)) / (110 - (350 - 360)) ≥ 0
      ∧ (a - 360 - (350 - 360)) / (110 - (350 - 360)) ≤ 1 := by
    constructor
    · apply div_nonneg
      · linarith
      · norm_num
    · rw [div_le_one (by norm_num)]
      linarith
  unfold halfSineLift
  dsimp only
  rw [if_pos rfl, if_pos (Or.inl h0), if_pos h0, if_pos hp]
  congr 2
  ring

theorem halfSineLift_exhaust (maxLift a : ℝ) (h0 : 130 ≤ a) (h1 : a ≤ 350) :
    halfSineLift maxLift a "exhaust" = maxLift * Real.sin ((a - 130) / 220 * Real.pi) := by
  unfold halfSineLift
  dsimp only
  rw [if_neg (by decide), if_pos rfl, if_pos ⟨h0, h1⟩]
  norm_num

/-- C2: for every crank angle and for both valve types (indeed for every value
of `valveType`), `getValveLift` lies in [0, maxLift] with maxLift 15 in
`Inline4Engine2D` and 12 in `V6Engine2D`; `calculateValveLift` of
`CamshaftDetail2D` lies in [0, 12] for every cam angle. -/
theorem C2_valve_lift_within_bounds (valveType : String) (crankAngle camAngle : ℝ) :
    (0 ≤ Inline4Engine2D.getValveLift valveType crankAngle
        ∧ Inline4Engine2D.getValveLift valveType crankAngle ≤ 15)
      ∧ (0 ≤ V6Engine2D.getValveLift valveType crankAngle
        ∧ V6Engine2D.getValveLift valveType crankAngle ≤ 12)
      ∧ (0 ≤ CamshaftDetail2D.calculateValveLift camAngle valveType
        ∧ CamshaftDetail2D.calculateValveLift camAngle valveType ≤ 12) := by
  rw [inline4_getValveLift_eq, v6_getValveLift_eq, calculateValveLift_eq]
  exact ⟨halfSineLift_bounds 15 _ _ (by norm_num), halfSineLift_bounds 12 _ _ (by norm_num),
    halfSineLift_bounds 12 _ _ (by norm_num)⟩

/-- C3: in `calculateValveLift` the lift is 0 at the window boundaries (intake
at cam angles 350 and 110, exhaust at 130 and 350), strictly positive strictly
inside each window (intake: 350 < a < 360 or 0 ≤ a < 110; exhaust:
130 < b < 350) and equal to maxLift = 12 at the window midpoint (intake at 50,
exhaust at 240). -/
theorem C3_lift_zero_at_boundaries_max_at_midpoint (a b : ℝ)
    (ha : (350 < a ∧ a < 360) ∨ (0 ≤ a ∧ a < 110)) (hb : 130 < b ∧ b < 350) :
    CamshaftDetail2D.calculateValveLift 350 "intake" = 0
      ∧ CamshaftDetail2D.calculateValveLift 110 "intake" = 0
      ∧ CamshaftDetail2D.calculateValveLift 130 "exhaust" = 0
      ∧ CamshaftDetail2D.calculateValveLift 350 "exhaust" = 0
      ∧ 0 < CamshaftDetail2D.calculateValveLift a "intake"
      ∧ 0 < CamshaftDetail2D.calculateValveLift b "exhaust"
      ∧ CamshaftDetail2D.calculateValveLift 50 "intake" = 12
      ∧ CamshaftDetail2D.calculateValveLift 240 "exhaust" = 12 := by
  simp only [calculateValveLift_eq]
  refine ⟨?_, ?_, ?_, ?_, ?_, ?_, ?_, ?_⟩
  · rw [halfSineLift_intake_high 12 350 (by norm_num) (by norm_num)]
    norm_num
  · rw [halfSineLift_intake_low 12 110 (by norm_num) (by norm_num)]
    norm_num
  · rw [halfSineLift_exhaust 12 130 (by norm_num) (by norm_num)]
    norm_num
  · rw [halfSineLift_exhaust 12 350 (by norm_num) (by norm_num)]
    norm_num
  · rcases ha with ⟨h0, h1⟩ | ⟨h0, h1⟩
    · rw [halfSineLift_intake_high 12 a h0.le (by linarith)]
      have hp0 : 0 < (a - 350) / 120 := div_pos (by linarith) (by norm_num)
      have hp1 : (a - 350) / 120 < 1 := by
        rw [div_lt_one (by norm_num)]
        linarith
      exact mul_pos (by norm_num) (sin_mul_pi_pos hp0 hp1)
    · rw [halfSineLift_intake_low 12 a (by linarith) h1.le]
      have hp0 : 0 < (a + 10) / 120 := div_pos (by linarith) (by norm_num)
      have hp1 : (a + 10) / 120 < 1 := by
        rw [div_lt_one (by norm_num)]
        linarith
      exact mul_pos (by norm_num) (sin_mul_pi_pos hp0 hp1)
  · rw [halfSineLift_exhaust 12 b hb.1.le hb.2.le]
    have hp0 : 0 < (b - 130) / 220 := div_pos (by linarith [hb.1]) (by norm_num)
    have hp1 : (b - 130) / 220 < 1 := by
      rw [div_lt_one (by norm_num)]
      linarith [hb.2]
    exact mul_pos (by norm_num) (sin_mul_pi_pos hp0 hp1)
  · rw [halfSineLift_intake_low 12 50 (by norm_num) (by norm_num)]
    have h : ((50 : ℝ) + 10) / 120 * Real.pi = Real.pi / 2 := by ring
    rw [h, Real.sin_pi_div_two]
    norm_num
  · rw [halfSineLift_exhaust 12 240 (by norm_num) (by norm_num)]
    have h : ((240 : ℝ) - 130) / 220 * Real.pi = Real.pi / 2 := by ring
    rw [h, Real.sin_pi_div_two]
    norm_num

/-- Witness for C3: cam angle 355 inside the wrapped intake window and cam
angle 200 inside the exhaust window. -/
theorem C3_lift_zero_at_boundaries_max_at_midpoint_witness :
    0 < CamshaftDetail2D.calculateValveLift 355 "intake"
      ∧ 0 < CamshaftDetail2D.calculateValveLift 200 "exhaust" :=
  have h := C3_lift_zero_at_boundaries_max_at_midpoint 355 200
    (Or.inl ⟨by norm_num, by norm_num⟩) ⟨by norm_num, by norm_num⟩
  ⟨h.2.2.2.2.1, h.2.2.2.2.2.1⟩

/-- C4: the intake lift agrees at cam angles 0 and 360 (both
`maxLift * sin(π/12)`), and for every crank angle c ≥ 0 and every valve type
`getValveLift(type, c + 720) = getValveLift(type, c)` in both 2D engines. -/
theorem C4_lift_wrap_continuity (c : ℝ) (valveType : String) (hc : 0 ≤ c) :
    CamshaftDetail2D.calculateValveLift 0 "intake"
        = CamshaftDetail2D.calculateValveLift 360 "intake"
      ∧ CamshaftDetail2D.calculateValveLift 0 "intake" = 12 * Real.sin (Real.pi / 12)
      ∧ Inline4Engine2D.getValveLift valveType (c + 720)
        = Inline4Engine2D.getValveLift valveType c
      ∧ V6Engine2D.getValveLift valveType (c + 720) = V6Engine2D.getValveLift valveType c := by
  have hper : jsRem ((c + 720) / 2) 360 = jsRem (c / 2) 360 := by
    have h : (c + 720) / 2 = c / 2 + 360 := by ring
    rw [h]
    exact jsRem_add_period (by norm_num) (by positivity)
  have h0 : CamshaftDetail2D.calculateValveLift 0 "intake" = 12 * Real.sin (Real.pi / 12) := by
    rw [calculateValveLift_eq, halfSineLift_intake_low 12 0 (by norm_num) (by norm_num)]
    congr 2
    ring
  have h360 : CamshaftDetail2D.calculateValveLift 360 "intake"
      = 12 * Real.sin (Real.pi / 12) := by
    rw [calculateValveLift_eq, halfSineLift_intake_high 12 360 (by norm_num) (by norm_num)]
    congr 2
    ring
  refine ⟨by rw [h0, h360], h0, ?_, ?_⟩
  · rw [inline4_getValveLift_eq, inline4_getValveLift_eq, hper]
  · rw [v6_getValveLift_eq, v6_getValveLift_eq, hper]

/-- Witness for C4: crank angle 700 (cam angle 350) and the intake valve. -/
theorem C4_lift_wrap_continuity_witness :
    Inline4Engine2D.getValveLift "intake" (700 + 720)
      = Inline4Engine2D.getValveLift "intake" 700 :=
  (C4_lift_wrap_continuity 700 "intake" (by norm_num)).2.2.1

/-! ## Combustion timing -/

theorem getCombustionIntensity_unfold (firingOrder : List ℤ) (s : EngineSettings ℝ) (k : ℤ)
    (c : ℝ) (h : firingOrder ≠ []) :
    getCombustionIntensity firingOrder s k c
      = if adjustedAngle firingOrder k c ≥ 720 - s.ignitionTiming
            ∧ adjustedAngle firingOrder k c ≤ 720 - s.ignitionTiming + 60
        then max 0 (Real.sin ((adjustedAngle firingOrder k c - (720 - s.ignitionTiming)) / 60
            * Real.pi) * s.throttle / 100)
        else 0 := by
  unfold getCombustionIntensity
  rw [if_neg (by simpa using h)]

theorem getCombustionIntensity_nonneg (firingOrder : List ℤ) (s : EngineSettings ℝ) (k : ℤ)
    (c : ℝ) : 0 ≤ getCombustionIntensity firingOrder s k c := by
  simp only [getCombustionIntensity]
  split_ifs
  · exact le_refl _
  · exact le_max_left _ _
  · exact le_refl _

theorem window_of_pos (firingOrder : List ℤ) (s : EngineSettings ℝ) (k : ℤ) (c : ℝ)
    (h : 0 < getCombustionIntensity firingOrder s k c) :
    720 - s.ignitionTiming ≤ adjustedAngle firingOrder k c
      ∧ 0 < Real.sin ((adjustedAngle firingOrder k c - (720 - s.ignitionTiming)) / 60
            * Real.pi) * s.throttle / 100 := by
  simp only [getCombustionIntensity] at h
  split_ifs at h with h1 h2
  · exact absurd h (lt_irrefl _)
  · refine ⟨h2.1, ?_⟩
    rcases lt_max_iff.mp h with h3 | h3
    · exact absurd h3 (lt_irrefl _)
    · exact h3
  · exact absurd h (lt_irrefl _)

theorem adjustedAngle_lt (firingOrder : List ℤ) (k : ℤ) (c : ℝ) :
    adjustedAngle firingOrder k c < 720 :=
  (abs_lt.mp (jsRem_abs_lt (by norm_num))).2

/-- C5: for every cylinder index, crank angle and ignition timing, and every
throttle in [0,100], `getCombustionIntensity` returns a value in [0,1]
(whatever the firing order). -/
theorem C5_combustion_intensity_in_unit_interval (firingOrder : List ℤ)
    (s : EngineSettings ℝ) (cylinderIndex : ℤ) (crankAngle : ℝ)
    (h0 : 0 ≤ s.throttle) (h1 : s.throttle ≤ 100) :
    0 ≤ getCombustionIntensity firingOrder s cylinderIndex crankAngle
      ∧ getCombustionIntensity firingOrder s cylinderIndex crankAngle ≤ 1 := by
  refine ⟨getCombustionIntensity_nonneg _ _ _ _, ?_⟩
  simp only [getCombustionIntensity]
  split_ifs
  · exact zero_le_one
  · apply max_le zero_le_one
    rw [div_le_one (by norm_num)]
    calc Real.sin _ * s.throttle ≤ 1 * s.throttle :=
          mul_le_mul_of_nonneg_right (Real.sin_le_one _) h0
      _ = s.throttle := one_mul _
      _ ≤ 100 := h1
  · exact zero_le_one

/-- Witness for C5: the inline-4 order at full throttle, cylinder 1, crank
angle 355. -/
theorem C5_combustion_intensity_in_unit_interval_witness :
    0 ≤ getCombustionIntensity Inline4Engine2D.getFiringOrder ⟨4000, 100, 147 / 10, 15, 0⟩ 1 355
      ∧ getCombustionIntensity Inline4Engine2D.getFiringOrder ⟨4000, 100, 147 / 10, 15, 0⟩ 1 355
        ≤ 1 :=
  C5_combustion_intensity_in_unit_interval Inline4Engine2D.getFiringOrder
    ⟨4000, 100, 147 / 10, 15, 0⟩ 1 355 (by norm_num) (by norm_num)

theorem cylinderOffset_inline4 :
    cylinderOffset Inline4Engine2D.getFiringOrder 1 = 0
      ∧ cylinderOffset Inline4Engine2D.getFiringOrder 3 = 180
      ∧ cylinderOffset Inline4Engine2D.getFiringOrder 4 = 360
      ∧ cylinderOffset Inline4Engine2D.getFiringOrder 2 = 540 := by
  have i1 : jsIndexOf Inline4Engine2D.getFiringOrder 1 = 0 := by decide
  have i3 : jsIndexOf Inline4Engine2D.getFiringOrder 3 = 1 := by decide
  have i4 : jsIndexOf Inline4Engine2D.getFiringOrder 4 = 2 := by decide
  have i2 : jsIndexOf Inline4Engine2D.getFiringOrder 2 = 3 := by decide
  have hl : Inline4Engine2D.getFiringOrder.length = 4 := rfl
  refine ⟨?_, ?_, ?_, ?_⟩
  · rw [cylinderOffset, i1, hl]
    norm_num
    exact jsRem_small (le_refl _) (by norm_num)
  · rw [cylinderOffset, i3, hl]
    norm_num
    exact jsRem_small (by norm_num) (by norm_num)
  · rw [cylinderOffset, i4, hl]
    norm_num
    exact jsRem_small (by norm_num) (by norm_num)
  · rw [cylinderOffset, i2, hl]
    norm_num
    exact jsRem_small (by norm_num) (by norm_num)

theorem cylinderOffset_v6 :
    cylinderOffset V6Engine2D.getFiringOrder 1 = 0
      ∧ cylinderOffset V6Engine2D.getFiringOrder 4 = 120
      ∧ cylinderOffset V6Engine2D.getFiringOrder 2 = 240
      ∧ cylinderOffset V6Engine2D.getFiringOrder 5 = 360
      ∧ cylinderOffset V6Engine2D.getFiringOrder 3 = 480
      ∧ cylinderOffset V6Engine2D.getFiringOrder 6 = 600 := by
  have i1 : jsIndexOf V6Engine2D.getFiringOrder 1 = 0 := by decide
  have i4 : jsIndexOf V6Engine2D.getFiringOrder 4 = 1 := by decide
  have i2 : jsIndexOf V6Engine2D.getFiringOrder 2 = 2 := by decide
  have i5 : jsIndexOf V6Engine2D.getFiringOrder 5 = 3 := by decide
  have i3 : jsIndexOf V6Engine2D.getFiringOrder 3 = 4 := by decide
  have i6 : jsIndexOf V6Engine2D.getFiringOrder 6 = 5 := by decide
  have hl : V6Engine2D.getFiringOrder.length = 6 := rfl
  refine ⟨?_, ?_, ?_, ?_, ?_, ?_⟩
  · rw [cylinderOffset, i1, hl]
    norm_num
    exact jsRem_small (le_refl _) (by norm_num)
  · rw [cylinderOffset, i4, hl]
    norm_num
    exact jsRem_small (by norm_num) (by norm_num)
  · rw [cylinderOffset, i2, hl]
    norm_num
    exact jsRem_small (by norm_num) (by norm_num)
  · rw [cylinderOffset, i5, hl]
    norm_num
    exact jsRem_small (by norm_num) (by norm_num)
  · rw [cylinderOffset, i3, hl]
    norm_num
    exact jsRem_small (by norm_num) (by norm_num)
  · rw [cylinderOffset, i6, hl]
    norm_num
    exact jsRem_small (by norm_num) (by norm_num)

theorem inline4_order_ne_nil : Inline4Engine2D.getFiringOrder ≠ [] := by decide

theorem v6_order_ne_nil : V6Engine2D.getFiringOrder ≠ [] := by decide

theorem sin_mul_pi_lt_one {p : ℝ} (h0 : 0 ≤ p) (h1 : p < 1 / 2) :
    Real.sin (p * Real.pi) < 1 := by
  have hpi := Real.pi_pos
  have hlt : p * Real.pi < Real.pi / 2 := by
    have := mul_lt_mul_of_pos_right h1 hpi
    linarith
  have hge : -(Real.pi / 2) ≤ p * Real.pi := by
    have := mul_nonneg h0 hpi.le
    linarith
  have h := Real.sin_lt_sin_of_lt_of_le_pi_div_two hge (le_refl _) hlt
  rwa [Real.sin_pi_div_two] at h

/-- C6 (behaviour of the code at the default ignition timing 15 and full
throttle, inline-4 order, cylinder 1): the intensity stays strictly below
throttle/100 = 1 at every crank angle, so the mid-window value is never
returned; and at crank angle 7.5, where the adjusted angle 15 is the midpoint
735 of the window [705,765] taken modulo 720, the result is 0. -/
theorem C6_wrapped_window_never_fires :
    (∀ c : ℝ, getCombustionIntensity Inline4Engine2D.getFiringOrder
        ⟨4000, 100, 147 / 10, 15, 0⟩ 1 c < 1)
      ∧ adjustedAngle Inline4Engine2D.getFiringOrder 1 (15 / 2) = 15
      ∧ getCombustionIntensity Inline4Engine2D.getFiringOrder
        ⟨4000, 100, 147 / 10, 15, 0⟩ 1 (15 / 2) = 0 := by
  have hadj : adjustedAngle Inline4Engine2D.getFiringOrder 1 (15 / 2) = 15 := by
    rw [adjustedAngle, cylinderOffset_inline4.1]
    norm_num
    exact jsRem_small (by norm_num) (by norm_num)
  refine ⟨?_, hadj, ?_⟩
  · intro c
    rw [getCombustionIntensity_unfold _ _ _ _ inline4_order_ne_nil]
    have hlt := adjustedAngle_lt Inline4Engine2D.getFiringOrder 1 c
    split_ifs with h
    · apply max_lt zero_lt_one
      have hp0 : 0 ≤ (adjustedAngle Inline4Engine2D.getFiringOrder 1 c - (720 - 15)) / 60 :=
        div_nonneg (by linarith [h.1]) (by norm_num)
      have hp1 : (adjustedAngle Inline4Engine2D.getFiringOrder 1 c - (720 - 15)) / 60
          < 1 / 2 := by
        rw [div_lt_iff₀ (by norm_num)]
        linarith
      have hs := sin_mul_pi_lt_one hp0 hp1
      linarith
    · exact zero_lt_one
  · rw [getCombustionIntensity_unfold _ _ _ _ inline4_order_ne_nil, hadj]
    rw [if_neg]
    norm_num

theorem adjustedAngle_shift (firingOrder : List ℤ) (k k0 : ℤ) (c : ℝ)
    (h0 : cylinderOffset firingOrder k0 = 0) :
    adjustedAngle firingOrder k0 (c + cylinderOffset firingOrder k / 2)
      = adjustedAngle firingOrder k c := by
  unfold adjustedAngle
  rw [h0]
  congr 1
  ring

theorem cylinder1_fires (rpm afr boost c : ℝ)
    (h : 705 < adjustedAngle Inline4Engine2D.getFiringOrder 1 c) :
    0 < getCombustionIntensity Inline4Engine2D.getFiringOrder ⟨rpm, 100, afr, 15, boost⟩ 1 c := by
  have hlt := adjustedAngle_lt Inline4Engine2D.getFiringOrder 1 c
  rw [getCombustionIntensity_unfold _ _ _ _ inline4_order_ne_nil]
  rw [if_pos ⟨by norm_num; exact h.le, by norm_num; linarith⟩]
  apply lt_max_of_lt_right
  have hp0 : 0 < (adjustedAngle Inline4Engine2D.getFiringOrder 1 c - (720 - 15)) / 60 :=
    div_pos (by linarith) (by norm_num)
  have hp1 : (adjustedAngle Inline4Engine2D.getFiringOrder 1 c - (720 - 15)) / 60 < 1 := by
    rw [div_lt_one (by norm_num)]
    linarith
  have hs := sin_mul_pi_pos hp0 hp1
  simp only []
  linarith

theorem adjustedAngle_inline4_one (c : ℝ) (h0 : 0 ≤ c) (h1 : c < 360) :
    adjustedAngle Inline4Engine2D.getFiringOrder 1 c = c * 2 := by
  rw [adjustedAngle, cylinderOffset_inline4.1, add_zero]
  exact jsRem_small (by linarith) (by linarith)

theorem cylinder1_fires_at_355 :
    0 < getCombustionIntensity Inline4Engine2D.getFiringOrder
      ⟨4000, 100, 147 / 10, 15, 0⟩ 1 355 :=
  cylinder1_fires 4000 (147 / 10) 0 355
    (by rw [adjustedAngle_inline4_one 355 (by norm_num) (by norm_num)]; norm_num)

/-- C7: for the firing order [1,3,4,2] the offsets of cylinders 1, 3, 4, 2 are
0, 180, 360, 540; with ignition timing 15 and throttle 100 the intensity of
cylinder 1 is 0 wherever its adjusted angle is below 705 and positive wherever
it is above 705 (it is always below 720); and for every cylinder k and crank
angle c, `getCombustionIntensity(k, c)` equals
`getCombustionIntensity(1, c + offset(k)/2)`. -/
theorem C7_firing_order_phase_shift (s : EngineSettings ℝ) (rpm afr boost : ℝ) (k : ℤ)
    (c c₀ c₁ : ℝ)
    (h₀ : adjustedAngle Inline4Engine2D.getFiringOrder 1 c₀ < 705)
    (h₁ : 705 < adjustedAngle Inline4Engine2D.getFiringOrder 1 c₁) :
    (cylinderOffset Inline4Engine2D.getFiringOrder 1 = 0
        ∧ cylinderOffset Inline4Engine2D.getFiringOrder 3 = 180
        ∧ cylinderOffset Inline4Engine2D.getFiringOrder 4 = 360
        ∧ cylinderOffset Inline4Engine2D.getFiringOrder 2 = 540)
      ∧ getCombustionIntensity Inline4Engine2D.getFiringOrder ⟨rpm, 100, afr, 15, boost⟩ 1 c₀ = 0
      ∧ 0 < getCombustionIntensity Inline4Engine2D.getFiringOrder
          ⟨rpm, 100, afr, 15, boost⟩ 1 c₁
      ∧ adjustedAngle Inline4Engine2D.getFiringOrder 1 c₁ < 720
      ∧ getCombustionIntensity Inline4Engine2D.getFiringOrder s k c
        = getCombustionIntensity Inline4Engine2D.getFiringOrder s 1
            (c + cylinderOffset Inline4Engine2D.getFiringOrder k / 2) := by
  have hlt := adjustedAngle_lt Inline4Engine2D.getFiringOrder 1 c₁
  refine ⟨cylinderOffset_inline4, ?_, ?_, hlt, ?_⟩
  · rw [getCombustionIntensity_unfold _ _ _ _ inline4_order_ne_nil]
    apply if_neg
    intro h
    have := h.1
    norm_num at this
    linarith
  · exact cylinder1_fires rpm afr boost c₁ h₁
  · rw [getCombustionIntensity_unfold _ _ _ _ inline4_order_ne_nil,
      getCombustionIntensity_unfold _ _ _ _ inline4_order_ne_nil,
      adjustedAngle_shift _ k 1 c cylinderOffset_inline4.1]

/-- Witness for C7: cylinder 3 at crank angle 100, with crank angle 0 outside
and crank angle 355 (adjusted angle 710) inside the window of cylinder 1. -/
theorem C7_firing_order_phase_shift_witness :
    getCombustionIntensity Inline4Engine2D.getFiringOrder ⟨4000, 100, 147 / 10, 15, 0⟩ 1 0 = 0
      ∧ 0 < getCombustionIntensity Inline4Engine2D.getFiringOrder
          ⟨4000, 100, 147 / 10, 15, 0⟩ 1 355 :=
  have h := C7_firing_order_phase_shift ⟨4000, 100, 147 / 10, 15, 0⟩ 4000 (147 / 10) 0 3
    100 0 355
    (by rw [adjustedAngle_inline4_one 0 (le_refl _) (by norm_num)]; norm_num)
    (by rw [adjustedAngle_inline4_one 355 (by norm_num) (by norm_num)]; norm_num)
  ⟨h.2.1, h.2.2.1⟩

/-- Two adjusted angles that both lie in [660, 720) belong to offsets that are
the same multiple of 60, when the two multiples differ by less than 12. -/
theorem same_offset_of_both_in_window (x o₁ o₂ : ℝ) (a b : ℤ)
    (ho₁ : o₁ = 60 * (a : ℝ)) (ho₂ : o₂ = 60 * (b : ℝ))
    (hab₁ : a - b < 12) (hab₂ : -12 < a - b)
    (h₁ : 660 ≤ jsRem (x + o₁) 720) (h₂ : 660 ≤ jsRem (x + o₂) 720) : a = b := by
  obtain ⟨n₁, hn₁⟩ := jsRem_exists_int (x + o₁) (720 : ℝ)
  obtain ⟨n₂, hn₂⟩ := jsRem_exists_int (x + o₂) (720 : ℝ)
  have u₁ : jsRem (x + o₁) 720 < (720 : ℝ) := (abs_lt.mp (jsRem_abs_lt (by norm_num))).2
  have u₂ : jsRem (x + o₂) 720 < (720 : ℝ) := (abs_lt.mp (jsRem_abs_lt (by norm_num))).2
  rw [hn₁] at h₁ u₁
  rw [hn₂] at h₂ u₂
  rw [ho₁] at h₁ u₁
  rw [ho₂] at h₂ u₂
  have e₁ : ((a - b - 12 * (n₁ - n₂) : ℤ) : ℝ) < 1 := by
    push_cast
    linarith
  have e₂ : (-1 : ℝ) < ((a - b - 12 * (n₁ - n₂) : ℤ) : ℝ) := by
    push_cast
    linarith
  have f₁ : a - b - 12 * (n₁ - n₂) < 1 := by exact_mod_cast e₁
  have f₂ : -1 < a - b - 12 * (n₁ - n₂) := by exact_mod_cast e₂
  omega

/-- The offset of a cylinder of the inline-4 order is `60 * a` for a code
`a` in 0..11 that determines the cylinder. -/
theorem inline4_offset_code (k : ℤ) (hk : k ∈ Inline4Engine2D.getFiringOrder) :
    ∃ a : ℤ, cylinderOffset Inline4Engine2D.getFiringOrder k = 60 * (a : ℝ)
      ∧ 0 ≤ a ∧ a < 12
      ∧ k = (if a = 0 then 1 else if a = 3 then 3 else if a = 6 then 4 else 2) := by
  obtain ⟨o1, o3, o4, o2⟩ := cylinderOffset_inline4
  simp only [Inline4Engine2D.getFiringOrder, List.mem_cons, List.mem_singleton,
    List.not_mem_nil, or_false] at hk
  rcases hk with rfl | rfl | rfl | rfl
  · exact ⟨0, by rw [o1]; norm_num, by norm_num, by norm_num, by norm_num⟩
  · exact ⟨3, by rw [o3]; norm_num, by norm_num, by norm_num, by norm_num⟩
  · exact ⟨6, by rw [o4]; norm_num, by norm_num, by norm_num, by norm_num⟩
  · exact ⟨9, by rw [o2]; norm_num, by norm_num, by norm_num, by norm_num⟩

/-- The offset of a cylinder of the V6 order is `60 * a` for a code `a` in
0..11 that determines the cylinder. -/
theorem v6_offset_code (k : ℤ) (hk : k ∈ V6Engine2D.getFiringOrder) :
    ∃ a : ℤ, cylinderOffset V6Engine2D.getFiringOrder k = 60 * (a : ℝ)
      ∧ 0 ≤ a ∧ a < 12
      ∧ k = (if a = 0 then 1 else if a = 2 then 4 else if a = 4 then 2
              else if a = 6 then 5 else if a = 8 then 3 else 6) := by
  obtain ⟨o1, o4, o2, o5, o3, o6⟩ := cylinderOffset_v6
  simp only [V6Engine2D.getFiringOrder, List.mem_cons, List.mem_singleton,
    List.not_mem_nil, or_false] at hk
  rcases hk with rfl | rfl | rfl | rfl | rfl | rfl
  · exact ⟨0, by rw [o1]; norm_num, by norm_num, by norm_num, by norm_num⟩
  · exact ⟨2, by rw [o4]; norm_num, by norm_num, by norm_num, by norm_num⟩
  · exact ⟨4, by rw [o2]; norm_num, by norm_num, by norm_num, by norm_num⟩
  · exact ⟨6, by rw [o5]; norm_num, by norm_num, by norm_num, by norm_num⟩
  · exact ⟨8, by rw [o3]; norm_num, by norm_num, by norm_num, by norm_num⟩
  · exact ⟨10, by rw [o6]; norm_num, by norm_num, by norm_num, by norm_num⟩

/-- C8: for the inline-4 order [1,3,4,2] and the V6 order [1,4,2,5,3,6], at
every crank angle, every ignition timing up to 60 and every throttle, at most
one cylinder of the firing order has positive combustion intensity: when
cylinder k₁ has positive intensity, every other cylinder k₂ of the order has
intensity 0. -/
theorem C8_combustion_windows_disjoint (firingOrder : List ℤ) (s : EngineSettings ℝ)
    (c : ℝ) (k₁ k₂ : ℤ)
    (hfo : firingOrder = Inline4Engine2D.getFiringOrder
      ∨ firingOrder = V6Engine2D.getFiringOrder)
    (ht1 : s.ignitionTiming ≤ 60)
    (hk₁ : k₁ ∈ firingOrder) (hk₂ : k₂ ∈ firingOrder) (hne : k₂ ≠ k₁)
    (hpos₁ : 0 < getCombustionIntensity firingOrder s k₁ c) :
    getCombustionIntensity firingOrder s k₂ c = 0 := by
  by_contra hnz
  have hpos₂ : 0 < getCombustionIntensity firingOrder s k₂ c :=
    lt_of_le_of_ne (getCombustionIntensity_nonneg _ _ _ _) (Ne.symm hnz)
  have w₁ := (window_of_pos _ _ _ _ hpos₁).1
  have w₂ := (window_of_pos _ _ _ _ hpos₂).1
  have g₁ : 660 ≤ jsRem (c * 2 + cylinderOffset firingOrder k₁) 720 := by
    unfold adjustedAngle at w₁
    linarith
  have g₂ : 660 ≤ jsRem (c * 2 + cylinderOffset firingOrder k₂) 720 := by
    unfold adjustedAngle at w₂
    linarith
  apply hne
  rcases hfo with rfl | rfl
  · obtain ⟨a, ha, ha0, ha1, hka⟩ := inline4_offset_code k₁ hk₁
    obtain ⟨b, hb, hb0, hb1, hkb⟩ := inline4_offset_code k₂ hk₂
    have hab := same_offset_of_both_in_window (c * 2) _ _ a b ha hb (by omega) (by omega) g₁ g₂
    rw [hka, hkb, hab]
  · obtain ⟨a, ha, ha0, ha1, hka⟩ := v6_offset_code k₁ hk₁
    obtain ⟨b, hb, hb0, hb1, hkb⟩ := v6_offset_code k₂ hk₂
    have hab := same_offset_of_both_in_window (c * 2) _ _ a b ha hb (by omega) (by omega) g₁ g₂
    rw [hka, hkb, hab]

/-- Witness for C8: inline-4 order, default ignition timing, full throttle,
crank angle 355: cylinder 1 fires, so cylinder 3 does not. -/
theorem C8_combustion_windows_disjoint_witness :
    0 < getCombustionIntensity Inline4Engine2D.getFiringOrder
        ⟨4000, 100, 147 / 10, 15, 0⟩ 1 355
      ∧ getCombustionIntensity Inline4Engine2D.getFiringOrder
        ⟨4000, 100, 147 / 10, 15, 0⟩ 3 355 = 0 :=
  ⟨cylinder1_fires_at_355, C8_combustion_windows_disjoint Inline4Engine2D.getFiringOrder
    ⟨4000, 100, 147 / 10, 15, 0⟩ 355 1 3 (Or.inl rfl) (by norm_num)
    (by decide) (by decide) (by decide) cylinder1_fires_at_355⟩

/-! ## Piston kinematics -/

theorem calculatePistonPosition_of_ratio_le (θ rodLength crankRadius : ℝ) (hr : 0 < rodLength)
    (h : |crankRadius * Real.sin (θ * Real.pi / 180)| ≤ rodLength) :
    calculatePistonPosition θ rodLength crankRadius
      = some (crankRadius * Real.cos (θ * Real.pi / 180)
          + rodLength * Real.cos
              (Real.arcsin (crankRadius * Real.sin (θ * Real.pi / 180) / rodLength))) := by
  have hb := abs_le.mp h
  have hdom : -1 ≤ crankRadius * Real.sin (θ * Real.pi / 180) / rodLength
      ∧ crankRadius * Real.sin (θ * Real.pi / 180) / rodLength ≤ 1 := by
    constructor
    · rw [le_div_iff₀ hr]
      linarith [hb.1]
    · rw [div_le_one hr]
      exact hb.2
  unfold calculatePistonPosition Math.asin
  dsimp only
  rw [if_neg hr.ne.symm, if_pos hdom]
  rfl

theorem calculatePistonPosition_of_ratio_gt (θ rodLength crankRadius : ℝ) (hr : 0 < rodLength)
    (h : rodLength < |crankRadius * Real.sin (θ * Real.pi / 180)|) :
    calculatePistonPosition θ rodLength crankRadius = none := by
  have hdom : ¬ (-1 ≤ crankRadius * Real.sin (θ * Real.pi / 180) / rodLength
      ∧ crankRadius * Real.sin (θ * Real.pi / 180) / rodLength ≤ 1) := by
    rintro ⟨h1, h2⟩
    rw [le_div_iff₀ hr] at h1
    rw [div_le_one hr] at h2
    have : |crankRadius * Real.sin (θ * Real.pi / 180)| ≤ rodLength :=
      abs_le.mpr ⟨by linarith, h2⟩
    linarith
  unfold calculatePistonPosition Math.asin
  dsimp only
  rw [if_neg hr.ne.symm, if_neg hdom]
  rfl

theorem crank_sin_le (θ rodLength crankRadius : ℝ) (h1 : 0 < crankRadius)
    (h2 : crankRadius ≤ rodLength) :
    |crankRadius * Real.sin (θ * Real.pi / 180)| ≤ rodLength := by
  rw [abs_mul, abs_of_pos h1]
  calc crankRadius * |Real.sin (θ * Real.pi / 180)| ≤ crankRadius * 1 :=
        mul_le_mul_of_nonneg_left (Real.abs_sin_le_one _) h1.le
    _ = crankRadius := mul_one _
    _ ≤ rodLength := h2

/-- C9: for rodLength ≥ crankRadius > 0 and every angle θ (degrees),
`calculatePistonPosition` returns
`crankRadius*cos θ + rodLength*cos(asin(crankRadius*sin θ / rodLength))`, has
period 360 degrees and is even in θ. -/
theorem C9_piston_position_formula_periodic_even (θ rodLength crankRadius : ℝ)
    (h1 : 0 < crankRadius) (h2 : crankRadius ≤ rodLength) :
    calculatePistonPosition θ rodLength crankRadius
        = some (crankRadius * Real.cos (θ * Real.pi / 180)
            + rodLength * Real.cos
                (Real.arcsin (crankRadius * Real.sin (θ * Real.pi / 180) / rodLength)))
      ∧ calculatePistonPosition (θ + 360) rodLength crankRadius
        = calculatePistonPosition θ rodLength crankRadius
      ∧ calculatePistonPosition (-θ) rodLength crankRadius
        = calculatePistonPosition θ rodLength crankRadius := by
  have hr : 0 < rodLength := lt_of_lt_of_le h1 h2
  have hper : (θ + 360) * Real.pi / 180 = θ * Real.pi / 180 + 2 * Real.pi := by ring
  have hneg : -θ * Real.pi / 180 = -(θ * Real.pi / 180) := by ring
  refine ⟨?_, ?_, ?_⟩
  · exact calculatePistonPosition_of_ratio_le θ rodLength crankRadius hr
      (crank_sin_le θ rodLength crankRadius h1 h2)
  · rw [calculatePistonPosition_of_ratio_le (θ + 360) rodLength crankRadius hr
        (crank_sin_le _ rodLength crankRadius h1 h2),
      calculatePistonPosition_of_ratio_le θ rodLength crankRadius hr
        (crank_sin_le θ rodLength crankRadius h1 h2),
      hper, Real.cos_add_two_pi, Real.sin_add_two_pi]
  · rw [calculatePistonPosition_of_ratio_le (-θ) rodLength crankRadius hr
        (crank_sin_le _ rodLength crankRadius h1 h2),
      calculatePistonPosition_of_ratio_le θ rodLength crankRadius hr
        (crank_sin_le θ rodLength crankRadius h1 h2),
      hneg, Real.cos_neg, Real.sin_neg, mul_neg, neg_div, Real.arcsin_neg, Real.cos_neg]

/-- Witness for C9: the 2D default geometry (rod 150, crank radius 45) at
crank angle 30. -/
theorem C9_piston_position_formula_periodic_even_witness :
    calculatePistonPosition (30 + 360) 150 45 = calculatePistonPosition 30 150 45
      ∧ calculatePistonPosition (-30) 150 45 = calculatePistonPosition 30 150 45 :=
  (C9_piston_position_formula_periodic_even 30 150 45 (by norm_num) (by norm_num)).2

theorem sin_ninety_degrees : Real.sin (90 * Real.pi / 180) = 1 := by
  have h : (90 : ℝ) * Real.pi / 180 = Real.pi / 2 := by ring
  rw [h, Real.sin_pi_div_two]

/-- C10, counterexample: with rodLength 1 and crankRadius 2 at crank angle 90
the arcsine argument is 2 and the result is NaN: no error, no clamp. -/
theorem C10_piston_position_nan_counterexample :
    calculatePistonPosition 90 1 2 = none := by
  apply calculatePistonPosition_of_ratio_gt 90 1 2 (by norm_num)
  rw [sin_ninety_degrees]
  norm_num

/-- C10, as the code behaves: with crankRadius > rodLength > 0 the function
neither fails nor clamps; the result is NaN exactly at the crank angles where
`|crankRadius * sin θ| > rodLength`, the unclamped slider-crank value at every
other angle, and NaN in particular at θ = 90. -/
theorem C10_piston_position_nan_outside_domain (θ rodLength crankRadius : ℝ)
    (h1 : 0 < rodLength) (h2 : rodLength < crankRadius) :
    (calculatePistonPosition θ rodLength crankRadius = none
        ↔ rodLength < |crankRadius * Real.sin (θ * Real.pi / 180)|)
      ∧ (|crankRadius * Real.sin (θ * Real.pi / 180)| ≤ rodLength →
          calculatePistonPosition θ rodLength crankRadius
            = some (crankRadius * Real.cos (θ * Real.pi / 180)
                + rodLength * Real.cos
                    (Real.arcsin (crankRadius * Real.sin (θ * Real.pi / 180) / rodLength))))
      ∧ calculatePistonPosition 90 rodLength crankRadius = none := by
  refine ⟨⟨?_, calculatePistonPosition_of_ratio_gt θ rodLength crankRadius h1⟩,
    calculatePistonPosition_of_ratio_le θ rodLength crankRadius h1, ?_⟩
  · intro hnone
    by_contra hle
    rw [calculatePistonPosition_of_ratio_le θ rodLength crankRadius h1 (not_lt.mp hle)] at hnone
    exact Option.some_ne_none _ hnone
  · apply calculatePistonPosition_of_ratio_gt 90 rodLength crankRadius h1
    rw [sin_ninety_degrees, mul_one, abs_of_pos (lt_trans h1 h2)]
    exact h2

/-- Witness for the amended C10: rodLength 100, crankRadius 120, crank angle 0
(a defined position) and crank angle 90 (NaN). -/
theorem C10_piston_position_nan_outside_domain_witness :
    (calculatePistonPosition 0 100 120 = none
        ↔ (100 : ℝ) < |120 * Real.sin (0 * Real.pi / 180)|)
      ∧ calculatePistonPosition 90 100 120 = none :=
  have h := C10_piston_position_nan_outside_domain 0 100 120 (by norm_num) (by norm_num)
  ⟨h.1, h.2.2⟩

/-! ## Crank angle with a non-positive rpm -/

section CrankAngleNonPositive

variable {K : Type} [LinearOrderedField K] [FloorRing K]

/-- C11, counterexample: at rpm -60 a frame of half a second moves the crank
angle from 0 to -180; the frame is not treated as zero advance and the angle
leaves [0,360). -/
theorem C11_negative_rpm_counterexample :
    ((⟨⟨-60, 25, 147 / 10, 15, 0⟩, 0, 0⟩ : BaseEngine2D ℚ).calculateCrankAngle
        (1 / 2)).2.crankAngle = -180
      ∧ ((⟨⟨-60, 25, 147 / 10, 15, 0⟩, 0, 0⟩ : BaseEngine2D ℚ).calculateCrankAngle
        (1 / 2)).2.crankAngle
        ≠ (⟨⟨-60, 25, 147 / 10, 15, 0⟩, 0, 0⟩ : BaseEngine2D ℚ).crankAngle := by
  have h : ((⟨⟨-60, 25, 147 / 10, 15, 0⟩, 0, 0⟩ : BaseEngine2D ℚ).calculateCrankAngle
      (1 / 2)).2.crankAngle = -180 := by
    simp only [BaseEngine2D.calculateCrankAngle]
    have hx : (0 : ℚ) + -60 / 60 * 360 * (1 / 2) = -180 := by norm_num
    rw [hx]
    exact jsRem_of_abs_lt (by norm_num [abs_lt])
  refine ⟨h, ?_⟩
  rw [h]
  norm_num

/-- C11, as the code behaves: with rpm ≤ 0, deltaTime ≥ 0 and a stored crank
angle in [0,360) there is no clamp; the angle is unchanged when rpm = 0, and
in general the new angle lies in (-360, 360) and is at most the old one (it
moves backwards and may become negative). -/
theorem C11_nonpositive_rpm_behaviour (e : BaseEngine2D K) (dt : K)
    (hrpm : e.settings.rpm ≤ 0) (hdt : 0 ≤ dt)
    (h0 : 0 ≤ e.crankAngle) (h1 : e.crankAngle < 360) :
    (e.settings.rpm = 0 →
        (e.calculateCrankAngle dt).1 = e.crankAngle
          ∧ (e.calculateCrankAngle dt).2.crankAngle = e.crankAngle)
      ∧ -360 < (e.calculateCrankAngle dt).2.crankAngle
      ∧ (e.calculateCrankAngle dt).2.crankAngle ≤ e.crankAngle := by
  have hadv : e.settings.rpm / 60 * 360 * dt ≤ 0 := by
    have h6 : e.settings.rpm / 60 * 360 ≤ 0 := by linarith
    exact mul_nonpos_of_nonpos_of_nonneg h6 hdt
  refine ⟨?_, ?_, ?_⟩
  · intro hz
    have hx : e.crankAngle + e.settings.rpm / 60 * 360 * dt = e.crankAngle := by
      rw [hz]
      ring
    have hval : jsRem (e.crankAngle + e.settings.rpm / 60 * 360 * dt) 360 = e.crankAngle := by
      rw [hx]
      exact jsRem_small h0 h1
    exact ⟨hval, hval⟩
  · exact (abs_lt.mp (jsRem_abs_lt (by norm_num))).1
  · show jsRem (e.crankAngle + e.settings.rpm / 60 * 360 * dt) 360 ≤ e.crankAngle
    rcases le_or_lt 0 (e.crankAngle + e.settings.rpm / 60 * 360 * dt) with hx | hx
    · have := jsRem_le_of_nonneg (by norm_num : (0 : K) < 360) hx
      linarith
    · have := jsRem_nonpos_of_neg (by norm_num : (0 : K) < 360) hx
      linarith

/-- Witness for the amended C11: rpm 0 at crank angle 90 with a frame of a
sixtieth of a second. -/
theorem C11_nonpositive_rpm_behaviour_witness :
    ((⟨⟨0, 25, 147 / 10, 15, 0⟩, 0, 90⟩ : BaseEngine2D ℚ).calculateCrankAngle
        (1 / 60)).2.crankAngle = 90 :=
  ((C11_nonpositive_rpm_behaviour (⟨⟨0, 25, 147 / 10, 15, 0⟩, 0, 90⟩ : BaseEngine2D ℚ) (1 / 60)
    (by norm_num) (by norm_num) (by norm_num) (by norm_num)).1 rfl).2

end CrankAngleNonPositive

/-! ## Binary64 rounding on the literals of the turbocharger -/

/-- The rounding function returns the known binary64 values of the decimal
literals 0.1, 0.9, 0.95 and 0.98 (numerators over `2 ^ 55`, `2 ^ 53`,
`2 ^ 52`, `2 ^ 51`), keeps the integers 30 and 200000 and the smallest
positive double `2 ^ (-1074)`, and rounds half of the latter to 0 (ties to
even). -/
theorem binary64_round_literals :
    Binary64.round 0.1 = 3602879701896397 / 36028797018963968
      ∧ Binary64.round 0.9 = 8106479329266893 / 9007199254740992
      ∧ Binary64.round 0.95 = 4278419646001971 / 4503599627370496
      ∧ Binary64.round 0.98 = 2206763817411543 / 2251799813685248
      ∧ Binary64.round 30 = 30
      ∧ Binary64.round 200000 = 200000
      ∧ Binary64.round (Binary64.pow2 (-1074)) = Binary64.pow2 (-1074)
      ∧ Binary64.round (Binary64.pow2 (-1075)) = 0
      ∧ Binary64.round (3 * Binary64.pow2 (-1075)) = 2 * Binary64.pow2 (-1074) := by
  decide!

/-! ## Properties of binary64 rounding -/

namespace Binary64

/-- The function `pow2` is the power of two with an integer exponent. -/
theorem pow2_eq_zpow (e : ℤ) : pow2 e = (2 : ℚ) ^ e := by
  unfold pow2
  split_ifs with h
  · obtain ⟨n, rfl⟩ := Int.eq_ofNat_of_zero_le h
    simp
  · obtain ⟨n, hn⟩ : ∃ n : ℕ, e = -(n : ℤ) := ⟨(-e).toNat, by omega⟩
    subst hn
    simp

theorem pow2_pos (e : ℤ) : 0 < pow2 e := by
  rw [pow2_eq_zpow]
  positivity

theorem pow2_le_pow2 {a b : ℤ} (h : a ≤ b) : pow2 a ≤ pow2 b := by
  rw [pow2_eq_zpow, pow2_eq_zpow]
  exact zpow_le_zpow_right₀ (by norm_num) h

theorem pow2_add (a b : ℤ) : pow2 (a + b) = pow2 a * pow2 b := by
  rw [pow2_eq_zpow, pow2_eq_zpow, pow2_eq_zpow, zpow_add₀ (by norm_num)]

/-- Binary search finds the number of binary digits below the bound. -/
theorem bitLengthBelow_spec : ∀ (k n : ℕ), n < 2 ^ 2 ^ k → 0 < n →
    0 < bitLengthBelow k n ∧ 2 ^ (bitLengthBelow k n - 1) ≤ n
      ∧ n < 2 ^ bitLengthBelow k n := by
  intro k
  induction k with
  | zero =>
    intro n h1 h2
    have : n = 1 := by
      simp at h1
      omega
    subst this
    simp [bitLengthBelow]
  | succ k ih =>
    intro n h1 h2
    rw [bitLengthBelow]
    split_ifs with h
    · exact ih n h h2
    · have hP : 0 < 2 ^ 2 ^ k := by positivity
      have hge : 2 ^ 2 ^ k ≤ n := not_lt.mp h
      have hm0 : 0 < n / 2 ^ 2 ^ k := Nat.div_pos hge hP
      have hm1 : n / 2 ^ 2 ^ k < 2 ^ 2 ^ k := by
        rw [Nat.div_lt_iff_lt_mul hP, ← pow_add]
        have : 2 ^ k + 2 ^ k = 2 ^ (k + 1) := by ring
        rwa [this]
      obtain ⟨i1, i2, i3⟩ := ih _ hm1 hm0
      refine ⟨Nat.add_pos_right _ i1, ?_, ?_⟩
      · have e : 2 ^ k + bitLengthBelow k (n / 2 ^ 2 ^ k) - 1
            = 2 ^ k + (bitLengthBelow k (n / 2 ^ 2 ^ k) - 1) := Nat.add_sub_assoc i1 _
        rw [e, pow_add]
        calc 2 ^ 2 ^ k * 2 ^ (bitLengthBelow k (n / 2 ^ 2 ^ k) - 1)
            ≤ 2 ^ 2 ^ k * (n / 2 ^ 2 ^ k) := Nat.mul_le_mul_left _ i2
          _ ≤ n := Nat.mul_div_le n _
      · rw [pow_add]
        calc n < 2 ^ 2 ^ k * (n / 2 ^ 2 ^ k + 1) := Nat.lt_mul_div_succ n hP
          _ ≤ 2 ^ 2 ^ k * 2 ^ bitLengthBelow k (n / 2 ^ 2 ^ k) :=
            Nat.mul_le_mul_left _ i3

/-- With enough fuel the search for a bound succeeds. -/
theorem bitLengthFrom_spec : ∀ (fuel k n : ℕ), n < 2 ^ 2 ^ (k + fuel) → 0 < n →
    0 < bitLengthFrom (fuel + 1) k n ∧ 2 ^ (bitLengthFrom (fuel + 1) k n - 1) ≤ n
      ∧ n < 2 ^ bitLengthFrom (fuel + 1) k n := by
  intro fuel
  induction fuel with
  | zero =>
    intro k n h1 h2
    rw [bitLengthFrom, if_pos (by simpa using h1)]
    exact bitLengthBelow_spec k n (by simpa using h1) h2
  | succ fuel ih =>
    intro k n h1 h2
    rw [bitLengthFrom]
    split_ifs with h
    · exact bitLengthBelow_spec k n h h2
    · exact ih (k + 1) n (by
        have : k + 1 + fuel = k + (fuel + 1) := by omega
        rwa [this]) h2

/-- The function `bitLength` returns the number of binary digits of a
positive number. -/
theorem bitLength_spec (n : ℕ) (h : 0 < n) :
    0 < bitLength n ∧ 2 ^ (bitLength n - 1) ≤ n ∧ n < 2 ^ bitLength n := by
  obtain ⟨m, rfl⟩ : ∃ m, n = m + 1 := ⟨n - 1, by omega⟩
  unfold bitLength
  refine bitLengthFrom_spec m 0 (m + 1) ?_ h
  have h1 : m + 1 ≤ 2 ^ m := Nat.lt_two_pow m
  have h2 : m + 1 < 2 ^ (m + 1) := Nat.lt_two_pow (m + 1)
  calc m + 1 < 2 ^ (m + 1) := h2
    _ ≤ 2 ^ 2 ^ (0 + m) := by
      rw [Nat.zero_add]
      exact Nat.pow_le_pow_right (by norm_num) h1

/-- The function `log2Floor` returns the binary exponent of a positive
rational. -/
theorem log2Floor_spec (x : ℚ) (hx : 0 < x) :
    pow2 (log2Floor x) ≤ x ∧ x < pow2 (log2Floor x + 1) := by
  have hnum : 0 < x.num := Rat.num_pos.mpr hx
  have hN : 0 < x.num.natAbs := Int.natAbs_pos.mpr hnum.ne'
  have hD : 0 < x.den := x.den_pos
  obtain ⟨a0, a1, a2⟩ := bitLength_spec x.num.natAbs hN
  obtain ⟨b0, b1, b2⟩ := bitLength_spec x.den hD
  have hxe : x = (x.num.natAbs : ℚ) / (x.den : ℚ) := by
    rw [Nat.cast_natAbs, abs_of_pos hnum]
    exact (Rat.num_div_den x).symm
  unfold log2Floor
  simp only []
  generalize x.num.natAbs = N at hN a0 a1 a2 hxe ⊢
  generalize x.den = D at hD b0 b1 b2 hxe ⊢
  have hDq : (0 : ℚ) < (D : ℚ) := by exact_mod_cast hD
  have ca1 : (2 : ℚ) ^ ((bitLength N : ℤ) - 1) ≤ (N : ℚ) := by
    have : ((bitLength N : ℤ) - 1) = ((bitLength N - 1 : ℕ) : ℤ) := by omega
    rw [this, zpow_natCast]
    exact_mod_cast a1
  have ca2 : (N : ℚ) < (2 : ℚ) ^ (bitLength N : ℤ) := by
    rw [zpow_natCast]
    exact_mod_cast a2
  have cb1 : (2 : ℚ) ^ ((bitLength D : ℤ) - 1) ≤ (D : ℚ) := by
    have : ((bitLength D : ℤ) - 1) = ((bitLength D - 1 : ℕ) : ℤ) := by omega
    rw [this, zpow_natCast]
    exact_mod_cast b1
  have cb2 : (D : ℚ) < (2 : ℚ) ^ (bitLength D : ℤ) := by
    rw [zpow_natCast]
    exact_mod_cast b2
  have two : (2 : ℚ) ≠ 0 := by norm_num
  split_ifs with hle
  · refine ⟨hle, ?_⟩
    rw [pow2_eq_zpow, hxe, div_lt_iff₀ hDq]
    calc (N : ℚ) < (2 : ℚ) ^ (bitLength N : ℤ) := ca2
      _ = (2 : ℚ) ^ ((bitLength N : ℤ) - (bitLength D : ℤ) + 1)
            * (2 : ℚ) ^ ((bitLength D : ℤ) - 1) := by
          rw [← zpow_add₀ two]
          congr 1
          ring
      _ ≤ (2 : ℚ) ^ ((bitLength N : ℤ) - (bitLength D : ℤ) + 1) * (D : ℚ) :=
          mul_le_mul_of_nonneg_left cb1 (by positivity)
  · have hlt : x < pow2 ((bitLength N : ℤ) - (bitLength D : ℤ)) := not_le.mp hle
    refine ⟨?_, by simpa using hlt⟩
    rw [pow2_eq_zpow, hxe, le_div_iff₀ hDq]
    calc (2 : ℚ) ^ ((bitLength N : ℤ) - (bitLength D : ℤ) - 1) * (D : ℚ)
        ≤ (2 : ℚ) ^ ((bitLength N : ℤ) - (bitLength D : ℤ) - 1)
            * (2 : ℚ) ^ (bitLength D : ℤ) :=
          mul_le_mul_of_nonneg_left cb2.le (by positivity)
      _ = (2 : ℚ) ^ ((bitLength N : ℤ) - 1) := by
          rw [← zpow_add₀ two]
          congr 1
          ring
      _ ≤ (N : ℚ) := ca1

theorem log2Floor_mono {x y : ℚ} (hy : 0 < y) (hyx : y ≤ x) : log2Floor y ≤ log2Floor x := by
  by_contra hlt
  have h1 : log2Floor x + 1 ≤ log2Floor y := by omega
  have hx : 0 < x := lt_of_lt_of_le hy hyx
  have := pow2_le_pow2 h1
  linarith [(log2Floor_spec x hx).2, (log2Floor_spec y hy).1]

/-- Rounding to the nearest integer does not pass an integer above. -/
theorem roundNearestEven_le (q : ℚ) (m : ℤ) (h : q ≤ m) : roundNearestEven q ≤ m := by
  have hf : q.floor = ⌊q⌋ := rfl
  have h1 : ((⌊q⌋ : ℤ) : ℚ) ≤ q := Int.floor_le q
  have hfm : ⌊q⌋ ≤ m := by exact_mod_cast le_trans h1 h
  unfold roundNearestEven
  simp only [hf]
  split_ifs with c1 c2 c3
  · exact hfm
  · have : ((⌊q⌋ : ℤ) : ℚ) < m := by linarith
    have : ⌊q⌋ < m := by exact_mod_cast this
    omega
  · exact hfm
  · have hr : q - ((⌊q⌋ : ℤ) : ℚ) = 1 / 2 := le_antisymm (not_lt.mp c2) (not_lt.mp c1)
    have : ((⌊q⌋ : ℤ) : ℚ) < m := by linarith
    have : ⌊q⌋ < m := by exact_mod_cast this
    omega

theorem roundNearestEven_pos (q : ℚ) (h : 1 / 2 < q) : 0 < roundNearestEven q := by
  have hf : q.floor = ⌊q⌋ := rfl
  have h1 : ((⌊q⌋ : ℤ) : ℚ) ≤ q := Int.floor_le q
  have h0 : 0 ≤ ⌊q⌋ := Int.floor_nonneg.mpr (by linarith)
  unfold roundNearestEven
  simp only [hf]
  split_ifs with c1 c2 c3
  · have : (0 : ℚ) < ((⌊q⌋ : ℤ) : ℚ) := by linarith
    exact_mod_cast this
  · omega
  · have hr : q - ((⌊q⌋ : ℤ) : ℚ) = 1 / 2 := le_antisymm (not_lt.mp c2) (not_lt.mp c1)
    have : (0 : ℚ) < ((⌊q⌋ : ℤ) : ℚ) := by linarith
    exact_mod_cast this
  · omega

theorem round_of_pos (y : ℚ) (hy : 0 < y) :
    round y = (roundNearestEven (y / pow2 (max (log2Floor y) (-1022) - 52)) : ℚ)
      * pow2 (max (log2Floor y) (-1022) - 52) := by
  unfold round
  simp only [if_neg hy.ne', if_neg (not_lt.mpr hy.le)]

/-- Rounding never passes a double: if `y ≤ x` and `x` is a double, the
rounded `y` is at most `x`. -/
theorem round_le_of_le (x y : ℚ) (hy : 0 < y) (hyx : y ≤ x) (hx : round x = x) :
    round y ≤ x := by
  have hxpos : 0 < x := lt_of_lt_of_le hy hyx
  have hE : max (log2Floor y) (-1022) ≤ max (log2Floor x) (-1022) :=
    max_le_max (log2Floor_mono hy hyx) le_rfl
  have rx := round_of_pos x hxpos
  rw [hx] at rx
  rw [round_of_pos y hy]
  generalize max (log2Floor y) (-1022) = ey at hE ⊢
  generalize max (log2Floor x) (-1022) = ex at hE rx
  generalize roundNearestEven (x / pow2 (ex - 52)) = n at rx
  obtain ⟨k, hk⟩ : ∃ k : ℕ, ex - 52 = (ey - 52) + (k : ℤ) := ⟨(ex - ey).toNat, by omega⟩
  have hp : pow2 (ex - 52) = pow2 (ey - 52) * ((2 ^ k : ℤ) : ℚ) := by
    rw [hk, pow2_add, pow2_eq_zpow (k : ℤ), zpow_natCast]
    norm_cast
  have hpos := pow2_pos (ey - 52)
  have hxm : x = ((n * 2 ^ k : ℤ) : ℚ) * pow2 (ey - 52) := by
    rw [rx, hp]
    push_cast
    ring
  have hq : y / pow2 (ey - 52) ≤ ((n * 2 ^ k : ℤ) : ℚ) := by
    rw [div_le_iff₀ hpos, ← hxm]
    exact hyx
  have hr := roundNearestEven_le _ _ hq
  have hr' : (roundNearestEven (y / pow2 (ey - 52)) : ℚ) ≤ ((n * 2 ^ k : ℤ) : ℚ) := by
    exact_mod_cast hr
  calc (roundNearestEven (y / pow2 (ey - 52)) : ℚ) * pow2 (ey - 52)
      ≤ ((n * 2 ^ k : ℤ) : ℚ) * pow2 (ey - 52) := mul_le_mul_of_nonneg_right hr' hpos.le
    _ = x := hxm.symm

/-- A number above half of the smallest positive double rounds to a positive
double. -/
theorem round_pos (y : ℚ) (h : pow2 (-1075) < y) : 0 < round y := by
  have hy : 0 < y := lt_trans (pow2_pos _) h
  rw [round_of_pos y hy]
  have hpos := pow2_pos (max (log2Floor y) (-1022) - 52)
  refine mul_pos ?_ hpos
  have hq : 1 / 2 < y / pow2 (max (log2Floor y) (-1022) - 52) := by
    rw [lt_div_iff₀ hpos]
    have half : ∀ e : ℤ, 1 / 2 * pow2 (e - 52) = pow2 (e - 53) := by
      intro e
      have : e - 52 = (e - 53) + 1 := by ring
      rw [this, pow2_add, pow2_eq_zpow 1]
      norm_num
      ring
    rw [half]
    rcases le_total (log2Floor y) (-1022) with hl | hl
    · rw [max_eq_right hl]
      exact h
    · rw [max_eq_left hl]
      have h1 : pow2 (log2Floor y - 53) < pow2 (log2Floor y) := by
        rw [pow2_eq_zpow, pow2_eq_zpow]
        exact zpow_lt_zpow_right₀ (by norm_num) (by omega)
      exact lt_of_lt_of_le h1 (log2Floor_spec y hy).1
  exact_mod_cast roundNearestEven_pos _ hq

/-- A positive double is at least the smallest positive double. -/
theorem pow2_le_of_double (x : ℚ) (hx : 0 < x) (hd : round x = x) : pow2 (-1074) ≤ x := by
  have rx := round_of_pos x hx
  rw [hd] at rx
  have hpos := pow2_pos (max (log2Floor x) (-1022) - 52)
  have hn : 0 < roundNearestEven (x / pow2 (max (log2Floor x) (-1022) - 52)) := by
    by_contra hle
    have : (roundNearestEven (x / pow2 (max (log2Floor x) (-1022) - 52)) : ℚ) ≤ 0 := by
      exact_mod_cast not_lt.mp hle
    have := mul_nonpos_of_nonpos_of_nonneg this hpos.le
    linarith
  have hn1 : (1 : ℚ) ≤ (roundNearestEven (x / pow2 (max (log2Floor x) (-1022) - 52)) : ℚ) := by
    exact_mod_cast hn
  have hE : pow2 (-1074) ≤ pow2 (max (log2Floor x) (-1022) - 52) :=
    pow2_le_pow2 (by have := le_max_right (log2Floor x) (-1022); omega)
  calc pow2 (-1074) ≤ pow2 (max (log2Floor x) (-1022) - 52) := hE
    _ = 1 * pow2 (max (log2Floor x) (-1022) - 52) := (one_mul _).symm
    _ ≤ _ := mul_le_mul_of_nonneg_right hn1 hpos.le
    _ = x := rx.symm

/-- The rounded product of a positive double with a factor in (1/2, 1] is
positive and not above the double. -/
theorem mul_bounds (x c : ℚ) (hx : 0 < x) (hd : round x = x) (hc1 : 1 / 2 < c) (hc2 : c ≤ 1) :
    0 < mul x c ∧ mul x c ≤ x := by
  unfold mul
  have hmin := pow2_le_of_double x hx hd
  have hc0 : 0 < c := by linarith
  refine ⟨round_pos _ ?_, round_le_of_le x (x * c) (mul_pos hx hc0) ?_ hd⟩
  · have half : pow2 (-1075) = pow2 (-1074) * (1 / 2) := by
      have : (-1075 : ℤ) = -1074 + -1 := by norm_num
      rw [this, pow2_add, pow2_eq_zpow (-1)]
      norm_num
    rw [half]
    calc pow2 (-1074) * (1 / 2) < pow2 (-1074) * c :=
          mul_lt_mul_of_pos_left hc1 (pow2_pos _)
      _ ≤ x * c := mul_le_mul_of_nonneg_right hmin hc0.le
  · calc x * c ≤ x * 1 := mul_le_mul_of_nonneg_left hc2 hx.le
      _ = x := mul_one x

/-- The function `pow2` is strictly increasing. -/
theorem pow2_lt_pow2 {a b : ℤ} (h : a < b) : pow2 a < pow2 b := by
  rw [pow2_eq_zpow, pow2_eq_zpow]
  exact zpow_lt_zpow_right₀ (by norm_num) h

/-- The binary exponent is determined by the two bounds. -/
theorem log2Floor_eq {x : ℚ} {e : ℤ} (h1 : pow2 e ≤ x) (h2 : x < pow2 (e + 1)) :
    log2Floor x = e := by
  have hx : 0 < x := lt_of_lt_of_le (pow2_pos e) h1
  obtain ⟨s1, s2⟩ := log2Floor_spec x hx
  by_contra hne
  rcases lt_or_gt_of_ne hne with hlt | hgt
  · have := pow2_le_pow2 (show log2Floor x + 1 ≤ e by omega)
    linarith
  · have := pow2_le_pow2 (show e + 1 ≤ log2Floor x by omega)
    linarith

theorem le_log2Floor {x : ℚ} {e : ℤ} (h1 : pow2 e ≤ x) : e ≤ log2Floor x := by
  have hx : 0 < x := lt_of_lt_of_le (pow2_pos e) h1
  obtain ⟨_, s2⟩ := log2Floor_spec x hx
  by_contra hlt
  have := pow2_le_pow2 (show log2Floor x + 1 ≤ e by omega)
  linarith

theorem floor_le_roundNearestEven (q : ℚ) : ⌊q⌋ ≤ roundNearestEven q := by
  have hf : q.floor = ⌊q⌋ := rfl
  unfold roundNearestEven
  simp only [hf]
  split_ifs <;> omega

theorem roundNearestEven_le_floor_add_one (q : ℚ) : roundNearestEven q ≤ ⌊q⌋ + 1 := by
  have hf : q.floor = ⌊q⌋ := rfl
  unfold roundNearestEven
  simp only [hf]
  split_ifs <;> omega

theorem le_roundNearestEven (q : ℚ) (m : ℤ) (h : (m : ℚ) ≤ q) : m ≤ roundNearestEven q :=
  le_trans (Int.le_floor.mpr h) (floor_le_roundNearestEven q)

theorem roundNearestEven_intCast (m : ℤ) : roundNearestEven (m : ℚ) = m :=
  le_antisymm (roundNearestEven_le _ _ le_rfl) (le_roundNearestEven _ _ le_rfl)

/-- Rounding to the nearest integer moves a number up by at most one half. -/
theorem roundNearestEven_le_add_half (q : ℚ) : (roundNearestEven q : ℚ) ≤ q + 1 / 2 := by
  have hf : q.floor = ⌊q⌋ := rfl
  have h1 : ((⌊q⌋ : ℤ) : ℚ) ≤ q := Int.floor_le q
  unfold roundNearestEven
  simp only [hf]
  split_ifs with c1 c2 c3
  · linarith
  · push_cast
    linarith [Int.lt_floor_add_one q]
  · linarith
  · have hr : q - ((⌊q⌋ : ℤ) : ℚ) = 1 / 2 := le_antisymm (not_lt.mp c2) (not_lt.mp c1)
    push_cast
    linarith

theorem roundNearestEven_mono {q₁ q₂ : ℚ} (h : q₁ ≤ q₂) :
    roundNearestEven q₁ ≤ roundNearestEven q₂ := by
  have hfl : ⌊q₁⌋ ≤ ⌊q₂⌋ := Int.floor_mono h
  rcases lt_or_eq_of_le hfl with hlt | heq
  · calc roundNearestEven q₁ ≤ ⌊q₁⌋ + 1 := roundNearestEven_le_floor_add_one q₁
      _ ≤ ⌊q₂⌋ := hlt
      _ ≤ roundNearestEven q₂ := floor_le_roundNearestEven q₂
  · have hf1 : q₁.floor = ⌊q₁⌋ := rfl
    have hf2 : q₂.floor = ⌊q₂⌋ := rfl
    unfold roundNearestEven
    simp only [hf1, hf2, heq]
    split_ifs <;> first | omega | (exfalso; linarith)

theorem round_zero : round 0 = 0 := by
  simp [round]

theorem round_nonneg {z : ℚ} (hz : 0 ≤ z) : 0 ≤ round z := by
  rcases eq_or_lt_of_le hz with h0 | hpos
  · rw [← h0, round_zero]
  · rw [round_of_pos z hpos]
    have hp := pow2_pos (max (log2Floor z) (-1022) - 52)
    have hq : ((0 : ℤ) : ℚ) ≤ z / pow2 (max (log2Floor z) (-1022) - 52) := by
      simp only [Int.cast_zero]
      positivity
    have := le_roundNearestEven _ 0 hq
    have h' : (0 : ℚ) ≤ (roundNearestEven (z / pow2 (max (log2Floor z) (-1022) - 52)) : ℚ) := by
      exact_mod_cast this
    exact mul_nonneg h' hp.le

/-- A number on the grid of its own exponent is a double. -/
theorem round_eq_self_of_grid (w : ℚ) (hw : 0 < w) (m : ℤ)
    (h : w = (m : ℚ) * pow2 (max (log2Floor w) (-1022) - 52)) : round w = w := by
  rw [round_of_pos w hw]
  have hp := pow2_pos (max (log2Floor w) (-1022) - 52)
  have hq : w / pow2 (max (log2Floor w) (-1022) - 52) = (m : ℚ) := by
    rw [div_eq_iff hp.ne']
    exact h
  rw [hq, roundNearestEven_intCast]
  exact h.symm

theorem pow2_sub_mul (e : ℤ) : ((2 ^ 52 : ℤ) : ℚ) * pow2 (e - 52) = pow2 e := by
  have : e = 52 + (e - 52) := by ring
  conv_rhs => rw [this, pow2_add, pow2_eq_zpow 52]
  norm_num

/-- Powers of two from `2 ^ (-1022)` on are doubles. -/
theorem round_pow2 (e : ℤ) (he : -1022 ≤ e) : round (pow2 e) = pow2 e := by
  have hl : log2Floor (pow2 e) = e := log2Floor_eq le_rfl (pow2_lt_pow2 (by omega))
  refine round_eq_self_of_grid (pow2 e) (pow2_pos e) (2 ^ 52) ?_
  rw [hl, max_eq_left he, pow2_sub_mul]

/-- A positive number is at most the power of two above its exponent, and so
is its rounding. -/
theorem round_le_pow2_succ (y : ℚ) (hy : 0 < y) :
    round y ≤ pow2 (max (log2Floor y) (-1022) + 1) := by
  refine round_le_of_le _ y hy ?_ (round_pow2 _ (by have := le_max_right (log2Floor y) (-1022); omega))
  calc y ≤ pow2 (log2Floor y + 1) := (log2Floor_spec y hy).2.le
    _ ≤ pow2 (max (log2Floor y) (-1022) + 1) :=
      pow2_le_pow2 (by have := le_max_left (log2Floor y) (-1022); omega)

/-- A normal number rounds to at least the power of two of its exponent. -/
theorem pow2_le_round (x : ℚ) (hx : 0 < x) (hn : -1022 ≤ log2Floor x) :
    pow2 (log2Floor x) ≤ round x := by
  rw [round_of_pos x hx, max_eq_left hn]
  have hp := pow2_pos (log2Floor x - 52)
  have hq : ((2 ^ 52 : ℤ) : ℚ) ≤ x / pow2 (log2Floor x - 52) := by
    rw [le_div_iff₀ hp, pow2_sub_mul]
    exact (log2Floor_spec x hx).1
  have := le_roundNearestEven _ _ hq
  have h' : ((2 ^ 52 : ℤ) : ℚ) ≤ (roundNearestEven (x / pow2 (log2Floor x - 52)) : ℚ) := by
    exact_mod_cast this
  calc pow2 (log2Floor x) = ((2 ^ 52 : ℤ) : ℚ) * pow2 (log2Floor x - 52) :=
        (pow2_sub_mul _).symm
    _ ≤ _ := mul_le_mul_of_nonneg_right h' hp.le

/-- Rounding is monotone on the non-negative numbers. -/
theorem round_mono {x y : ℚ} (hy : 0 ≤ y) (hyx : y ≤ x) : round y ≤ round x := by
  rcases eq_or_lt_of_le hy with h0 | hpos
  · rw [← h0, round_zero]
    exact round_nonneg (le_trans hy hyx)
  · have hx : 0 < x := lt_of_lt_of_le hpos hyx
    have hl := log2Floor_mono hpos hyx
    have hE : max (log2Floor y) (-1022) ≤ max (log2Floor x) (-1022) := max_le_max hl le_rfl
    rcases eq_or_lt_of_le hE with heq | hlt
    · rw [round_of_pos y hpos, round_of_pos x hx, heq]
      have hp := pow2_pos (max (log2Floor x) (-1022) - 52)
      have hq : y / pow2 (max (log2Floor x) (-1022) - 52)
          ≤ x / pow2 (max (log2Floor x) (-1022) - 52) :=
        div_le_div_of_nonneg_right hyx hp.le
      have := roundNearestEven_mono hq
      have h' : (roundNearestEven (y / pow2 (max (log2Floor x) (-1022) - 52)) : ℚ)
          ≤ (roundNearestEven (x / pow2 (max (log2Floor x) (-1022) - 52)) : ℚ) := by
        exact_mod_cast this
      exact mul_le_mul_of_nonneg_right h' hp.le
    · have hn : -1022 ≤ log2Floor x := by
        by_contra hc
        rw [max_eq_right (by omega : log2Floor x ≤ -1022)] at hlt
        have := le_max_right (log2Floor y) (-1022)
        omega
      rw [max_eq_left hn] at hlt
      calc round y ≤ pow2 (max (log2Floor y) (-1022) + 1) := round_le_pow2_succ y hpos
        _ ≤ pow2 (log2Floor x) := pow2_le_pow2 (by omega)
        _ ≤ round x := pow2_le_round x hx hn

/-- Rounding a rounded non-negative number changes nothing. -/
theorem round_round {z : ℚ} (hz : 0 ≤ z) : round (round z) = round z := by
  rcases eq_or_lt_of_le hz with h0 | hpos
  · rw [← h0, round_zero, round_zero]
  · rcases eq_or_lt_of_le (round_nonneg hz) with hw0 | hw
    · rw [← hw0, round_zero]
    · have hup := round_le_pow2_succ z hpos
      have hlow : max (log2Floor z) (-1022) ≤ max (log2Floor (round z)) (-1022) := by
        rcases le_total (log2Floor z) (-1022) with hs | hn
        · rw [max_eq_right hs]
          exact le_max_right _ _
        · rw [max_eq_left hn]
          exact le_trans (le_log2Floor (pow2_le_round z hpos hn)) (le_max_left _ _)
      rcases le_or_lt (log2Floor (round z)) (max (log2Floor z) (-1022)) with hle | hgt
      · have hE : max (log2Floor (round z)) (-1022) = max (log2Floor z) (-1022) :=
          le_antisymm (max_le hle (le_max_right _ _)) hlow
        refine round_eq_self_of_grid (round z) hw
          (roundNearestEven (z / pow2 (max (log2Floor z) (-1022) - 52))) ?_
        rw [hE]
        exact round_of_pos z hpos
      · have h1 : pow2 (max (log2Floor z) (-1022) + 1) ≤ round z :=
          le_trans (pow2_le_pow2 (by omega)) (log2Floor_spec (round z) hw).1
        have h2 : round z = pow2 (max (log2Floor z) (-1022) + 1) := le_antisymm hup h1
        rw [h2]
        exact round_pow2 _ (by have := le_max_right (log2Floor z) (-1022); omega)

/-- Rounding moves a positive number up by at most half a unit of its
exponent. -/
theorem round_le_add (z : ℚ) (hz : 0 < z) :
    round z ≤ z + pow2 (max (log2Floor z) (-1022) - 52) / 2 := by
  rw [round_of_pos z hz]
  have hp := pow2_pos (max (log2Floor z) (-1022) - 52)
  have h := roundNearestEven_le_add_half (z / pow2 (max (log2Floor z) (-1022) - 52))
  calc (roundNearestEven (z / pow2 (max (log2Floor z) (-1022) - 52)) : ℚ)
        * pow2 (max (log2Floor z) (-1022) - 52)
      ≤ (z / pow2 (max (log2Floor z) (-1022) - 52) + 1 / 2)
        * pow2 (max (log2Floor z) (-1022) - 52) := mul_le_mul_of_nonneg_right h hp.le
    _ = z + pow2 (max (log2Floor z) (-1022) - 52) / 2 := by
      field_simp
      ring

/-- A double from `2 ^ 16` on is an integer multiple of `2 ^ (-36)`. -/
theorem grid_of_ge (x : ℚ) (hd : round x = x) (hx : pow2 16 ≤ x) :
    ∃ m : ℤ, x = (m : ℚ) * pow2 (-36) := by
  have hpos : 0 < x := lt_of_lt_of_le (pow2_pos 16) hx
  have hl : (16 : ℤ) ≤ log2Floor x := le_log2Floor hx
  have rx := round_of_pos x hpos
  rw [hd, max_eq_left (by omega : (-1022 : ℤ) ≤ log2Floor x)] at rx
  obtain ⟨k, hk⟩ : ∃ k : ℕ, log2Floor x - 52 = -36 + (k : ℤ) :=
    ⟨(log2Floor x - 16).toNat, by omega⟩
  have hp : pow2 (log2Floor x - 52) = pow2 (-36) * ((2 ^ k : ℤ) : ℚ) := by
    rw [hk, pow2_add, pow2_eq_zpow (k : ℤ), zpow_natCast]
    norm_cast
  generalize roundNearestEven (x / pow2 (log2Floor x - 52)) = n at rx
  refine ⟨n * 2 ^ k, ?_⟩
  calc x = (n : ℚ) * pow2 (log2Floor x - 52) := rx
    _ = ((n * 2 ^ k : ℤ) : ℚ) * pow2 (-36) := by
      rw [hp]
      push_cast
      ring

/-- One spool-up step of the turbine speed in binary64 arithmetic towards the
target `120000 + 2 ^ (-36)`: from a double in `[0, target]`, with a frame time
in `[0, 1/8]`, the new speed is a double in `[old, target]`. -/
theorem spool_step (ts dt : ℚ) (h0 : 0 ≤ ts) (h1 : ts ≤ 120000 + pow2 (-36))
    (hd : round ts = ts) (hdt0 : 0 ≤ dt) (hdt1 : dt ≤ 1 / 8) :
    ts ≤ add ts (mul (mul (sub (120000 + pow2 (-36)) ts) dt) 5)
      ∧ add ts (mul (mul (sub (120000 + pow2 (-36)) ts) dt) 5) ≤ 120000 + pow2 (-36)
      ∧ round (add ts (mul (mul (sub (120000 + pow2 (-36)) ts) dt) 5))
        = add ts (mul (mul (sub (120000 + pow2 (-36)) ts) dt) 5) := by
  have hT : round (120000 + pow2 (-36)) = 120000 + pow2 (-36) := by decide!
  have hTgrid : (120000 : ℚ) + pow2 (-36) = ((8246337208320001 : ℤ) : ℚ) * pow2 (-36) := by
    decide!
  have h36 : pow2 (-36) ≤ 1 := by
    have := pow2_le_pow2 (show (-36 : ℤ) ≤ 0 by norm_num)
    rwa [show pow2 0 = 1 by decide!] at this
  have h16 : pow2 16 = 65536 := by decide!
  set δ := 120000 + pow2 (-36) - ts with hδ
  have hδ0 : 0 ≤ δ := by linarith
  have hd0 : 0 ≤ sub (120000 + pow2 (-36)) ts := round_nonneg hδ0
  have hv0 : 0 ≤ mul (sub (120000 + pow2 (-36)) ts) dt := round_nonneg (mul_nonneg hd0 hdt0)
  have hu0 : 0 ≤ mul (mul (sub (120000 + pow2 (-36)) ts) dt) 5 :=
    round_nonneg (mul_nonneg hv0 (by norm_num))
  have hsum0 : 0 ≤ ts + mul (mul (sub (120000 + pow2 (-36)) ts) dt) 5 := by linarith
  refine ⟨?_, ?_, round_round hsum0⟩
  · calc ts = round ts := hd.symm
      _ ≤ round (ts + mul (mul (sub (120000 + pow2 (-36)) ts) dt) 5) :=
        round_mono h0 (by linarith)
  · have key : mul (mul (sub (120000 + pow2 (-36)) ts) dt) 5 ≤ δ := by
      rcases eq_or_lt_of_le hδ0 with hz | hpos
      · have e1 : sub (120000 + pow2 (-36)) ts = 0 := by
          unfold sub
          rw [← hδ, ← hz, round_zero]
        rw [e1]
        simp [mul, round_zero, ← hz]
      · -- the gap is at least 2 ^ (-36)
        have hgap : pow2 (-36) ≤ δ := by
          rcases lt_or_le ts (pow2 16) with hs | hs
          · rw [h16] at hs
            linarith [pow2_pos (-36)]
          · obtain ⟨m, hm⟩ := grid_of_ge ts hd hs
            have e : δ = ((8246337208320001 - m : ℤ) : ℚ) * pow2 (-36) := by
              rw [hδ, hTgrid, hm]
              push_cast
              ring
            have hpos' : 0 < ((8246337208320001 - m : ℤ) : ℚ) := by
              by_contra hc
              have := mul_nonpos_of_nonpos_of_nonneg (not_lt.mp hc) (pow2_pos (-36)).le
              linarith
            have h1' : (1 : ℚ) ≤ ((8246337208320001 - m : ℤ) : ℚ) := by
              have : (0 : ℤ) < 8246337208320001 - m := by exact_mod_cast hpos'
              exact_mod_cast this
            calc pow2 (-36) = 1 * pow2 (-36) := (one_mul _).symm
              _ ≤ _ := mul_le_mul_of_nonneg_right h1' (pow2_pos _).le
              _ = δ := e.symm
        set d := sub (120000 + pow2 (-36)) ts with hdd
        have hdge : pow2 (-36) ≤ d := by
          have := round_mono (pow2_pos (-36)).le hgap
          rwa [round_pow2 _ (by norm_num)] at this
        have hdpos : 0 < d := lt_of_lt_of_le (pow2_pos _) hdge
        have hl : (-36 : ℤ) ≤ log2Floor d := le_log2Floor hdge
        have hdn : pow2 (log2Floor d) ≤ d := (log2Floor_spec d hdpos).1
        set p := pow2 (log2Floor d - 52) with hp
        have hppos : 0 < p := pow2_pos _
        have hdp : ((2 ^ 52 : ℤ) : ℚ) * p ≤ d := by
          rw [hp, pow2_sub_mul]
          exact hdn
        have hdp' : 4503599627370496 * p ≤ d := by
          have : ((2 ^ 52 : ℤ) : ℚ) = 4503599627370496 := by norm_num
          rwa [this] at hdp
        -- an upper bound for the unit of any positive number below d
        have unit_le : ∀ v : ℚ, 0 < v → v ≤ d → pow2 (max (log2Floor v) (-1022) - 52) ≤ p := by
          intro v hv hvd
          refine pow2_le_pow2 ?_
          have := log2Floor_mono hv hvd
          have : max (log2Floor v) (-1022) ≤ log2Floor d := max_le this (by omega)
          omega
        set v1 := mul d dt with hv1
        have hv1le : v1 ≤ d / 8 + p / 2 := by
          rcases eq_or_lt_of_le (mul_nonneg hdpos.le hdt0) with hz | hpos1
          · have : v1 = 0 := by
              rw [hv1]
              unfold mul
              rw [← hz, round_zero]
            rw [this]
            positivity
          · have hle : d * dt ≤ d / 8 := by
              have := mul_le_mul_of_nonneg_left hdt1 hdpos.le
              linarith
            have := round_le_add (d * dt) hpos1
            have hu := unit_le (d * dt) hpos1 (by linarith)
            show round (d * dt) ≤ _
            linarith
        set w := v1 * 5 with hw
        have hwle : w ≤ 5 * d / 8 + 5 * p / 2 := by
          rw [hw]
          linarith
        have hwd : w ≤ d := by linarith
        have hult : mul v1 5 < d := by
          rcases eq_or_lt_of_le (mul_nonneg hv0 (by norm_num : (0 : ℚ) ≤ 5)) with hz | hposw
          · have : mul v1 5 = 0 := by
              unfold mul
              rw [← hz, round_zero]
            rw [this]
            exact hdpos
          · have := round_le_add (v1 * 5) hposw
            have hu := unit_le (v1 * 5) hposw hwd
            show round (v1 * 5) < d
            linarith
        by_contra hc
        have hlt : δ < mul v1 5 := not_le.mp hc
        have hud : round (mul v1 5) = mul v1 5 := round_round (mul_nonneg hv0 (by norm_num))
        have := round_le_of_le (mul v1 5) δ hpos hlt.le hud
        have hdδ : d = round δ := rfl
        rw [← hdδ] at this
        linarith
    calc add ts (mul (mul (sub (120000 + pow2 (-36)) ts) dt) 5)
        = round (ts + mul (mul (sub (120000 + pow2 (-36)) ts) dt) 5) := rfl
      _ ≤ round (120000 + pow2 (-36)) := round_mono hsum0 (by linarith)
      _ = 120000 + pow2 (-36) := hT

end Binary64

/-- One disabled update in binary64 arithmetic stores the rounded products
with 0.95, 0.95 and 0.9; a field that holds a positive double stays positive
and does not increase. -/
theorem updateF64_disabled_bounds (u : Turbocharger2D ℚ) (deltaTime : ℚ)
    (settings : EngineSettings ℚ) (hdis : u.enabled = false) :
    ((u.updateF64 deltaTime settings).turbineSpeed
          = Binary64.mul u.turbineSpeed (Binary64.round 0.95)
        ∧ (u.updateF64 deltaTime settings).compressorSpeed
          = Binary64.mul u.compressorSpeed (Binary64.round 0.95)
        ∧ (u.updateF64 deltaTime settings).boostPressure
          = Binary64.mul u.boostPressure (Binary64.round 0.9))
      ∧ (0 < u.turbineSpeed → Binary64.round u.turbineSpeed = u.turbineSpeed →
          0 < (u.updateF64 deltaTime settings).turbineSpeed
            ∧ (u.updateF64 deltaTime settings).turbineSpeed ≤ u.turbineSpeed)
      ∧ (0 < u.compressorSpeed → Binary64.round u.compressorSpeed = u.compressorSpeed →
          0 < (u.updateF64 deltaTime settings).compressorSpeed
            ∧ (u.updateF64 deltaTime settings).compressorSpeed ≤ u.compressorSpeed)
      ∧ (0 < u.boostPressure → Binary64.round u.boostPressure = u.boostPressure →
          0 < (u.updateF64 deltaTime settings).boostPressure
            ∧ (u.updateF64 deltaTime settings).boostPressure ≤ u.boostPressure) := by
  have h95 : (1 : ℚ) / 2 < Binary64.round 0.95 ∧ Binary64.round 0.95 ≤ 1 := by
    rw [binary64_round_literals.2.2.1]
    norm_num
  have h9 : (1 : ℚ) / 2 < Binary64.round 0.9 ∧ Binary64.round 0.9 ≤ 1 := by
    rw [binary64_round_literals.2.1]
    norm_num
  have e : u.updateF64 deltaTime settings
      = ⟨false, Binary64.mul u.turbineSpeed (Binary64.round 0.95),
          Binary64.mul u.compressorSpeed (Binary64.round 0.95),
          Binary64.mul u.boostPressure (Binary64.round 0.9), u.temperature⟩ := by
    simp [Turbocharger2D.updateF64, hdis]
  rw [e]
  exact ⟨⟨rfl, rfl, rfl⟩,
    fun h0 hd => Binary64.mul_bounds _ _ h0 hd h95.1 h95.2,
    fun h0 hd => Binary64.mul_bounds _ _ h0 hd h95.1 h95.2,
    fun h0 hd => Binary64.mul_bounds _ _ h0 hd h9.1 h9.2⟩

/-! ## The spool-up scenario in binary64 arithmetic -/

/-- The target turbine speed at rpm 6000 and throttle 80 as binary64
arithmetic computes it: `120000 + 2 ^ (-36)`, the double above 120000. -/
theorem targetF64_spool :
    Binary64.mul (Binary64.mul (Binary64.div 6000 8000) (Binary64.div 80 100)) 200000
      = 120000 + Binary64.pow2 (-36) := by
  decide!

/-- The enabled branch of the binary64 update, written out. -/
theorem updateF64_enabled (t : Turbocharger2D ℚ) (dt : ℚ) (s : EngineSettings ℚ)
    (h : t.enabled = true) :
    t.updateF64 dt s
      = ⟨true,
          Binary64.add t.turbineSpeed
            (Binary64.mul (Binary64.mul (Binary64.sub (Binary64.mul (Binary64.mul
              (Binary64.div s.rpm 8000) (Binary64.div s.throttle 100)) 200000)
              t.turbineSpeed) dt) 5),
          Binary64.mul (Binary64.add t.turbineSpeed
            (Binary64.mul (Binary64.mul (Binary64.sub (Binary64.mul (Binary64.mul
              (Binary64.div s.rpm 8000) (Binary64.div s.throttle 100)) 200000)
              t.turbineSpeed) dt) 5)) (Binary64.round 0.98),
          min 30 (Binary64.mul (Binary64.div (Binary64.mul (Binary64.div
            (Binary64.mul (Binary64.add t.turbineSpeed
              (Binary64.mul (Binary64.mul (Binary64.sub (Binary64.mul (Binary64.mul
                (Binary64.div s.rpm 8000) (Binary64.div s.throttle 100)) 200000)
                t.turbineSpeed) dt) 5)) (Binary64.round 0.98)) 100000) s.throttle) 100) 15),
          Binary64.add (Binary64.add 70 (Binary64.div (Binary64.add t.turbineSpeed
            (Binary64.mul (Binary64.mul (Binary64.sub (Binary64.mul (Binary64.mul
              (Binary64.div s.rpm 8000) (Binary64.div s.throttle 100)) 200000)
              t.turbineSpeed) dt) 5)) 1000)) (Binary64.mul s.throttle 2)⟩ := by
  simp [Turbocharger2D.updateF64, h]

/-- The boost expression of the enabled update at throttle 80 is monotone in
the turbine speed. -/
theorem boostF64_mono {x y : ℚ} (hx : 0 ≤ x) (hxy : x ≤ y) :
    min 30 (Binary64.mul (Binary64.div (Binary64.mul (Binary64.div
        (Binary64.mul x (Binary64.round 0.98)) 100000) 80) 100) 15)
      ≤ min 30 (Binary64.mul (Binary64.div (Binary64.mul (Binary64.div
        (Binary64.mul y (Binary64.round 0.98)) 100000) 80) 100) 15) := by
  have mul0 : ∀ {a c : ℚ}, 0 ≤ a → 0 ≤ c → 0 ≤ Binary64.mul a c :=
    fun ha hc => Binary64.round_nonneg (mul_nonneg ha hc)
  have mul1 : ∀ {a b c : ℚ}, 0 ≤ a → a ≤ b → 0 ≤ c → Binary64.mul a c ≤ Binary64.mul b c :=
    fun ha hab hc => Binary64.round_mono (mul_nonneg ha hc) (mul_le_mul_of_nonneg_right hab hc)
  have div0 : ∀ {a c : ℚ}, 0 ≤ a → 0 ≤ c → 0 ≤ Binary64.div a c :=
    fun ha hc => Binary64.round_nonneg (div_nonneg ha hc)
  have div1 : ∀ {a b c : ℚ}, 0 ≤ a → a ≤ b → 0 ≤ c → Binary64.div a c ≤ Binary64.div b c :=
    fun ha hab hc => Binary64.round_mono (div_nonneg ha hc) (div_le_div_of_nonneg_right hab hc)
  have hc : (0 : ℚ) ≤ Binary64.round 0.98 := Binary64.round_nonneg (by norm_num)
  have a0 := mul0 hx hc
  have a1 := mul1 hx hxy hc
  have b0 := div0 a0 (by norm_num : (0 : ℚ) ≤ 100000)
  have b1 := div1 a0 a1 (by norm_num : (0 : ℚ) ≤ 100000)
  have c0 := mul0 b0 (by norm_num : (0 : ℚ) ≤ 80)
  have c1 := mul1 b0 b1 (by norm_num : (0 : ℚ) ≤ 80)
  have d0 := div0 c0 (by norm_num : (0 : ℚ) ≤ 100)
  have d1 := div1 c0 c1 (by norm_num : (0 : ℚ) ≤ 100)
  have e1 := mul1 d0 d1 (by norm_num : (0 : ℚ) ≤ 15)
  exact min_le_min le_rfl e1

/-- The turbine speed after the first frame from rest is monotone in the
frame time. -/
theorem firstSpeedF64_mono {a b : ℚ} (ha : 0 ≤ a) (hab : a ≤ b) :
    0 ≤ Binary64.add 0 (Binary64.mul (Binary64.mul
        (Binary64.sub (120000 + Binary64.pow2 (-36)) 0) a) 5)
      ∧ Binary64.add 0 (Binary64.mul (Binary64.mul
          (Binary64.sub (120000 + Binary64.pow2 (-36)) 0) a) 5)
        ≤ Binary64.add 0 (Binary64.mul (Binary64.mul
          (Binary64.sub (120000 + Binary64.pow2 (-36)) 0) b) 5) := by
  have hT : (0 : ℚ) ≤ Binary64.sub (120000 + Binary64.pow2 (-36)) 0 :=
    Binary64.round_nonneg (by have := Binary64.pow2_pos (-36); linarith)
  have a0 : 0 ≤ Binary64.mul (Binary64.sub (120000 + Binary64.pow2 (-36)) 0) a :=
    Binary64.round_nonneg (mul_nonneg hT ha)
  have a1 : Binary64.mul (Binary64.sub (120000 + Binary64.pow2 (-36)) 0) a
      ≤ Binary64.mul (Binary64.sub (120000 + Binary64.pow2 (-36)) 0) b :=
    Binary64.round_mono (mul_nonneg hT ha) (mul_le_mul_of_nonneg_left hab hT)
  have b0 : 0 ≤ Binary64.mul (Binary64.mul
      (Binary64.sub (120000 + Binary64.pow2 (-36)) 0) a) 5 :=
    Binary64.round_nonneg (mul_nonneg a0 (by norm_num))
  have b1 : Binary64.mul (Binary64.mul (Binary64.sub (120000 + Binary64.pow2 (-36)) 0) a) 5
      ≤ Binary64.mul (Binary64.mul (Binary64.sub (120000 + Binary64.pow2 (-36)) 0) b) 5 :=
    Binary64.round_mono (mul_nonneg a0 (by norm_num))
      (mul_le_mul_of_nonneg_right a1 (by norm_num))
  exact ⟨Binary64.round_nonneg (by linarith),
    Binary64.round_mono (by linarith) (by linarith)⟩

/-- Values of the boost expression at the ends of the range of the first
frame and at the target speed. -/
theorem boostF64_values :
    0 < min 30 (Binary64.mul (Binary64.div (Binary64.mul (Binary64.div
        (Binary64.mul (Binary64.add 0 (Binary64.mul (Binary64.mul
          (Binary64.sub (120000 + Binary64.pow2 (-36)) 0) (Binary64.pow2 (-1074))) 5))
          (Binary64.round 0.98)) 100000) 80) 100) 15)
      ∧ min 30 (Binary64.mul (Binary64.div (Binary64.mul (Binary64.div
        (Binary64.mul (Binary64.add 0 (Binary64.mul (Binary64.mul
          (Binary64.sub (120000 + Binary64.pow2 (-36)) 0) (Binary64.round 0.1)) 5))
          (Binary64.round 0.98)) 100000) 80) 100) 15) < 14.112
      ∧ min 30 (Binary64.mul (Binary64.div (Binary64.mul (Binary64.div
        (Binary64.mul (120000 + Binary64.pow2 (-36)) (Binary64.round 0.98)) 100000) 80) 100) 15)
        = Binary64.round 14.112000000000002 := by
  decide!

/-- One enabled frame at rpm 6000 and throttle 80 in binary64 arithmetic, with
a frame time between 0 and the double 0.1, from a turbine speed that is a double in
`[0, target]` (target `120000 + 2 ^ (-36)`): the speed does not fall, stays a
double in that range, and the boost is the boost expression of the new
speed. -/
theorem spool_frame_F64 (t : Turbocharger2D ℚ) (dt afr timing boost : ℚ)
    (hen : t.enabled = true) (h0 : 0 ≤ t.turbineSpeed)
    (h1 : t.turbineSpeed ≤ 120000 + Binary64.pow2 (-36))
    (hd : Binary64.round t.turbineSpeed = t.turbineSpeed)
    (hdt0 : 0 ≤ dt) (hdt1 : dt ≤ Binary64.round 0.1) :
    (t.updateF64 dt ⟨6000, 80, afr, timing, boost⟩).enabled = true
      ∧ t.turbineSpeed ≤ (t.updateF64 dt ⟨6000, 80, afr, timing, boost⟩).turbineSpeed
      ∧ (t.updateF64 dt ⟨6000, 80, afr, timing, boost⟩).turbineSpeed
        ≤ 120000 + Binary64.pow2 (-36)
      ∧ Binary64.round (t.updateF64 dt ⟨6000, 80, afr, timing, boost⟩).turbineSpeed
        = (t.updateF64 dt ⟨6000, 80, afr, timing, boost⟩).turbineSpeed
      ∧ (t.updateF64 dt ⟨6000, 80, afr, timing, boost⟩).turbineSpeed
        = Binary64.add t.turbineSpeed (Binary64.mul (Binary64.mul
            (Binary64.sub (120000 + Binary64.pow2 (-36)) t.turbineSpeed) dt) 5)
      ∧ (t.updateF64 dt ⟨6000, 80, afr, timing, boost⟩).boostPressure
        = min 30 (Binary64.mul (Binary64.div (Binary64.mul (Binary64.div
            (Binary64.mul (t.updateF64 dt ⟨6000, 80, afr, timing, boost⟩).turbineSpeed
              (Binary64.round 0.98)) 100000) 80) 100) 15) := by
  rw [updateF64_enabled t dt _ hen]
  simp only [targetF64_spool]
  have h8 : Binary64.round 0.1 ≤ 1 / 8 := by
    rw [binary64_round_literals.1]
    norm_num
  obtain ⟨s1, s2, s3⟩ :=
    Binary64.spool_step t.turbineSpeed dt h0 h1 hd hdt0 (le_trans hdt1 h8)
  exact ⟨trivial, s1, s2, s3, trivial, trivial⟩

/-- The invariant of the spool-up scenario in binary64 arithmetic is kept by
every run of frames. -/
theorem spool_run_F64 (afr timing boost : ℚ) (dts : List ℚ) :
    ∀ t : Turbocharger2D ℚ, t.enabled = true → 0 ≤ t.turbineSpeed →
      t.turbineSpeed ≤ 120000 + Binary64.pow2 (-36) →
      Binary64.round t.turbineSpeed = t.turbineSpeed →
      t.boostPressure = min 30 (Binary64.mul (Binary64.div (Binary64.mul (Binary64.div
        (Binary64.mul t.turbineSpeed (Binary64.round 0.98)) 100000) 80) 100) 15) →
      (∀ d ∈ dts, 0 < d ∧ d ≤ Binary64.round 0.1) →
      (t.runF64 (dts.map fun d => TurboCall.update d ⟨6000, 80, afr, timing, boost⟩)).enabled
          = true
        ∧ 0 ≤ (t.runF64 (dts.map fun d =>
            TurboCall.update d ⟨6000, 80, afr, timing, boost⟩)).turbineSpeed
        ∧ (t.runF64 (dts.map fun d =>
            TurboCall.update d ⟨6000, 80, afr, timing, boost⟩)).turbineSpeed
          ≤ 120000 + Binary64.pow2 (-36)
        ∧ Binary64.round (t.runF64 (dts.map fun d =>
            TurboCall.update d ⟨6000, 80, afr, timing, boost⟩)).turbineSpeed
          = (t.runF64 (dts.map fun d =>
            TurboCall.update d ⟨6000, 80, afr, timing, boost⟩)).turbineSpeed
        ∧ (t.runF64 (dts.map fun d =>
            TurboCall.update d ⟨6000, 80, afr, timing, boost⟩)).boostPressure
          = min 30 (Binary64.mul (Binary64.div (Binary64.mul (Binary64.div
              (Binary64.mul (t.runF64 (dts.map fun d =>
                TurboCall.update d ⟨6000, 80, afr, timing, boost⟩)).turbineSpeed
                (Binary64.round 0.98)) 100000) 80) 100) 15) := by
  induction dts with
  | nil => intro t hen h0 h1 hd hb _; exact ⟨hen, h0, h1, hd, hb⟩
  | cons d rest ih =>
    intro t hen h0 h1 hd _ hds
    have hd' := hds d (List.mem_cons_self _ _)
    obtain ⟨e1, e2, e3, e4, _, e6⟩ :=
      spool_frame_F64 t d afr timing boost hen h0 h1 hd hd'.1.le hd'.2
    exact ih _ e1 (le_trans h0 e2) e3 e4 e6 (fun x hx => hds x (List.mem_cons_of_mem _ hx))

/-- The spool-up scenario in binary64 arithmetic: from the initial state,
enabled at rpm 6000 and throttle 80, with positive frame times up to the
double 0.1 of which the first is a double: after the first frame boostPressure is strictly
between 0 and 14.112, and on every later frame boostPressure does not
decrease and does not exceed the double 14.112000000000002. -/
theorem spool_up_F64 (afr timing boost dt₁ dt : ℚ) (dts : List ℚ)
    (hdouble : Binary64.round dt₁ = dt₁)
    (h₁ : 0 < dt₁ ∧ dt₁ ≤ Binary64.round 0.1)
    (hdts : ∀ d ∈ dts, 0 < d ∧ d ≤ Binary64.round 0.1)
    (h : 0 < dt ∧ dt ≤ Binary64.round 0.1) :
    (0 < (((Turbocharger2D.init : Turbocharger2D ℚ).setEnabled true).updateF64 dt₁
          ⟨6000, 80, afr, timing, boost⟩).boostPressure
        ∧ (((Turbocharger2D.init : Turbocharger2D ℚ).setEnabled true).updateF64 dt₁
          ⟨6000, 80, afr, timing, boost⟩).boostPressure < 14.112)
      ∧ (((((Turbocharger2D.init : Turbocharger2D ℚ).setEnabled true).updateF64 dt₁
            ⟨6000, 80, afr, timing, boost⟩).runF64
            (dts.map fun d => TurboCall.update d ⟨6000, 80, afr, timing, boost⟩)).boostPressure
          ≤ (((((Turbocharger2D.init : Turbocharger2D ℚ).setEnabled true).updateF64 dt₁
            ⟨6000, 80, afr, timing, boost⟩).runF64
            (dts.map fun d => TurboCall.update d ⟨6000, 80, afr, timing, boost⟩)).updateF64 dt
            ⟨6000, 80, afr, timing, boost⟩).boostPressure
        ∧ (((((Turbocharger2D.init : Turbocharger2D ℚ).setEnabled true).updateF64 dt₁
            ⟨6000, 80, afr, timing, boost⟩).runF64
            (dts.map fun d => TurboCall.update d ⟨6000, 80, afr, timing, boost⟩)).updateF64 dt
            ⟨6000, 80, afr, timing, boost⟩).boostPressure
          ≤ Binary64.round 14.112000000000002) := by
  have hT0 : (0 : ℚ) ≤ 120000 + Binary64.pow2 (-36) := by
    have := Binary64.pow2_pos (-36)
    linarith
  obtain ⟨a1, a2, a3, a4, a5, a6⟩ :=
    spool_frame_F64 ((Turbocharger2D.init : Turbocharger2D ℚ).setEnabled true) dt₁ afr timing
      boost rfl (le_refl (0 : ℚ)) hT0 Binary64.round_zero h₁.1.le h₁.2
  have a2' : (0 : ℚ) ≤ (((Turbocharger2D.init : Turbocharger2D ℚ).setEnabled true).updateF64 dt₁
      ⟨6000, 80, afr, timing, boost⟩).turbineSpeed := a2
  obtain ⟨b1, b2, b3, b4, b6⟩ := spool_run_F64 afr timing boost dts _ a1 a2' a3 a4 a6 hdts
  obtain ⟨c1, c2, c3, c4, _, c6⟩ := spool_frame_F64 _ dt afr timing boost b1 b2 b3 b4 h.1.le h.2
  obtain ⟨v1, v2, v3⟩ := boostF64_values
  have hmin : Binary64.pow2 (-1074) ≤ dt₁ := Binary64.pow2_le_of_double dt₁ h₁.1 hdouble
  have a5' : (((Turbocharger2D.init : Turbocharger2D ℚ).setEnabled true).updateF64 dt₁
      ⟨6000, 80, afr, timing, boost⟩).turbineSpeed
      = Binary64.add 0 (Binary64.mul (Binary64.mul
          (Binary64.sub (120000 + Binary64.pow2 (-36)) 0) dt₁) 5) := a5
  obtain ⟨l0, l1⟩ := firstSpeedF64_mono (Binary64.pow2_pos (-1074)).le hmin
  obtain ⟨u0, u1⟩ := firstSpeedF64_mono h₁.1.le h₁.2
  refine ⟨⟨?_, ?_⟩, ?_, ?_⟩
  · rw [a6, a5']
    exact lt_of_lt_of_le v1 (boostF64_mono l0 l1)
  · rw [a6, a5']
    exact lt_of_le_of_lt (boostF64_mono u0 u1) v2
  · rw [b6, c6]
    exact boostF64_mono b2 c2
  · rw [c6, ← v3]
    exact boostF64_mono (le_trans b2 c2) c3

/-! ## Turbocharger -/

section TurboLemmas

variable {K : Type} [LinearOrderedField K]

theorem update_disabled (t : Turbocharger2D K) (dt : K) (s : EngineSettings K)
    (h : t.enabled = false) :
    t.update dt s
      = ⟨false, t.turbineSpeed * 0.95, t.compressorSpeed * 0.95, t.boostPressure * 0.9,
          t.temperature⟩ := by
  simp [Turbocharger2D.update, h]

theorem update_enabled (t : Turbocharger2D K) (dt : K) (s : EngineSettings K)
    (h : t.enabled = true) :
    t.update dt s
      = ⟨true,
          t.turbineSpeed
            + ((s.rpm / 8000) * (s.throttle / 100) * 200000 - t.turbineSpeed) * dt * 5,
          (t.turbineSpeed
            + ((s.rpm / 8000) * (s.throttle / 100) * 200000 - t.turbineSpeed) * dt * 5) * 0.98,
          min 30 (((t.turbineSpeed
            + ((s.rpm / 8000) * (s.throttle / 100) * 200000 - t.turbineSpeed) * dt * 5) * 0.98
              / 100000) * s.throttle / 100 * 15),
          70 + ((t.turbineSpeed
            + ((s.rpm / 8000) * (s.throttle / 100) * 200000 - t.turbineSpeed) * dt * 5) / 1000)
            + (s.throttle * 2)⟩ := by
  simp [Turbocharger2D.update, h]

/-- An invariant of single calls is an invariant of runs. -/
theorem run_invariant (P : Turbocharger2D K → Prop) (Q : TurboCall K → Prop)
    (hstep : ∀ t c, P t → Q c → P (t.call c)) (calls : List (TurboCall K)) :
    ∀ t, P t → (∀ c ∈ calls, Q c) → P (t.run calls) := by
  induction calls with
  | nil => intro t ht _; exact ht
  | cons c rest ih =>
    intro t ht hQ
    exact ih (t.call c) (hstep t c ht (hQ c (List.mem_cons_self _ _)))
      (fun d hd => hQ d (List.mem_cons_of_mem _ hd))

theorem compressor_tracks_turbine_call (t : Turbocharger2D K) (c : TurboCall K)
    (h : t.compressorSpeed = 0.98 * t.turbineSpeed) :
    (t.call c).compressorSpeed = 0.98 * (t.call c).turbineSpeed := by
  cases c with
  | update dt s =>
    cases hen : t.enabled with
    | false =>
      simp only [Turbocharger2D.call, update_disabled t dt s hen, h]
      ring
    | true =>
      simp only [Turbocharger2D.call, update_enabled t dt s hen]
      ring
  | setEnabled b => exact h

theorem compressor_tracks_turbine_run (calls : List (TurboCall K)) :
    ((Turbocharger2D.init : Turbocharger2D K).run calls).compressorSpeed
      = 0.98 * ((Turbocharger2D.init : Turbocharger2D K).run calls).turbineSpeed :=
  run_invariant (fun t => t.compressorSpeed = 0.98 * t.turbineSpeed) (fun _ => True)
    (fun t c ht _ => compressor_tracks_turbine_call t c ht) calls Turbocharger2D.init
    (by simp [Turbocharger2D.init]) (fun _ _ => trivial)

/-- C12.  In exact arithmetic: in a disabled turbocharger state (reached from
the initial state by any calls) with turbineSpeed > 0 and boostPressure > 0,
one update multiplies turbineSpeed, compressorSpeed and boostPressure by 0.95,
0.95 and 0.9, so all three strictly decrease and stay strictly positive, for
every deltaTime and settings; and `setEnabled` changes none of the four
numeric fields.  In binary64 arithmetic: one disabled update stores the
rounded products with 0.95, 0.95 and 0.9, and each of the three fields that
holds a positive double stays strictly positive and does not increase. -/
theorem C12_disabled_decay (calls : List (TurboCall K)) (dt : K) (s : EngineSettings K)
    (b : Bool) (u : Turbocharger2D ℚ) (deltaTime : ℚ) (settings : EngineSettings ℚ)
    (hdis : ((Turbocharger2D.init : Turbocharger2D K).run calls).enabled = false)
    (hts : 0 < ((Turbocharger2D.init : Turbocharger2D K).run calls).turbineSpeed)
    (hbp : 0 < ((Turbocharger2D.init : Turbocharger2D K).run calls).boostPressure) :
    ((((Turbocharger2D.init : Turbocharger2D K).run calls).update dt s).turbineSpeed
          = ((Turbocharger2D.init : Turbocharger2D K).run calls).turbineSpeed * 0.95
        ∧ (((Turbocharger2D.init : Turbocharger2D K).run calls).update dt s).compressorSpeed
          = ((Turbocharger2D.init : Turbocharger2D K).run calls).compressorSpeed * 0.95
        ∧ (((Turbocharger2D.init : Turbocharger2D K).run calls).update dt s).boostPressure
          = ((Turbocharger2D.init : Turbocharger2D K).run calls).boostPressure * 0.9)
      ∧ ((((Turbocharger2D.init : Turbocharger2D K).run calls).update dt s).turbineSpeed
          < ((Turbocharger2D.init : Turbocharger2D K).run calls).turbineSpeed
        ∧ (((Turbocharger2D.init : Turbocharger2D K).run calls).update dt s).compressorSpeed
          < ((Turbocharger2D.init : Turbocharger2D K).run calls).compressorSpeed
        ∧ (((Turbocharger2D.init : Turbocharger2D K).run calls).update dt s).boostPressure
          < ((Turbocharger2D.init : Turbocharger2D K).run calls).boostPressure)
      ∧ (0 < (((Turbocharger2D.init : Turbocharger2D K).run calls).update dt s).turbineSpeed
        ∧ 0 < (((Turbocharger2D.init : Turbocharger2D K).run calls).update dt s).compressorSpeed
        ∧ 0 < (((Turbocharger2D.init : Turbocharger2D K).run calls).update dt s).boostPressure)
      ∧ ((((Turbocharger2D.init : Turbocharger2D K).run calls).setEnabled b).turbineSpeed
          = ((Turbocharger2D.init : Turbocharger2D K).run calls).turbineSpeed
        ∧ (((Turbocharger2D.init : Turbocharger2D K).run calls).setEnabled b).compressorSpeed
          = ((Turbocharger2D.init : Turbocharger2D K).run calls).compressorSpeed
        ∧ (((Turbocharger2D.init : Turbocharger2D K).run calls).setEnabled b).boostPressure
          = ((Turbocharger2D.init : Turbocharger2D K).run calls).boostPressure
        ∧ (((Turbocharger2D.init : Turbocharger2D K).run calls).setEnabled b).temperature
          = ((Turbocharger2D.init : Turbocharger2D K).run calls).temperature)
      ∧ (u.enabled = false →
          ((u.updateF64 deltaTime settings).turbineSpeed
                = Binary64.mul u.turbineSpeed (Binary64.round 0.95)
              ∧ (u.updateF64 deltaTime settings).compressorSpeed
                = Binary64.mul u.compressorSpeed (Binary64.round 0.95)
              ∧ (u.updateF64 deltaTime settings).boostPressure
                = Binary64.mul u.boostPressure (Binary64.round 0.9))
            ∧ (0 < u.turbineSpeed → Binary64.round u.turbineSpeed = u.turbineSpeed →
                0 < (u.updateF64 deltaTime settings).turbineSpeed
                  ∧ (u.updateF64 deltaTime settings).turbineSpeed ≤ u.turbineSpeed)
            ∧ (0 < u.compressorSpeed →
                Binary64.round u.compressorSpeed = u.compressorSpeed →
                0 < (u.updateF64 deltaTime settings).compressorSpeed
                  ∧ (u.updateF64 deltaTime settings).compressorSpeed ≤ u.compressorSpeed)
            ∧ (0 < u.boostPressure → Binary64.round u.boostPressure = u.boostPressure →
                0 < (u.updateF64 deltaTime settings).boostPressure
                  ∧ (u.updateF64 deltaTime settings).boostPressure ≤ u.boostPressure)) := by
  have hcs := compressor_tracks_turbine_run calls
  generalize (Turbocharger2D.init : Turbocharger2D K).run calls = t at hdis hts hbp hcs ⊢
  have hcpos : 0 < t.compressorSpeed := by
    rw [hcs]
    linarith
  rw [update_disabled t dt s hdis]
  refine ⟨⟨rfl, rfl, rfl⟩, ⟨?_, ?_, ?_⟩, ⟨?_, ?_, ?_⟩, ⟨rfl, rfl, rfl, rfl⟩,
    updateF64_disabled_bounds u deltaTime settings⟩
  all_goals (show _ < _; linarith)

/-- The state after enabling the turbocharger, one frame of a tenth of a
second at rpm 6000 and throttle 80, and disabling it again. -/
theorem spooled_then_disabled :
    (Turbocharger2D.init : Turbocharger2D ℚ).run
        [TurboCall.setEnabled true, TurboCall.update (1 / 10) ⟨6000, 80, 147 / 10, 15, 0⟩,
          TurboCall.setEnabled false]
      = ⟨false, 60000, 58800, 882 / 125, 290⟩ := by
  simp only [Turbocharger2D.run, List.foldl, Turbocharger2D.call, Turbocharger2D.setEnabled,
    Turbocharger2D.init]
  rw [update_enabled _ _ _ rfl]
  norm_num

/-- Witness for C12: the spooled and then disabled turbocharger decays in
exact arithmetic, and in binary64 arithmetic the turbine speed 60000 of a
disabled turbocharger stays positive and does not increase. -/
theorem C12_disabled_decay_witness :
    ((((Turbocharger2D.init : Turbocharger2D ℚ).run
          [TurboCall.setEnabled true, TurboCall.update (1 / 10) ⟨6000, 80, 147 / 10, 15, 0⟩,
            TurboCall.setEnabled false]).update (1 / 60)
          ⟨6000, 80, 147 / 10, 15, 0⟩).turbineSpeed
        < ((Turbocharger2D.init : Turbocharger2D ℚ).run
          [TurboCall.setEnabled true, TurboCall.update (1 / 10) ⟨6000, 80, 147 / 10, 15, 0⟩,
            TurboCall.setEnabled false]).turbineSpeed)
      ∧ (0 < ((⟨false, 60000, 58800, 7, 290⟩ : Turbocharger2D ℚ).updateF64 (1 / 16)
            ⟨6000, 80, 15, 15, 0⟩).turbineSpeed
        ∧ ((⟨false, 60000, 58800, 7, 290⟩ : Turbocharger2D ℚ).updateF64 (1 / 16)
            ⟨6000, 80, 15, 15, 0⟩).turbineSpeed ≤ 60000) :=
  ⟨(C12_disabled_decay
      [TurboCall.setEnabled true, TurboCall.update (1 / 10) ⟨6000, 80, 147 / 10, 15, 0⟩,
        TurboCall.setEnabled false] (1 / 60) ⟨6000, 80, 147 / 10, 15, 0⟩ false
      (⟨false, 60000, 58800, 7, 290⟩ : Turbocharger2D ℚ) (1 / 16) ⟨6000, 80, 15, 15, 0⟩
      (by rw [spooled_then_disabled])
      (by rw [spooled_then_disabled]; norm_num)
      (by rw [spooled_then_disabled]; norm_num)).2.1.1,
    ((C12_disabled_decay
      ([TurboCall.setEnabled true, TurboCall.update (1 / 10) ⟨6000, 80, 147 / 10, 15, 0⟩,
        TurboCall.setEnabled false] : List (TurboCall ℚ)) (1 / 60)
      ⟨6000, 80, 147 / 10, 15, 0⟩ false
      (⟨false, 60000, 58800, 7, 290⟩ : Turbocharger2D ℚ) (1 / 16) ⟨6000, 80, 15, 15, 0⟩
      (by rw [spooled_then_disabled])
      (by rw [spooled_then_disabled]; norm_num)
      (by rw [spooled_then_disabled]; norm_num)).2.2.2.2 rfl).2.1 (by norm_num)
      (by decide!)⟩

/-- C12, counterexample in binary64 arithmetic: enable the turbocharger, run
one frame of 1/16 s at rpm 8000 with the throttle `2 ^ (-530)`, disable it and
run 10 disabled frames.  The state reached is disabled with turbineSpeed,
compressorSpeed and boostPressure all positive, its boostPressure is
`5 * 2 ^ (-1074)` (five times the smallest positive double), and the next
disabled update stores the same boostPressure again: `boostPressure * 0.9`
rounds back to `5 * 2 ^ (-1074)`, so boostPressure does not strictly
decrease. -/
theorem C12_disabled_decay_counterexample :
    ((Turbocharger2D.init : Turbocharger2D ℚ).runF64
        ([TurboCall.setEnabled true,
            TurboCall.update (1 / 16) ⟨8000, Binary64.pow2 (-530), 15, 15, 0⟩,
            TurboCall.setEnabled false]
          ++ List.replicate 10
            (TurboCall.update (1 / 16) ⟨8000, Binary64.pow2 (-530), 15, 15, 0⟩))).enabled
        = false
      ∧ 0 < ((Turbocharger2D.init : Turbocharger2D ℚ).runF64
        ([TurboCall.setEnabled true,
            TurboCall.update (1 / 16) ⟨8000, Binary64.pow2 (-530), 15, 15, 0⟩,
            TurboCall.setEnabled false]
          ++ List.replicate 10
            (TurboCall.update (1 / 16) ⟨8000, Binary64.pow2 (-530), 15, 15, 0⟩))).turbineSpeed
      ∧ 0 < ((Turbocharger2D.init : Turbocharger2D ℚ).runF64
        ([TurboCall.setEnabled true,
            TurboCall.update (1 / 16) ⟨8000, Binary64.pow2 (-530), 15, 15, 0⟩,
            TurboCall.setEnabled false]
          ++ List.replicate 10
            (TurboCall.update (1 / 16)
              ⟨8000, Binary64.pow2 (-530), 15, 15, 0⟩))).compressorSpeed
      ∧ ((Turbocharger2D.init : Turbocharger2D ℚ).runF64
        ([TurboCall.setEnabled true,
            TurboCall.update (1 / 16) ⟨8000, Binary64.pow2 (-530), 15, 15, 0⟩,
            TurboCall.setEnabled false]
          ++ List.replicate 10
            (TurboCall.update (1 / 16) ⟨8000, Binary64.pow2 (-530), 15, 15, 0⟩))).boostPressure
        = 5 * Binary64.pow2 (-1074)
      ∧ (0 : ℚ) < 5 * Binary64.pow2 (-1074)
      ∧ (((Turbocharger2D.init : Turbocharger2D ℚ).runF64
        ([TurboCall.setEnabled true,
            TurboCall.update (1 / 16) ⟨8000, Binary64.pow2 (-530), 15, 15, 0⟩,
            TurboCall.setEnabled false]
          ++ List.replicate 10
            (TurboCall.update (1 / 16) ⟨8000, Binary64.pow2 (-530), 15, 15, 0⟩))).updateF64
          (1 / 16) ⟨8000, Binary64.pow2 (-530), 15, 15, 0⟩).boostPressure
        = 5 * Binary64.pow2 (-1074) := by
  decide!

/-- C13: with the turbocharger enabled and a frame time in [0, 0.1], the new
turbineSpeed lies between the old turbineSpeed and the target
`(rpm/8000)*(throttle/100)*200000`: the distance to the target does not grow
and the speed stays on the same side of the target. -/
theorem C13_enabled_lag_no_overshoot (t : Turbocharger2D K) (dt : K) (s : EngineSettings K)
    (hen : t.enabled = true) (h0 : 0 ≤ dt) (h1 : dt ≤ 0.1) :
    min t.turbineSpeed ((s.rpm / 8000) * (s.throttle / 100) * 200000)
        ≤ (t.update dt s).turbineSpeed
      ∧ (t.update dt s).turbineSpeed
        ≤ max t.turbineSpeed ((s.rpm / 8000) * (s.throttle / 100) * 200000)
      ∧ |(s.rpm / 8000) * (s.throttle / 100) * 200000 - (t.update dt s).turbineSpeed|
        ≤ |(s.rpm / 8000) * (s.throttle / 100) * 200000 - t.turbineSpeed|
      ∧ 0 ≤ ((s.rpm / 8000) * (s.throttle / 100) * 200000 - (t.update dt s).turbineSpeed)
            * ((s.rpm / 8000) * (s.throttle / 100) * 200000 - t.turbineSpeed) := by
  rw [update_enabled t dt s hen]
  generalize (s.rpm / 8000) * (s.throttle / 100) * 200000 = target
  show min t.turbineSpeed target ≤ t.turbineSpeed + (target - t.turbineSpeed) * dt * 5
    ∧ t.turbineSpeed + (target - t.turbineSpeed) * dt * 5 ≤ max t.turbineSpeed target
    ∧ |target - (t.turbineSpeed + (target - t.turbineSpeed) * dt * 5)|
      ≤ |target - t.turbineSpeed|
    ∧ 0 ≤ (target - (t.turbineSpeed + (target - t.turbineSpeed) * dt * 5))
          * (target - t.turbineSpeed)
  have hl0 : 0 ≤ 1 - dt * 5 := by linarith
  have hl1 : 1 - dt * 5 ≤ 1 := by linarith
  have hd : target - (t.turbineSpeed + (target - t.turbineSpeed) * dt * 5)
      = (1 - dt * 5) * (target - t.turbineSpeed) := by ring
  refine ⟨?_, ?_, ?_, ?_⟩
  · rcases le_total t.turbineSpeed target with h | h
    · rw [min_eq_left h]
      have : 0 ≤ (target - t.turbineSpeed) * (dt * 5) :=
        mul_nonneg (by linarith) (by linarith)
      linarith
    · rw [min_eq_right h]
      have : 0 ≤ (1 - dt * 5) * (t.turbineSpeed - target) := mul_nonneg hl0 (by linarith)
      linarith
  · rcases le_total t.turbineSpeed target with h | h
    · rw [max_eq_right h]
      have : 0 ≤ (1 - dt * 5) * (target - t.turbineSpeed) := mul_nonneg hl0 (by linarith)
      linarith
    · rw [max_eq_left h]
      have : 0 ≤ (t.turbineSpeed - target) * (dt * 5) :=
        mul_nonneg (by linarith) (by linarith)
      linarith
  · rw [hd, abs_mul, abs_of_nonneg hl0]
    exact mul_le_of_le_one_left (abs_nonneg _) hl1
  · rw [hd, mul_assoc]
    exact mul_nonneg hl0 (mul_self_nonneg _)

/-- Witness for C13: an enabled turbocharger at 30000 rpm turbine speed, one
frame of a sixtieth of a second towards the target 120000. -/
theorem C13_enabled_lag_no_overshoot_witness :
    ((⟨true, 30000, 29400, 3, 200⟩ : Turbocharger2D ℚ).update (1 / 60)
        ⟨6000, 80, 147 / 10, 15, 0⟩).turbineSpeed
      ≤ max (30000 : ℚ) ((6000 / 8000) * (80 / 100) * 200000) :=
  (C13_enabled_lag_no_overshoot (⟨true, 30000, 29400, 3, 200⟩ : Turbocharger2D ℚ) (1 / 60)
    ⟨6000, 80, 147 / 10, 15, 0⟩ rfl (by norm_num) (by norm_num)).2.1

/-- C15, in exact arithmetic: in every state reached from the initial
turbocharger state by any sequence of `update` and `setEnabled` calls,
compressorSpeed equals 0.98 * turbineSpeed; the enabled update sets it so
from an arbitrary state, the disabled decay multiplies both speeds by 0.95
and so preserves it, and `setEnabled` preserves it.  In binary64 arithmetic
the enabled update stores the rounded product of the new turbineSpeed and
0.98. -/
theorem C15_compressor_tracks_turbine (calls : List (TurboCall K))
    (t : Turbocharger2D K) (dt : K) (s : EngineSettings K)
    (u : Turbocharger2D ℚ) (deltaTime : ℚ) (settings : EngineSettings ℚ) :
    ((Turbocharger2D.init : Turbocharger2D K).run calls).compressorSpeed
        = 0.98 * ((Turbocharger2D.init : Turbocharger2D K).run calls).turbineSpeed
      ∧ (t.enabled = true →
          (t.update dt s).compressorSpeed = 0.98 * (t.update dt s).turbineSpeed)
      ∧ (t.enabled = false → t.compressorSpeed = 0.98 * t.turbineSpeed →
          (t.update dt s).turbineSpeed = 0.95 * t.turbineSpeed
            ∧ (t.update dt s).compressorSpeed = 0.95 * t.compressorSpeed
            ∧ (t.update dt s).compressorSpeed = 0.98 * (t.update dt s).turbineSpeed)
      ∧ (t.compressorSpeed = 0.98 * t.turbineSpeed → ∀ b : Bool,
          (t.setEnabled b).compressorSpeed = 0.98 * (t.setEnabled b).turbineSpeed)
      ∧ (u.enabled = true →
          (u.updateF64 deltaTime settings).compressorSpeed
            = Binary64.mul (u.updateF64 deltaTime settings).turbineSpeed
                (Binary64.round 0.98)) := by
  refine ⟨compressor_tracks_turbine_run calls, ?_, ?_, ?_, ?_⟩
  · intro hen
    rw [update_enabled t dt s hen]
    show _ * 0.98 = 0.98 * _
    ring
  · intro hdis h
    rw [update_disabled t dt s hdis]
    refine ⟨?_, ?_, ?_⟩
    · show t.turbineSpeed * 0.95 = 0.95 * t.turbineSpeed
      ring
    · show t.compressorSpeed * 0.95 = 0.95 * t.compressorSpeed
      ring
    · show t.compressorSpeed * 0.95 = 0.98 * (t.turbineSpeed * 0.95)
      rw [h]
      ring
  · intro h b
    exact h
  · intro hen
    simp [Turbocharger2D.updateF64, hen]

/-- Witness for C15: an enabled state whose compressorSpeed is unrelated to
its turbineSpeed; one update restores the ratio. -/
theorem C15_compressor_tracks_turbine_witness :
    ((⟨true, 30000, 1, 3, 200⟩ : Turbocharger2D ℚ).update (1 / 60)
        ⟨6000, 80, 147 / 10, 15, 0⟩).compressorSpeed
      = 0.98 * ((⟨true, 30000, 1, 3, 200⟩ : Turbocharger2D ℚ).update (1 / 60)
        ⟨6000, 80, 147 / 10, 15, 0⟩).turbineSpeed :=
  (C15_compressor_tracks_turbine [] (⟨true, 30000, 1, 3, 200⟩ : Turbocharger2D ℚ) (1 / 60)
    ⟨6000, 80, 147 / 10, 15, 0⟩ (⟨true, 30000, 1, 3, 200⟩ : Turbocharger2D ℚ) (1 / 16)
    ⟨6000, 80, 15, 15, 0⟩).2.1 rfl

/-- C15, counterexample in binary64 arithmetic: enable the turbocharger, run
one frame of 0.1 s at rpm 6000 and throttle 80, disable it and run three
disabled frames.  Then turbineSpeed is the double 51442.50000000001 and
compressorSpeed the double 50413.65, while `0.98 * turbineSpeed` evaluates to
the next double 50413.65000000001; compressorSpeed is neither that double nor
the exact product. -/
theorem C15_compressor_tracks_turbine_counterexample :
    ((Turbocharger2D.init : Turbocharger2D ℚ).runF64
        [TurboCall.setEnabled true,
          TurboCall.update (Binary64.round 0.1) ⟨6000, 80, 15, 15, 0⟩,
          TurboCall.setEnabled false,
          TurboCall.update (Binary64.round 0.1) ⟨6000, 80, 15, 15, 0⟩,
          TurboCall.update (Binary64.round 0.1) ⟨6000, 80, 15, 15, 0⟩,
          TurboCall.update (Binary64.round 0.1) ⟨6000, 80, 15, 15, 0⟩]).turbineSpeed
        = Binary64.round 51442.50000000001
      ∧ ((Turbocharger2D.init : Turbocharger2D ℚ).runF64
        [TurboCall.setEnabled true,
          TurboCall.update (Binary64.round 0.1) ⟨6000, 80, 15, 15, 0⟩,
          TurboCall.setEnabled false,
          TurboCall.update (Binary64.round 0.1) ⟨6000, 80, 15, 15, 0⟩,
          TurboCall.update (Binary64.round 0.1) ⟨6000, 80, 15, 15, 0⟩,
          TurboCall.update (Binary64.round 0.1) ⟨6000, 80, 15, 15, 0⟩]).compressorSpeed
        = Binary64.round 50413.65
      ∧ Binary64.mul (Binary64.round 0.98) (Binary64.round 51442.50000000001)
        = Binary64.round 50413.65000000001
      ∧ Binary64.round 50413.65 ≠ Binary64.round 50413.65000000001
      ∧ Binary64.round 50413.65 ≠ 0.98 * Binary64.round 51442.50000000001 := by
  decide!

theorem boost_range_call (t : Turbocharger2D K) (c : TurboCall K)
    (h : 0 ≤ t.turbineSpeed ∧ 0 ≤ t.boostPressure ∧ t.boostPressure ≤ 30)
    (hc : c.hostFrame) :
    0 ≤ (t.call c).turbineSpeed ∧ 0 ≤ (t.call c).boostPressure
      ∧ (t.call c).boostPressure ≤ 30 := by
  obtain ⟨hts, hb0, hb1⟩ := h
  cases c with
  | update dt s =>
    obtain ⟨hrpm, hthr, hd0, hd1⟩ := hc
    cases hen : t.enabled with
    | false =>
      simp only [Turbocharger2D.call, update_disabled t dt s hen]
      refine ⟨?_, ?_, ?_⟩ <;> linarith
    | true =>
      simp only [Turbocharger2D.call, update_enabled t dt s hen]
      have htarget : 0 ≤ (s.rpm / 8000) * (s.throttle / 100) * 200000 := by positivity
      have hl0 : 0 ≤ 1 - dt * 5 := by linarith
      have hnew : 0 ≤ t.turbineSpeed
          + ((s.rpm / 8000) * (s.throttle / 100) * 200000 - t.turbineSpeed) * dt * 5 := by
        have e1 : t.turbineSpeed
            + ((s.rpm / 8000) * (s.throttle / 100) * 200000 - t.turbineSpeed) * dt * 5
            = t.turbineSpeed * (1 - dt * 5)
              + (s.rpm / 8000) * (s.throttle / 100) * 200000 * (dt * 5) := by ring
        rw [e1]
        exact add_nonneg (mul_nonneg hts hl0) (mul_nonneg htarget (by linarith))
      refine ⟨hnew, le_min (by norm_num) (by positivity), min_le_left _ _⟩
  | setEnabled b => exact ⟨hts, hb0, hb1⟩

/-- C16: after every sequence of host calls from the initial turbocharger
state (updates with rpm ≥ 0, throttle ≥ 0 and 0 ≤ deltaTime ≤ 0.1, and
`setEnabled` toggles in between) boostPressure lies in [0, 30]; and an enabled
update never stores a boost above 30, whatever the state and settings. -/
theorem C16_boost_within_limits (calls : List (TurboCall K)) (t : Turbocharger2D K) (dt : K)
    (s : EngineSettings K) (hcalls : ∀ c ∈ calls, c.hostFrame) (hen : t.enabled = true) :
    0 ≤ ((Turbocharger2D.init : Turbocharger2D K).run calls).boostPressure
      ∧ ((Turbocharger2D.init : Turbocharger2D K).run calls).boostPressure ≤ 30
      ∧ (t.update dt s).boostPressure ≤ 30 := by
  have h := run_invariant
    (fun t : Turbocharger2D K => 0 ≤ t.turbineSpeed ∧ 0 ≤ t.boostPressure ∧ t.boostPressure ≤ 30)
    TurboCall.hostFrame (fun t c ht hc => boost_range_call t c ht hc) calls Turbocharger2D.init
    (by simp [Turbocharger2D.init]) hcalls
  refine ⟨h.2.1, h.2.2, ?_⟩
  rw [update_enabled t dt s hen]
  exact min_le_left _ _

/-- Witness for C16: enable, a frame at rpm 6000 and full throttle, disable,
another frame; and an enabled update at an extreme turbine speed. -/
theorem C16_boost_within_limits_witness :
    ((Turbocharger2D.init : Turbocharger2D ℚ).run
        [TurboCall.setEnabled true, TurboCall.update (1 / 10) ⟨6000, 100, 147 / 10, 15, 0⟩,
          TurboCall.setEnabled false,
          TurboCall.update (1 / 60) ⟨6000, 100, 147 / 10, 15, 0⟩]).boostPressure ≤ 30
      ∧ ((⟨true, 10000000, 9800000, 30, 200⟩ : Turbocharger2D ℚ).update (1 / 10)
          ⟨8000, 100, 147 / 10, 15, 0⟩).boostPressure ≤ 30 :=
  (C16_boost_within_limits
    [TurboCall.setEnabled true, TurboCall.update (1 / 10) ⟨6000, 100, 147 / 10, 15, 0⟩,
      TurboCall.setEnabled false, TurboCall.update (1 / 60) ⟨6000, 100, 147 / 10, 15, 0⟩]
    (⟨true, 10000000, 9800000, 30, 200⟩ : Turbocharger2D ℚ) (1 / 10)
    ⟨8000, 100, 147 / 10, 15, 0⟩
    (by
      intro c hc
      simp only [List.mem_cons, List.mem_singleton, List.not_mem_nil, or_false] at hc
      rcases hc with rfl | rfl | rfl | rfl <;> simp [TurboCall.hostFrame] <;> norm_num)
    rfl).2

/-- One enabled frame at rpm 6000 and throttle 80 (target 120000) with
`0 < deltaTime ≤ 0.1`, from a turbine speed below 120000: the speed rises
strictly, stays below the target, and the boost is the unclamped value
`turbineSpeed * 0.98 / 100000 * 80 / 100 * 15`. -/
theorem spool_frame (t : Turbocharger2D K) (dt afr timing boost : K)
    (hen : t.enabled = true) (h1 : t.turbineSpeed < 120000)
    (hd0 : 0 < dt) (hd1 : dt ≤ 0.1) :
    (t.update dt ⟨6000, 80, afr, timing, boost⟩).enabled = true
      ∧ t.turbineSpeed < (t.update dt ⟨6000, 80, afr, timing, boost⟩).turbineSpeed
      ∧ (t.update dt ⟨6000, 80, afr, timing, boost⟩).turbineSpeed < 120000
      ∧ (t.update dt ⟨6000, 80, afr, timing, boost⟩).boostPressure
        = (t.update dt ⟨6000, 80, afr, timing, boost⟩).turbineSpeed * 0.98 / 100000 * 80
            / 100 * 15 := by
  rw [update_enabled t dt _ hen]
  have htarget : ((6000 : K) / 8000) * (80 / 100) * 200000 = 120000 := by norm_num
  simp only [htarget]
  have hgap : 0 < 120000 - t.turbineSpeed := by linarith
  have hstep : 0 < (120000 - t.turbineSpeed) * dt := mul_pos hgap hd0
  have hhalf : (120000 - t.turbineSpeed) * dt ≤ (120000 - t.turbineSpeed) * 0.1 :=
    mul_le_mul_of_nonneg_left hd1 hgap.le
  have hlt : t.turbineSpeed + (120000 - t.turbineSpeed) * dt * 5 < 120000 := by linarith
  refine ⟨trivial, by linarith, hlt, ?_⟩
  apply min_eq_right
  linarith

/-- The invariant of the spool-up scenario is kept by every run of frames. -/
theorem spool_run (afr timing boost : K) (dts : List K) :
    ∀ t : Turbocharger2D K, t.enabled = true → 0 < t.turbineSpeed → t.turbineSpeed < 120000 →
      t.boostPressure = t.turbineSpeed * 0.98 / 100000 * 80 / 100 * 15 →
      (∀ d ∈ dts, 0 < d ∧ d ≤ 0.1) →
      (t.run (dts.map fun d => TurboCall.update d ⟨6000, 80, afr, timing, boost⟩)).enabled = true
        ∧ 0 < (t.run (dts.map fun d =>
            TurboCall.update d ⟨6000, 80, afr, timing, boost⟩)).turbineSpeed
        ∧ (t.run (dts.map fun d =>
            TurboCall.update d ⟨6000, 80, afr, timing, boost⟩)).turbineSpeed < 120000
        ∧ (t.run (dts.map fun d =>
            TurboCall.update d ⟨6000, 80, afr, timing, boost⟩)).boostPressure
          = (t.run (dts.map fun d =>
              TurboCall.update d ⟨6000, 80, afr, timing, boost⟩)).turbineSpeed
              * 0.98 / 100000 * 80 / 100 * 15 := by
  induction dts with
  | nil => intro t hen h0 h1 hb _; exact ⟨hen, h0, h1, hb⟩
  | cons d rest ih =>
    intro t hen h0 h1 _ hd
    have hd' := hd d (List.mem_cons_self _ _)
    obtain ⟨e1, e2, e3, e4⟩ := spool_frame t d afr timing boost hen h1 hd'.1 hd'.2
    exact ih _ e1 (lt_trans h0 e2) e3 e4 (fun x hx => hd x (List.mem_cons_of_mem _ hx))

/-- C14.  In exact arithmetic: from the initial turbocharger state, enabled at
rpm 6000 and throttle 80 and updated with frame times in (0, 0.1]: after the
first frame boostPressure is strictly between 0 and the steady-state value
14.112, and on every later frame boostPressure strictly increases and stays
below 14.112.  In binary64 arithmetic, with positive frame times up to the
double 0.1 (the first of them a double): after the first frame boostPressure
is strictly between 0 and 14.112, and on every later frame boostPressure does
not decrease and does not exceed the double 14.112000000000002, the value of
the boost expression at the target speed. -/
theorem C14_boost_rises_over_frames (afr timing boost dt₁ dt : K) (dts : List K)
    (airFuelRatio ignitionTiming boostSetting deltaTime₁ deltaTime : ℚ) (deltaTimes : List ℚ)
    (h₁ : 0 < dt₁ ∧ dt₁ ≤ 0.1) (hdts : ∀ d ∈ dts, 0 < d ∧ d ≤ 0.1) (h : 0 < dt ∧ dt ≤ 0.1) :
    (0 < (((Turbocharger2D.init : Turbocharger2D K).setEnabled true).update dt₁
          ⟨6000, 80, afr, timing, boost⟩).boostPressure
        ∧ (((Turbocharger2D.init : Turbocharger2D K).setEnabled true).update dt₁
          ⟨6000, 80, afr, timing, boost⟩).boostPressure < 14.112)
      ∧ (((((Turbocharger2D.init : Turbocharger2D K).setEnabled true).update dt₁
            ⟨6000, 80, afr, timing, boost⟩).run
            (dts.map fun d => TurboCall.update d ⟨6000, 80, afr, timing, boost⟩)).boostPressure
          < (((((Turbocharger2D.init : Turbocharger2D K).setEnabled true).update dt₁
            ⟨6000, 80, afr, timing, boost⟩).run
            (dts.map fun d => TurboCall.update d ⟨6000, 80, afr, timing, boost⟩)).update dt
            ⟨6000, 80, afr, timing, boost⟩).boostPressure
        ∧ (((((Turbocharger2D.init : Turbocharger2D K).setEnabled true).update dt₁
            ⟨6000, 80, afr, timing, boost⟩).run
            (dts.map fun d => TurboCall.update d ⟨6000, 80, afr, timing, boost⟩)).update dt
            ⟨6000, 80, afr, timing, boost⟩).boostPressure < 14.112)
      ∧ (Binary64.round deltaTime₁ = deltaTime₁ →
          (0 < deltaTime₁ ∧ deltaTime₁ ≤ Binary64.round 0.1) →
          (∀ d ∈ deltaTimes, 0 < d ∧ d ≤ Binary64.round 0.1) →
          (0 < deltaTime ∧ deltaTime ≤ Binary64.round 0.1) →
          (0 < (((Turbocharger2D.init : Turbocharger2D ℚ).setEnabled true).updateF64
                deltaTime₁ ⟨6000, 80, airFuelRatio, ignitionTiming, boostSetting⟩).boostPressure
            ∧ (((Turbocharger2D.init : Turbocharger2D ℚ).setEnabled true).updateF64
                deltaTime₁ ⟨6000, 80, airFuelRatio, ignitionTiming, boostSetting⟩).boostPressure
              < 14.112)
          ∧ (((((Turbocharger2D.init : Turbocharger2D ℚ).setEnabled true).updateF64
                deltaTime₁ ⟨6000, 80, airFuelRatio, ignitionTiming, boostSetting⟩).runF64
                (deltaTimes.map fun d => TurboCall.update d
                  ⟨6000, 80, airFuelRatio, ignitionTiming, boostSetting⟩)).boostPressure
              ≤ (((((Turbocharger2D.init : Turbocharger2D ℚ).setEnabled true).updateF64
                deltaTime₁ ⟨6000, 80, airFuelRatio, ignitionTiming, boostSetting⟩).runF64
                (deltaTimes.map fun d => TurboCall.update d
                  ⟨6000, 80, airFuelRatio, ignitionTiming, boostSetting⟩)).updateF64
                deltaTime ⟨6000, 80, airFuelRatio, ignitionTiming, boostSetting⟩).boostPressure
            ∧ (((((Turbocharger2D.init : Turbocharger2D ℚ).setEnabled true).updateF64
                deltaTime₁ ⟨6000, 80, airFuelRatio, ignitionTiming, boostSetting⟩).runF64
                (deltaTimes.map fun d => TurboCall.update d
                  ⟨6000, 80, airFuelRatio, ignitionTiming, boostSetting⟩)).updateF64
                deltaTime ⟨6000, 80, airFuelRatio, ignitionTiming, boostSetting⟩).boostPressure
              ≤ Binary64.round 14.112000000000002)) := by
  obtain ⟨a1, a2, a3, a4⟩ := spool_frame ((Turbocharger2D.init : Turbocharger2D K).setEnabled true)
    dt₁ afr timing boost rfl (by norm_num [Turbocharger2D.init,
      Turbocharger2D.setEnabled]) h₁.1 h₁.2
  have a2' : 0 < (((Turbocharger2D.init : Turbocharger2D K).setEnabled true).update dt₁
      ⟨6000, 80, afr, timing, boost⟩).turbineSpeed := a2
  obtain ⟨b1, b2, b3, b4⟩ := spool_run afr timing boost dts _ a1 a2' a3 a4 hdts
  obtain ⟨c1, c2, c3, c4⟩ := spool_frame _ dt afr timing boost b1 b3 h.1 h.2
  refine ⟨⟨?_, ?_⟩, ⟨?_, ?_⟩,
    spool_up_F64 airFuelRatio ignitionTiming boostSetting deltaTime₁ deltaTime deltaTimes⟩
  · rw [a4]
    linarith
  · rw [a4]
    linarith
  · rw [b4, c4]
    linarith
  · rw [c4]
    linarith

/-- Witness for C14: in exact arithmetic a first frame of a tenth of a
second, two frames of a sixtieth, then one more frame of a sixtieth; in
binary64 arithmetic frames of a sixteenth of a second. -/
theorem C14_boost_rises_over_frames_witness :
    ((0 : ℚ) < (((Turbocharger2D.init : Turbocharger2D ℚ).setEnabled true).update (1 / 10)
            ⟨6000, 80, 147 / 10, 15, 0⟩).boostPressure
        ∧ (((Turbocharger2D.init : Turbocharger2D ℚ).setEnabled true).update (1 / 10)
            ⟨6000, 80, 147 / 10, 15, 0⟩).boostPressure < 14.112)
      ∧ (0 < (((Turbocharger2D.init : Turbocharger2D ℚ).setEnabled true).updateF64 (1 / 16)
            ⟨6000, 80, 15, 15, 0⟩).boostPressure
        ∧ (((Turbocharger2D.init : Turbocharger2D ℚ).setEnabled true).updateF64 (1 / 16)
            ⟨6000, 80, 15, 15, 0⟩).boostPressure < 14.112) :=
  ⟨(C14_boost_rises_over_frames (147 / 10) 15 0 (1 / 10) (1 / 60) [1 / 60, 1 / 60]
      15 15 0 (1 / 16) (1 / 16) [1 / 16]
      ⟨by norm_num, by norm_num⟩
      (by
        intro d hd
        simp only [List.mem_cons, List.mem_singleton, List.not_mem_nil, or_false] at hd
        rcases hd with rfl | rfl <;> norm_num)
      ⟨by norm_num, by norm_num⟩).1,
    ((C14_boost_rises_over_frames (147 / 10 : ℚ) 15 0 (1 / 10) (1 / 60) [1 / 60, 1 / 60]
      15 15 0 (1 / 16) (1 / 16) [1 / 16]
      ⟨by norm_num, by norm_num⟩
      (by
        intro d hd
        simp only [List.mem_cons, List.mem_singleton, List.not_mem_nil, or_false] at hd
        rcases hd with rfl | rfl <;> norm_num)
      ⟨by norm_num, by norm_num⟩).2.2 (by decide!) (by decide!)
      (by
        intro d hd
        simp only [List.mem_singleton] at hd
        subst hd
        decide!)
      (by decide!)).1⟩

/-- C14, counterexample in binary64 arithmetic: the turbocharger enabled from
the initial state and updated at rpm 6000 and throttle 80 with frames of
3/32 s (0.09375, within (0, 0.1]).  After 57 frames boostPressure is the
double nearest to 14.112, which is not below the real number 14.112, and
frame 58 stores the same value again: boostPressure neither stays strictly
below 14.112 nor strictly increases on every later frame. -/
theorem C14_boost_rises_over_frames_counterexample :
    ((Turbocharger2D.init : Turbocharger2D ℚ).runF64
        (TurboCall.setEnabled true
          :: List.replicate 57 (TurboCall.update (3 / 32) ⟨6000, 80, 15, 15, 0⟩))).boostPressure
        = Binary64.round 14.112
      ∧ ((Turbocharger2D.init : Turbocharger2D ℚ).runF64
        (TurboCall.setEnabled true
          :: List.replicate 58 (TurboCall.update (3 / 32) ⟨6000, 80, 15, 15, 0⟩))).boostPressure
        = Binary64.round 14.112
      ∧ (14.112 : ℚ) ≤ Binary64.round 14.112 := by
  decide!

end TurboLemmas

/-! ## Exhaust particles -/

section ParticleAging

variable {K : Type} [LinearOrderedField K]

/-- The backward loop started at index `front.length - 1` updates every
particle of `front` once, keeps the ones that have not expired in their order,
and leaves `back` untouched. -/
theorem updateParticlesLoop_spec (dt : K) :
    ∀ (i : ℕ) (front back : List (Particle2D K)), front.length = i →
      ParticleSystem2D.updateParticlesLoop dt i (front ++ back)
        = (front.map fun p => p.aged dt).filter (fun p => decide (¬ p.expired)) ++ back := by
  intro i
  induction i with
  | zero =>
    intro front back h
    have hnil : front = [] := List.length_eq_zero.mp h
    subst hnil
    simp [ParticleSystem2D.updateParticlesLoop]
  | succ i ih =>
    intro front back h
    have hne : front ≠ [] := by
      intro e
      simp [e] at h
    obtain ⟨front', p, rfl⟩ : ∃ f p, front = f ++ [p] :=
      ⟨front.dropLast, front.getLast hne, (List.dropLast_append_getLast hne).symm⟩
    have hlen : front'.length = i := by simpa using h
    have hget : (front' ++ [p] ++ back)[i]? = some p := by
      rw [List.append_assoc, List.getElem?_append_right (by omega)]
      simp [hlen]
    have hset : (front' ++ [p] ++ back).set i (p.aged dt) = front' ++ (p.aged dt :: back) := by
      rw [List.append_assoc, List.set_append_right _ _ (by omega)]
      simp [hlen]
    have herase : (front' ++ (p.aged dt :: back)).eraseIdx i = front' ++ back := by
      rw [List.eraseIdx_append_of_length_le (by omega)]
      simp [hlen]
    rw [ParticleSystem2D.updateParticlesLoop]
    simp only [hget, hset]
    split_ifs with hexp
    · rw [herase, ih front' back hlen]
      simp [List.filter_append, hexp]
    · rw [ih front' (p.aged dt :: back) hlen]
      simp [List.filter_append, hexp]

theorem updateParticles_particles (ps : ParticleSystem2D K) (dt : K) :
    (ps.updateParticles dt).particles
      = (ps.particles.map fun p => p.aged dt).filter (fun p => decide (¬ p.expired)) := by
  have h := updateParticlesLoop_spec dt ps.particles.length ps.particles [] rfl
  simp only [List.append_nil] at h
  exact h

theorem updateParticles_length_le (ps : ParticleSystem2D K) (dt : K) :
    (ps.updateParticles dt).particles.length ≤ ps.particles.length := by
  rw [updateParticles_particles]
  calc (List.filter _ (ps.particles.map fun p => p.aged dt)).length
      ≤ (ps.particles.map fun p => p.aged dt).length := List.length_filter_le _ _
    _ = ps.particles.length := List.length_map _ _

theorem not_expired_iff (p : Particle2D K) :
    ¬ p.expired ↔ p.age < p.maxAge ∧ 0.01 < p.opacity := by
  unfold Particle2D.expired
  rw [not_or, not_le, not_le]

/-- After a first pass through the loop body of `updateParticles`, a further
pass with deltaTime ≥ 0 does not raise the opacity (for maxAge > 0). -/
theorem aged_opacity_antitone (p : Particle2D K) (dt₀ dt : K) (hmax : 0 < p.maxAge)
    (hdt : 0 ≤ dt) : ((p.aged dt₀).aged dt).opacity ≤ (p.aged dt₀).opacity := by
  show max 0 (1 - (p.age + dt₀ + dt) / p.maxAge) ≤ max 0 (1 - (p.age + dt₀) / p.maxAge)
  apply max_le_max (le_refl _)
  have h : (p.age + dt₀) / p.maxAge ≤ (p.age + dt₀ + dt) / p.maxAge :=
    div_le_div_of_nonneg_right (by linarith) hmax.le
  linarith

/-- C19: `updateParticles(deltaTime)` applies the body of its loop to every
particle exactly once (age advanced by deltaTime, position integrated,
opacity set to max(0, 1 - age/maxAge)) and leaves exactly the updated
particles with age < maxAge and opacity > 0.01, in their original order. -/
theorem C19_updateParticles_filters_aged (ps : ParticleSystem2D K) (dt : K)
    (p : Particle2D K) :
    (ps.updateParticles dt).particles
        = (ps.particles.map fun q => q.aged dt).filter
            (fun q => decide (q.age < q.maxAge ∧ 0.01 < q.opacity))
      ∧ (p.aged dt).age = p.age + dt
      ∧ (p.aged dt).x = p.x + p.vx * 60 * dt
      ∧ (p.aged dt).y = p.y + p.vy * 60 * dt
      ∧ (p.aged dt).maxAge = p.maxAge
      ∧ (p.aged dt).opacity = max 0 (1 - (p.aged dt).age / (p.aged dt).maxAge) := by
  refine ⟨?_, rfl, rfl, rfl, rfl, rfl⟩
  rw [updateParticles_particles]
  congr 1
  funext q
  exact decide_eq_decide.mpr (not_expired_iff q)

/-- Reviving a dead slot raises the number of live slots by one. -/
theorem countP_live_set_zero (maxAge : K) (hmax : 0 ≤ maxAge) (ages : List K) (i : ℕ)
    (hi : i < ages.length) (hdead : ¬ ages.getD i 0 ≤ maxAge) :
    (ages.set i 0).countP (fun a => decide (a ≤ maxAge))
      = ages.countP (fun a => decide (a ≤ maxAge)) + 1 := by
  induction ages generalizing i with
  | nil => simp at hi
  | cons x rest ih =>
    cases i with
    | zero =>
      simp only [List.getD_cons_zero] at hdead
      simp [List.countP_cons, hdead, hmax]
    | succ j =>
      simp only [List.getD_cons_succ] at hdead
      simp only [List.length_cons, Nat.succ_lt_succ_iff] at hi
      simp only [List.set_cons_succ, List.countP_cons, ih j hi hdead]
      omega

/-- The dead slots from index `i` on are those from `i + 1` on, and slot `i`
if it is dead. -/
theorem countP_dead_drop (maxAge : K) (ages : List K) (i : ℕ) (hi : i < ages.length) :
    (ages.drop i).countP (fun a => !decide (a ≤ maxAge))
      = (ages.drop (i + 1)).countP (fun a => !decide (a ≤ maxAge))
        + (if ages.getD i 0 ≤ maxAge then 0 else 1) := by
  rw [List.drop_eq_getElem_cons hi, List.countP_cons]
  have : ages.getD i 0 = ages[i] := by
    simp [List.getD_eq_getElem?_getD, List.getElem?_eq_getElem hi]
  rw [this]
  by_cases h : ages[i] ≤ maxAge <;> simp [h]

/-- Every slot is live or dead. -/
theorem countP_live_add_dead (maxAge : K) (ages : List K) :
    ages.countP (fun a => decide (a ≤ maxAge)) + ages.countP (fun a => !decide (a ≤ maxAge))
      = ages.length := by
  induction ages with
  | nil => rfl
  | cons x rest ih =>
    by_cases h : x ≤ maxAge
    · simp only [List.countP_cons, List.length_cons, h, decide_True, Bool.not_true, if_true,
        Bool.false_eq_true, if_false]
      omega
    · simp only [List.countP_cons, List.length_cons, h, decide_False, Bool.not_false, if_true,
        Bool.false_eq_true, if_false]
      omega

end ParticleAging

section ParticleEmission

variable {K : Type} [LinearOrderedField K] [FloorRing K]

theorem emitLoop_length (maxParticles : ℕ) :
    ∀ (n : ℕ) (rand : ℕ → K) (particles : List (Particle2D K)),
      particles.length ≤ maxParticles →
      (ParticleSystem2D.emitLoop maxParticles n rand particles).length
        = min (particles.length + n) maxParticles := by
  intro n
  induction n with
  | zero =>
    intro rand particles h
    simp [ParticleSystem2D.emitLoop, h]
  | succ n ih =>
    intro rand particles h
    rw [ParticleSystem2D.emitLoop]
    split_ifs with hlt
    · rw [ih _ _ (by simp; omega)]
      simp only [List.length_append, List.length_singleton]
      congr 1
      omega
    · have : particles.length = maxParticles := by omega
      rw [this]
      simp

theorem update_hidden (ps : ParticleSystem2D K) (dt : K) (settings : EngineSettings K)
    (rand : ℕ → K) (hvis : ps.visible = false) : ps.update dt settings rand = ps := by
  simp [ParticleSystem2D.update, hvis]

theorem update_visible (ps : ParticleSystem2D K) (dt : K) (settings : EngineSettings K)
    (rand : ℕ → K) (hvis : ps.visible = true) :
    ps.update dt settings rand
      = (if ps.nextEmission - dt ≤ 0 ∧ ps.particles.length < ps.maxParticles then
          (⟨true,
            ParticleSystem2D.emitLoop ps.maxParticles
              ⌈((⌈(settings.rpm / 1000) * (settings.throttle / 100) * 10⌉ : ℤ) : K)⌉₊ rand
              ps.particles,
            ps.maxParticles, (settings.rpm / 1000) * (settings.throttle / 100) * 10, 1 / 30,
            ps.time + dt⟩ : ParticleSystem2D K)
        else
          ⟨true, ps.particles, ps.maxParticles,
            (settings.rpm / 1000) * (settings.throttle / 100) * 10, ps.nextEmission - dt,
            ps.time + dt⟩).updateParticles dt := by
  unfold ParticleSystem2D.update
  simp only [hvis, Bool.not_true, Bool.false_eq_true, if_false]
  split_ifs <;> rfl

/-- C17: if the particle list holds at most `maxParticles` (200 after
construction) entries, it still does after `update`, after `emitParticles`
with any count and after `setVisible`; `emitParticles` adds
`min(⌈count⌉, maxParticles - length)` particles and never fails. -/
theorem C17_particle_count_bounded (ps : ParticleSystem2D K) (dt count : K)
    (settings : EngineSettings K) (rand : ℕ → K) (visible : Bool)
    (h : ps.particles.length ≤ ps.maxParticles) :
    ((ps.update dt settings rand).particles.length ≤ (ps.update dt settings rand).maxParticles
        ∧ (ps.update dt settings rand).maxParticles = ps.maxParticles)
      ∧ ((ps.emitParticles count rand).particles.length
          ≤ (ps.emitParticles count rand).maxParticles
        ∧ (ps.emitParticles count rand).maxParticles = ps.maxParticles
        ∧ (ps.emitParticles count rand).particles.length
          = min (ps.particles.length + ⌈count⌉₊) ps.maxParticles)
      ∧ ((ps.setVisible visible).particles.length ≤ (ps.setVisible visible).maxParticles
        ∧ (ps.setVisible visible).maxParticles = ps.maxParticles)
      ∧ (ParticleSystem2D.init : ParticleSystem2D K).maxParticles = 200 := by
  have hemit : ∀ (q : ParticleSystem2D K) (c : K), q.particles.length ≤ q.maxParticles →
      (q.emitParticles c rand).particles.length
        = min (q.particles.length + ⌈c⌉₊) q.maxParticles :=
    fun q c hq => emitLoop_length q.maxParticles ⌈c⌉₊ rand q.particles hq
  refine ⟨?_, ⟨?_, rfl, hemit ps count h⟩, ?_, rfl⟩
  · cases hvis : ps.visible with
    | false =>
      rw [update_hidden ps dt settings rand hvis]
      exact ⟨h, rfl⟩
    | true =>
      rw [update_visible ps dt settings rand hvis]
      split_ifs with hdue
      · refine ⟨le_trans (updateParticles_length_le _ dt) ?_, rfl⟩
        show (ParticleSystem2D.emitLoop ps.maxParticles _ rand ps.particles).length
          ≤ ps.maxParticles
        rw [emitLoop_length _ _ _ _ h]
        exact min_le_right _ _
      · exact ⟨le_trans (updateParticles_length_le _ dt) h, rfl⟩
  · rw [hemit ps count h]
    exact min_le_right _ _
  · unfold ParticleSystem2D.setVisible
    split_ifs
    · exact ⟨Nat.zero_le _, rfl⟩
    · exact ⟨h, rfl⟩

/-- Witness for C17: the freshly constructed particle system, a request for
500 particles. -/
theorem C17_particle_count_bounded_witness :
    ((ParticleSystem2D.init : ParticleSystem2D ℚ).emitParticles 500 fun _ => 0).particles.length
      ≤ ((ParticleSystem2D.init : ParticleSystem2D ℚ).emitParticles 500 fun _ => 0).maxParticles :=
  (C17_particle_count_bounded (ParticleSystem2D.init : ParticleSystem2D ℚ) (1 / 60) 500
    ⟨6000, 100, 147 / 10, 15, 0⟩ (fun _ => 0) true (Nat.zero_le _)).2.1.1

/-- The particle emitted when every `Math.random()` call returns 0. -/
theorem emitted_particle_zero_random :
    ((ParticleSystem2D.init : ParticleSystem2D ℚ).emitParticles 1 fun _ => 0).particles
      = [⟨-130, -55, -3, -1, 3, 0, 2, 0.8⟩] := by
  have hc : ⌈(1 : ℚ)⌉₊ = 1 := Nat.ceil_one
  simp only [ParticleSystem2D.emitParticles, ParticleSystem2D.init, hc,
    ParticleSystem2D.emitLoop, ParticleSystem2D.newParticle, ParticleSystem2D.exhaustPorts]
  norm_num

/-- C18 (behaviour of the code on the first update): a particle is emitted
with opacity 0.8 (all random draws 0, so maxAge = 2); the first
`updateParticles(1/60)` keeps it and sets its opacity to
1 - (1/60)/2 = 119/120, which is larger than 0.8. -/
theorem C18_first_update_raises_opacity :
    (((ParticleSystem2D.init : ParticleSystem2D ℚ).emitParticles 1 fun _ => 0).particles.map
        fun p => p.opacity) = [0.8]
      ∧ ((((ParticleSystem2D.init : ParticleSystem2D ℚ).emitParticles 1
          fun _ => 0).updateParticles (1 / 60)).particles.map fun p => p.opacity) = [119 / 120]
      ∧ (0.8 : ℚ) < 119 / 120 := by
  refine ⟨?_, ?_, by norm_num⟩
  · rw [emitted_particle_zero_random]
    rfl
  · rw [updateParticles_particles, emitted_particle_zero_random]
    simp only [List.map, Particle2D.aged]
    norm_num [List.filter, Particle2D.expired]

theorem update_visible_emissionRate (ps : ParticleSystem2D K) (dt : K)
    (settings : EngineSettings K) (rand : ℕ → K) (hvis : ps.visible = true) :
    (ps.update dt settings rand).emissionRate
      = (settings.rpm / 1000) * (settings.throttle / 100) * 10 := by
  rw [update_visible ps dt settings rand hvis]
  split_ifs <;> rfl

theorem update_emitting_nextEmission (ps : ParticleSystem2D K) (dt : K)
    (settings : EngineSettings K) (rand : ℕ → K) (hvis : ps.visible = true)
    (hdue : ps.nextEmission - dt ≤ 0) (hroom : ps.particles.length < ps.maxParticles) :
    (ps.update dt settings rand).nextEmission = 1 / 30 := by
  rw [update_visible ps dt settings rand hvis, if_pos ⟨hdue, hroom⟩]
  rfl

theorem update3d_emitting_nextEmission (ps : ParticleSystem K) (dt : K)
    (settings : EngineSettings K) (rand : ℕ → K) (hvis : ps.visible = true)
    (hdue : ps.nextEmission - dt ≤ 0) :
    (ps.update dt settings rand).nextEmission = 1 / 60 := by
  unfold ParticleSystem.update
  simp only [hvis, Bool.not_true, Bool.false_eq_true, if_false, if_pos hdue]
  rfl

/-- C20, counterexample: at rpm 1000 and full throttle the 3D system computes
the emission rate 20 and the 2D system the rate 10, and when both emit in a
frame the 3D system re-arms its timer with 1/60, the 2D system with 1/30. -/
theorem C20_emission_rules_differ_counterexample :
    ParticleSystem.emissionRate (⟨1000, 100, 147 / 10, 15, 0⟩ : EngineSettings ℚ) = 20
      ∧ (((ParticleSystem2D.init : ParticleSystem2D ℚ).setVisible true).update (1 / 60)
          ⟨1000, 100, 147 / 10, 15, 0⟩ fun _ => 0).emissionRate = 10
      ∧ (((ParticleSystem.init : ParticleSystem ℚ).setVisible true).update (1 / 60)
          ⟨1000, 100, 147 / 10, 15, 0⟩ fun _ => 0).nextEmission = 1 / 60
      ∧ (((ParticleSystem2D.init : ParticleSystem2D ℚ).setVisible true).update (1 / 60)
          ⟨1000, 100, 147 / 10, 15, 0⟩ fun _ => 0).nextEmission = 1 / 30
      ∧ (⌈ParticleSystem.emissionRate (⟨1000, 100, 147 / 10, 15, 0⟩ : EngineSettings ℚ)⌉ : ℤ)
        ≠ ⌈(((ParticleSystem2D.init : ParticleSystem2D ℚ).setVisible true).update (1 / 60)
          ⟨1000, 100, 147 / 10, 15, 0⟩ fun _ => 0).emissionRate⌉ := by
  have h3 : ParticleSystem.emissionRate (⟨1000, 100, 147 / 10, 15, 0⟩ : EngineSettings ℚ)
      = 20 := by
    norm_num [ParticleSystem.emissionRate]
  have h2 : (((ParticleSystem2D.init : ParticleSystem2D ℚ).setVisible true).update (1 / 60)
      ⟨1000, 100, 147 / 10, 15, 0⟩ fun _ => 0).emissionRate = 10 := by
    rw [update_visible_emissionRate _ _ _ _ rfl]
    norm_num
  refine ⟨h3, h2, ?_, ?_, ?_⟩
  · exact update3d_emitting_nextEmission _ _ _ _ rfl
      (by norm_num [ParticleSystem.setVisible, ParticleSystem.init])
  · exact update_emitting_nextEmission _ _ _ _ rfl
      (by norm_num [ParticleSystem2D.setVisible, ParticleSystem2D.init])
      (by simp [ParticleSystem2D.setVisible, ParticleSystem2D.init])
  · rw [h3, h2]
    have e20 : (⌈(20 : ℚ)⌉ : ℤ) = 20 := by exact_mod_cast Int.ceil_intCast (20 : ℤ)
    have e10 : (⌈(10 : ℚ)⌉ : ℤ) = 10 := by exact_mod_cast Int.ceil_intCast (10 : ℤ)
    rw [e20, e10]
    norm_num

/-- The loop of the 3D `emitParticles` keeps the length of `ages` and revives
as many slots as it still may emit, or all dead slots from `i` on if these
are fewer. -/
theorem emitLoop3d_ages (count maxAge : K) (hmax : 0 ≤ maxAge) :
    ∀ (fuel i emitted : ℕ) (rand : ℕ → K) (positions velocities ages : List K),
      i + fuel = ages.length →
      (ParticleSystem.emitLoop count maxAge fuel i emitted rand
          (positions, velocities, ages)).2.2.length = ages.length
        ∧ (ParticleSystem.emitLoop count maxAge fuel i emitted rand
          (positions, velocities, ages)).2.2.countP (fun a => decide (a ≤ maxAge))
          = ages.countP (fun a => decide (a ≤ maxAge))
            + min (⌈count⌉₊ - emitted) ((ages.drop i).countP (fun a => !decide (a ≤ maxAge))) := by
  intro fuel
  induction fuel with
  | zero =>
    intro i emitted rand positions velocities ages h
    have hi : ages.length ≤ i := by omega
    simp [ParticleSystem.emitLoop, List.drop_eq_nil_of_le hi]
  | succ fuel ih =>
    intro i emitted rand positions velocities ages h
    have hi : i < ages.length := by omega
    rw [ParticleSystem.emitLoop]
    by_cases hlt : (emitted : K) < count
    · have hk : emitted < ⌈count⌉₊ := Nat.lt_ceil.mpr hlt
      rw [if_pos hlt]
      by_cases hdead : ages.getD i 0 > maxAge
      · rw [if_pos hdead]
        have hnot : ¬ ages.getD i 0 ≤ maxAge := not_le.mpr hdead
        obtain ⟨e1, e2⟩ := ih (i + 1) (emitted + 1) (fun j => rand (j + 7))
          (((positions.set (i * 3) _).set (i * 3 + 1) _).set (i * 3 + 2) _)
          (((velocities.set (i * 3) _).set (i * 3 + 1) _).set (i * 3 + 2) _)
          (ages.set i 0) (by simp; omega)
        refine ⟨e1.trans (by simp), e2.trans ?_⟩
        rw [countP_live_set_zero maxAge hmax ages i hi hnot,
          countP_dead_drop maxAge ages i hi, if_neg hnot, List.drop_set_of_lt _ _ (by omega)]
        omega
      · rw [if_neg hdead]
        have hlive : ages.getD i 0 ≤ maxAge := not_lt.mp hdead
        obtain ⟨e1, e2⟩ := ih (i + 1) emitted rand positions velocities ages (by omega)
        refine ⟨e1, e2.trans ?_⟩
        rw [countP_dead_drop maxAge ages i hi, if_pos hlive]
        rfl
    · rw [if_neg hlt]
      have hk : ¬ emitted < ⌈count⌉₊ := fun h => hlt (Nat.lt_ceil.mp h)
      have : ⌈count⌉₊ - emitted = 0 := by omega
      simp [this]

/-- The 3D `emitParticles(count)` revives `⌈count⌉` slots, or all dead slots
if these are fewer. -/
theorem emitParticles3d_liveCount (ps : ParticleSystem K) (count : K) (rand : ℕ → K)
    (hlen : ps.ages.length = ps.particleCount) (hmax : 0 ≤ ps.maxAge) :
    (ps.emitParticles count rand).liveCount
      = ps.liveCount + min ⌈count⌉₊ (ps.particleCount - ps.liveCount) := by
  obtain ⟨_, e2⟩ := emitLoop3d_ages count ps.maxAge hmax ps.particleCount 0 0 rand
    ps.positions ps.velocities ps.ages (by omega)
  have hsplit := countP_live_add_dead ps.maxAge ps.ages
  have hd : ps.ages.countP (fun a => !decide (a ≤ ps.maxAge))
      = ps.particleCount - ps.liveCount := by
    unfold ParticleSystem.liveCount
    omega
  show (ParticleSystem.emitLoop count ps.maxAge ps.particleCount 0 0 rand
      (ps.positions, ps.velocities, ps.ages)).2.2.countP (fun a => decide (a ≤ ps.maxAge)) = _
  rw [e2, List.drop_zero, Nat.sub_zero, hd]
  rfl

theorem update3d_emitting (ps : ParticleSystem K) (dt : K)
    (settings : EngineSettings K) (rand : ℕ → K) (hvis : ps.visible = true)
    (hdue : ps.nextEmission - dt ≤ 0) :
    (ps.update dt settings rand).positions
        = ((ps.emitParticles ((⌈ParticleSystem.emissionRate settings⌉ : ℤ) : K)
            rand).updateParticles dt).positions
      ∧ (ps.update dt settings rand).velocities
        = ((ps.emitParticles ((⌈ParticleSystem.emissionRate settings⌉ : ℤ) : K)
            rand).updateParticles dt).velocities
      ∧ (ps.update dt settings rand).ages
        = ((ps.emitParticles ((⌈ParticleSystem.emissionRate settings⌉ : ℤ) : K)
            rand).updateParticles dt).ages := by
  unfold ParticleSystem.update
  simp only [hvis, Bool.not_true, Bool.false_eq_true, if_false, if_pos hdue]
  exact ⟨rfl, rfl, rfl⟩

theorem update2d_emitting (ps : ParticleSystem2D K) (dt : K)
    (settings : EngineSettings K) (rand : ℕ → K) (hvis : ps.visible = true)
    (hdue : ps.nextEmission - dt ≤ 0) (hroom : ps.particles.length < ps.maxParticles) :
    (ps.update dt settings rand).particles
      = ((ps.emitParticles
          ((⌈(settings.rpm / 1000) * (settings.throttle / 100) * 10⌉ : ℤ) : K)
          rand).updateParticles dt).particles := by
  rw [update_visible ps dt settings rand hvis, if_pos ⟨hdue, hroom⟩]
  rfl

theorem update2d_full (ps : ParticleSystem2D K) (dt : K)
    (settings : EngineSettings K) (rand : ℕ → K) (hvis : ps.visible = true)
    (hfull : ps.maxParticles ≤ ps.particles.length) :
    (ps.update dt settings rand).particles = (ps.updateParticles dt).particles
      ∧ (ps.update dt settings rand).nextEmission = ps.nextEmission - dt := by
  rw [update_visible ps dt settings rand hvis, if_neg (fun h => absurd h.2 (by omega))]
  exact ⟨rfl, rfl⟩

/-- C20, as the code behaves: the two systems use the same form of emission
rule with different constants.  The 3D rate `(rpm/1000)*(throttle/100)*20` is
twice the 2D rate `(rpm/1000)*(throttle/100)*10`.  A visible 3D system whose
timer has run out leaves the arrays of `emitParticles(ceil(rate3D))` followed
by `updateParticles`, that emission revives `ceil(rate3D)` slots (all dead
slots if these are fewer), and the timer is re-armed with 1/60.  A visible
2D system whose timer has run out and whose pool is not full leaves the list
of `emitParticles(ceil(rate2D))` followed by `updateParticles`, that emission
appends `ceil(rate2D)` particles (up to `maxParticles`), and the timer is
re-armed with 1/30; with a full pool the 2D system neither emits nor re-arms
its timer. -/
theorem C20_emission_rules_same_form (ps3 : ParticleSystem K) (ps2 : ParticleSystem2D K)
    (dt : K) (settings : EngineSettings K) (rand : ℕ → K)
    (hv3 : ps3.visible = true) (hv2 : ps2.visible = true)
    (hd3 : ps3.nextEmission - dt ≤ 0) (hd2 : ps2.nextEmission - dt ≤ 0)
    (hroom : ps2.particles.length < ps2.maxParticles)
    (hlen3 : ps3.ages.length = ps3.particleCount) (hmax3 : 0 ≤ ps3.maxAge) :
    (ParticleSystem.emissionRate settings = (settings.rpm / 1000) * (settings.throttle / 100) * 20
        ∧ (ps2.update dt settings rand).emissionRate
          = (settings.rpm / 1000) * (settings.throttle / 100) * 10
        ∧ ParticleSystem.emissionRate settings = 2 * (ps2.update dt settings rand).emissionRate)
      ∧ ((ps3.update dt settings rand).positions
          = ((ps3.emitParticles ((⌈ParticleSystem.emissionRate settings⌉ : ℤ) : K)
              rand).updateParticles dt).positions
        ∧ (ps3.update dt settings rand).velocities
          = ((ps3.emitParticles ((⌈ParticleSystem.emissionRate settings⌉ : ℤ) : K)
              rand).updateParticles dt).velocities
        ∧ (ps3.update dt settings rand).ages
          = ((ps3.emitParticles ((⌈ParticleSystem.emissionRate settings⌉ : ℤ) : K)
              rand).updateParticles dt).ages
        ∧ (ps3.emitParticles ((⌈ParticleSystem.emissionRate settings⌉ : ℤ) : K) rand).liveCount
          = ps3.liveCount
            + min (⌈ParticleSystem.emissionRate settings⌉ : ℤ).toNat
                (ps3.particleCount - ps3.liveCount)
        ∧ (ps3.update dt settings rand).nextEmission = 1 / 60)
      ∧ ((ps2.update dt settings rand).particles
          = ((ps2.emitParticles
              ((⌈(settings.rpm / 1000) * (settings.throttle / 100) * 10⌉ : ℤ) : K)
              rand).updateParticles dt).particles
        ∧ (ps2.emitParticles
              ((⌈(settings.rpm / 1000) * (settings.throttle / 100) * 10⌉ : ℤ) : K)
              rand).particles.length
          = min (ps2.particles.length
              + (⌈(settings.rpm / 1000) * (settings.throttle / 100) * 10⌉ : ℤ).toNat)
              ps2.maxParticles
        ∧ (ps2.update dt settings rand).nextEmission = 1 / 30)
      ∧ (∀ full : ParticleSystem2D K, full.visible = true →
          full.maxParticles ≤ full.particles.length →
          (full.update dt settings rand).particles = (full.updateParticles dt).particles
            ∧ (full.update dt settings rand).nextEmission = full.nextEmission - dt) := by
  have h2 := update_visible_emissionRate ps2 dt settings rand hv2
  obtain ⟨p1, p2, p3⟩ := update3d_emitting ps3 dt settings rand hv3 hd3
  refine ⟨⟨rfl, h2, ?_⟩, ⟨p1, p2, p3, ?_, update3d_emitting_nextEmission ps3 dt settings rand hv3 hd3⟩,
    ⟨update2d_emitting ps2 dt settings rand hv2 hd2 hroom, ?_,
      update_emitting_nextEmission ps2 dt settings rand hv2 hd2 hroom⟩,
    fun full hv hfull => update2d_full full dt settings rand hv hfull⟩
  · rw [h2, ParticleSystem.emissionRate]
    ring
  · rw [emitParticles3d_liveCount ps3 _ rand hlen3 hmax3, Nat.ceil_intCast]
  · show (ParticleSystem2D.emitLoop ps2.maxParticles _ rand ps2.particles).length = _
    rw [emitLoop_length _ _ _ _ hroom.le, Nat.ceil_intCast]

/-- Witness for the amended C20: both systems made visible right after
construction, one frame of a sixtieth of a second at rpm 3000, throttle 50. -/
theorem C20_emission_rules_same_form_witness :
    (((ParticleSystem.init : ParticleSystem ℚ).setVisible true).emitParticles
        ((⌈ParticleSystem.emissionRate (⟨3000, 50, 147 / 10, 15, 0⟩ : EngineSettings ℚ)⌉ : ℤ) : ℚ)
        fun _ => 0).liveCount
      = ((ParticleSystem.init : ParticleSystem ℚ).setVisible true).liveCount
        + min (⌈ParticleSystem.emissionRate
              (⟨3000, 50, 147 / 10, 15, 0⟩ : EngineSettings ℚ)⌉ : ℤ).toNat
            (((ParticleSystem.init : ParticleSystem ℚ).setVisible true).particleCount
              - ((ParticleSystem.init : ParticleSystem ℚ).setVisible true).liveCount) :=
  (C20_emission_rules_same_form ((ParticleSystem.init : ParticleSystem ℚ).setVisible true)
    ((ParticleSystem2D.init : ParticleSystem2D ℚ).setVisible true) (1 / 60)
    ⟨3000, 50, 147 / 10, 15, 0⟩ (fun _ => 0) rfl rfl
    (by norm_num [ParticleSystem.setVisible, ParticleSystem.init])
    (by norm_num [ParticleSystem2D.setVisible, ParticleSystem2D.init])
    (by simp [ParticleSystem2D.setVisible, ParticleSystem2D.init])
    (List.length_replicate 1000 _)
    (by norm_num [ParticleSystem.setVisible, ParticleSystem.init])).2.1.2.2.2.1

end ParticleEmission

/-! ## One lift profile in every view -/

theorem inline4_3d_getValveLift_eq (valveType : String) (crankAngle : ℝ) :
    Inline4Engine.getValveLift valveType crankAngle
      = halfSineLift 0.4 (jsRem (crankAngle / 2) 360) valveType := rfl

theorem v6_3d_getValveLift_eq (valveType : String) (crankAngle : ℝ) :
    V6Engine.getValveLift valveType crankAngle
      = halfSineLift 0.35 (jsRem (crankAngle / 2) 360) valveType := rfl

theorem halfSineLift_scale (maxLift a : ℝ) (valveType : String) :
    halfSineLift maxLift a valveType = maxLift * halfSineLift 1 a valveType := by
  simp only [halfSineLift]
  split_ifs <;> simp

theorem halfSineLift_div (maxLift a : ℝ) (valveType : String) (h : maxLift ≠ 0) :
    halfSineLift maxLift a valveType / maxLift = halfSineLift 1 a valveType := by
  rw [halfSineLift_scale, mul_div_cancel_left₀ _ h]

/-- C21: for every crank angle c and every valve type, `getValveLift` divided
by the local maxLift is the same number in `Inline4Engine2D` (15),
`V6Engine2D` (12), `Inline4Engine` (0.4) and `V6Engine` (0.35), and equals
`CamshaftDetail2D.calculateValveLift((c/2) % 360, type) / 12`. -/
theorem C21_one_lift_profile (valveType : String) (c : ℝ) :
    Inline4Engine2D.getValveLift valveType c / 15 = V6Engine2D.getValveLift valveType c / 12
      ∧ Inline4Engine2D.getValveLift valveType c / 15
        = Inline4Engine.getValveLift valveType c / 0.4
      ∧ Inline4Engine2D.getValveLift valveType c / 15
        = V6Engine.getValveLift valveType c / 0.35
      ∧ Inline4Engine2D.getValveLift valveType c / 15
        = CamshaftDetail2D.calculateValveLift (jsRem (c / 2) 360) valveType / 12 := by
  rw [inline4_getValveLift_eq, v6_getValveLift_eq, inline4_3d_getValveLift_eq,
    v6_3d_getValveLift_eq, calculateValveLift_eq,
    halfSineLift_div 15 _ _ (by norm_num), halfSineLift_div 12 _ _ (by norm_num),
    halfSineLift_div 0.4 _ _ (by norm_num), halfSineLift_div 0.35 _ _ (by norm_num)]
  exact ⟨rfl, rfl, rfl, rfl⟩

/-! ## The turbine speed error -/

section TurboError

variable {K : Type} [LinearOrderedField K]

/-- C29, in exact arithmetic: one enabled update multiplies the speed error
by (1 - 5*deltaTime), for every state, settings and deltaTime:
`target - turbineSpeed' = (1 - 5*deltaTime) * (target - turbineSpeed)` with
`target = (rpm/8000)*(throttle/100)*200000`; and when turbineSpeed differs
from the target, the new speed lies strictly on the other side of the target
exactly when deltaTime > 0.2 and equals the target exactly when
deltaTime = 0.2. -/
theorem C29_speed_error_contraction (t : Turbocharger2D K) (dt : K) (s : EngineSettings K)
    (hen : t.enabled = true) :
    (s.rpm / 8000) * (s.throttle / 100) * 200000 - (t.update dt s).turbineSpeed
        = (1 - 5 * dt) * ((s.rpm / 8000) * (s.throttle / 100) * 200000 - t.turbineSpeed)
      ∧ (t.turbineSpeed ≠ (s.rpm / 8000) * (s.throttle / 100) * 200000 →
          ((((s.rpm / 8000) * (s.throttle / 100) * 200000 - (t.update dt s).turbineSpeed)
              * ((s.rpm / 8000) * (s.throttle / 100) * 200000 - t.turbineSpeed) < 0
            ↔ 0.2 < dt)
          ∧ ((t.update dt s).turbineSpeed = (s.rpm / 8000) * (s.throttle / 100) * 200000
            ↔ dt = 0.2))) := by
  rw [update_enabled t dt s hen]
  generalize (s.rpm / 8000) * (s.throttle / 100) * 200000 = target
  show target - (t.turbineSpeed + (target - t.turbineSpeed) * dt * 5)
        = (1 - 5 * dt) * (target - t.turbineSpeed)
      ∧ (t.turbineSpeed ≠ target →
        ((target - (t.turbineSpeed + (target - t.turbineSpeed) * dt * 5))
            * (target - t.turbineSpeed) < 0 ↔ 0.2 < dt)
        ∧ (t.turbineSpeed + (target - t.turbineSpeed) * dt * 5 = target ↔ dt = 0.2))
  have hd : target - (t.turbineSpeed + (target - t.turbineSpeed) * dt * 5)
      = (1 - 5 * dt) * (target - t.turbineSpeed) := by ring
  refine ⟨hd, ?_⟩
  intro hne
  have hgap : target - t.turbineSpeed ≠ 0 := sub_ne_zero.mpr (Ne.symm hne)
  have hsq : 0 < (target - t.turbineSpeed) * (target - t.turbineSpeed) :=
    mul_self_pos.mpr hgap
  refine ⟨?_, ?_⟩
  · rw [hd, mul_assoc]
    constructor
    · intro h
      by_contra hle
      have h1 : 0 ≤ 1 - 5 * dt := by linarith [not_lt.mp hle]
      have := mul_nonneg h1 hsq.le
      linarith
    · intro h
      have h1 : 1 - 5 * dt < 0 := by linarith
      exact mul_neg_of_neg_of_pos h1 hsq
  · constructor
    · intro h
      have h0 : (1 - 5 * dt) * (target - t.turbineSpeed) = 0 := by
        rw [← hd, h]
        ring
      rcases mul_eq_zero.mp h0 with h1 | h1
      · linarith
      · exact absurd h1 hgap
    · intro h
      rw [h]
      ring

/-- Witness for C29: an enabled turbocharger at turbine speed 30000 with the
target 120000 and a frame of three tenths of a second. -/
theorem C29_speed_error_contraction_witness :
    ((6000 : ℚ) / 8000) * (80 / 100) * 200000
        - ((⟨true, 30000, 29400, 3, 200⟩ : Turbocharger2D ℚ).update (3 / 10)
            ⟨6000, 80, 147 / 10, 15, 0⟩).turbineSpeed
      = (1 - 5 * (3 / 10)) * ((6000 / 8000) * (80 / 100) * 200000 - 30000) :=
  (C29_speed_error_contraction (⟨true, 30000, 29400, 3, 200⟩ : Turbocharger2D ℚ) (3 / 10)
    ⟨6000, 80, 147 / 10, 15, 0⟩ rfl).1

/-- C29, counterexample in binary64 arithmetic: an enabled turbocharger at
turbine speed 30000, rpm 6000, throttle 80 and a frame of 0.5 s.  The target
evaluates to the double 120000.00000000001 and the update stores the double
255000.00000000003; `target - turbineSpeed'` is not equal to
`(1 - 5*deltaTime) * (target - turbineSpeed)`, neither when both sides are
evaluated in binary64 (-135000 against -135000.00000000003) nor as exact
numbers. -/
theorem C29_speed_error_contraction_counterexample :
    Binary64.mul (Binary64.mul (Binary64.div 6000 8000) (Binary64.div 80 100)) 200000
        = Binary64.round 120000.00000000001
      ∧ ((⟨true, 30000, 29400, 3, 200⟩ : Turbocharger2D ℚ).updateF64 (1 / 2)
          ⟨6000, 80, 15, 15, 0⟩).turbineSpeed = Binary64.round 255000.00000000003
      ∧ Binary64.sub (Binary64.round 120000.00000000001) (Binary64.round 255000.00000000003)
        ≠ Binary64.mul (Binary64.sub 1 (Binary64.mul 5 (1 / 2)))
            (Binary64.sub (Binary64.round 120000.00000000001) 30000)
      ∧ Binary64.round 120000.00000000001 - Binary64.round 255000.00000000003
        ≠ (1 - 5 * (1 / 2)) * (Binary64.round 120000.00000000001 - 30000) := by
  decide!

end TurboError

/-! ## The combustion window as the code compares it -/

theorem sin_mul_pi_le_of_le {p q : ℝ} (h0 : 0 ≤ p) (hpq : p ≤ q) (hq : q ≤ 1 / 2) :
    Real.sin (p * Real.pi) ≤ Real.sin (q * Real.pi) := by
  have hpi := Real.pi_pos
  apply Real.sin_le_sin_of_le_of_le_pi_div_two
  · have := mul_nonneg h0 hpi.le
    linarith
  · have := mul_le_mul_of_nonneg_right hq hpi.le
    linarith
  · exact mul_le_mul_of_nonneg_right hpq hpi.le

theorem intensity_le_of_timing (firingOrder : List ℤ) (s : EngineSettings ℝ) (k : ℤ) (c : ℝ)
    (hthr : 0 ≤ s.throttle) (ht0 : 0 ≤ s.ignitionTiming) (ht1 : s.ignitionTiming ≤ 30) :
    getCombustionIntensity firingOrder s k c
      ≤ Real.sin (Real.pi * s.ignitionTiming / 60) * s.throttle / 100 := by
  have hq0 : 0 ≤ s.ignitionTiming / 60 := div_nonneg ht0 (by norm_num)
  have hq1 : s.ignitionTiming / 60 ≤ 1 / 2 := by
    rw [div_le_iff₀ (by norm_num)]
    linarith
  have harg : Real.pi * s.ignitionTiming / 60 = s.ignitionTiming / 60 * Real.pi := by ring
  have hbound : 0 ≤ Real.sin (Real.pi * s.ignitionTiming / 60) * s.throttle / 100 := by
    rw [harg]
    exact div_nonneg (mul_nonneg (sin_mul_pi_nonneg hq0 (by linarith)) hthr) (by norm_num)
  simp only [getCombustionIntensity]
  split_ifs with hnil hwin
  · exact hbound
  · apply max_le hbound
    have hlt := adjustedAngle_lt firingOrder k c
    have hp0 : 0 ≤ (adjustedAngle firingOrder k c - (720 - s.ignitionTiming)) / 60 :=
      div_nonneg (by linarith [hwin.1]) (by norm_num)
    have hpq : (adjustedAngle firingOrder k c - (720 - s.ignitionTiming)) / 60
        ≤ s.ignitionTiming / 60 :=
      div_le_div_of_nonneg_right (by linarith) (by norm_num)
    have hsin := sin_mul_pi_le_of_le hp0 hpq hq1
    rw [harg]
    exact div_le_div_of_nonneg_right (mul_le_mul_of_nonneg_right hsin hthr) (by norm_num)
  · exact hbound

theorem adjusted_gt_of_intensity_ne_zero (firingOrder : List ℤ) (s : EngineSettings ℝ)
    (k : ℤ) (c : ℝ) (h : getCombustionIntensity firingOrder s k c ≠ 0) :
    720 - s.ignitionTiming < adjustedAngle firingOrder k c := by
  have hpos : 0 < getCombustionIntensity firingOrder s k c :=
    lt_of_le_of_ne (getCombustionIntensity_nonneg _ _ _ _) (Ne.symm h)
  obtain ⟨hge, hval⟩ := window_of_pos _ _ _ _ hpos
  rcases eq_or_lt_of_le hge with heq | hlt
  · rw [← heq] at hval
    simp at hval
  · exact hlt

/-- C30: for every firing order, cylinder index and crank angle, every
throttle ≥ 0 and every ignition timing t in [0,30], `getCombustionIntensity`
is at most `sin(π*t/60) * throttle/100`; with t = 15 it is at most
`sin(π/4) * throttle/100` and it is non-zero only where the adjusted angle
lies in (705,720). -/
theorem C30_intensity_capped_by_timing (firingOrder : List ℤ) (s : EngineSettings ℝ) (k : ℤ)
    (c : ℝ) (hthr : 0 ≤ s.throttle) (ht0 : 0 ≤ s.ignitionTiming)
    (ht1 : s.ignitionTiming ≤ 30) :
    getCombustionIntensity firingOrder s k c
        ≤ Real.sin (Real.pi * s.ignitionTiming / 60) * s.throttle / 100
      ∧ (s.ignitionTiming = 15 →
          getCombustionIntensity firingOrder s k c ≤ Real.sin (Real.pi / 4) * s.throttle / 100
            ∧ (getCombustionIntensity firingOrder s k c ≠ 0 →
                705 < adjustedAngle firingOrder k c ∧ adjustedAngle firingOrder k c < 720)) := by
  have hle := intensity_le_of_timing firingOrder s k c hthr ht0 ht1
  refine ⟨hle, ?_⟩
  intro h15
  constructor
  · have harg : Real.pi * s.ignitionTiming / 60 = Real.pi / 4 := by
      rw [h15]
      ring
    rw [harg] at hle
    exact hle
  · intro hnz
    have h := adjusted_gt_of_intensity_ne_zero firingOrder s k c hnz
    rw [h15] at h
    exact ⟨by linarith, adjustedAngle_lt firingOrder k c⟩

/-- Witness for C30: the inline-4 order at the default timing 15 and full
throttle, cylinder 1 at crank angle 355. -/
theorem C30_intensity_capped_by_timing_witness :
    getCombustionIntensity Inline4Engine2D.getFiringOrder ⟨4000, 100, 147 / 10, 15, 0⟩ 1 355
      ≤ Real.sin (Real.pi * 15 / 60) * 100 / 100 :=
  (C30_intensity_capped_by_timing Inline4Engine2D.getFiringOrder
    ⟨4000, 100, 147 / 10, 15, 0⟩ 1 355 (by norm_num) (by norm_num) (by norm_num)).1

/-! ## Piston travel -/

theorem rod_cos_arcsin (rodLength x : ℝ) (hr : 0 < rodLength) :
    rodLength * Real.cos (Real.arcsin (x / rodLength)) = Real.sqrt (rodLength ^ 2 - x ^ 2) := by
  rw [Real.cos_arcsin]
  have h1 : rodLength = Real.sqrt (rodLength ^ 2) := (Real.sqrt_sq hr.le).symm
  have h2 : rodLength ^ 2 - x ^ 2 = rodLength ^ 2 * (1 - (x / rodLength) ^ 2) := by
    field_simp
  rw [h2, Real.sqrt_mul (sq_nonneg _), ← h1]

theorem slider_crank_bounds (rodLength crankRadius u v : ℝ) (h1 : 0 < crankRadius)
    (h2 : crankRadius ≤ rodLength) (huv : u ^ 2 + v ^ 2 = 1) :
    rodLength - crankRadius
        ≤ crankRadius * u + Real.sqrt (rodLength ^ 2 - (crankRadius * v) ^ 2)
      ∧ crankRadius * u + Real.sqrt (rodLength ^ 2 - (crankRadius * v) ^ 2)
        ≤ rodLength + crankRadius := by
  have hr : 0 < rodLength := lt_of_lt_of_le h1 h2
  have hu1 : u ≤ 1 := by nlinarith [sq_nonneg v, sq_nonneg (u - 1)]
  have hu0 : -1 ≤ u := by nlinarith [sq_nonneg v, sq_nonneg (u + 1)]
  have hrad : 0 ≤ rodLength ^ 2 - (crankRadius * v) ^ 2 := by
    have hv : v ^ 2 ≤ 1 := by nlinarith [sq_nonneg u]
    have : (crankRadius * v) ^ 2 ≤ rodLength ^ 2 := by
      rw [mul_pow]
      have hc2 : crankRadius ^ 2 ≤ rodLength ^ 2 := by nlinarith
      nlinarith [sq_nonneg crankRadius, sq_nonneg v]
    linarith
  constructor
  · have hle : rodLength - crankRadius - crankRadius * u
        ≤ Real.sqrt (rodLength ^ 2 - (crankRadius * v) ^ 2) := by
      rcases le_or_lt (rodLength - crankRadius - crankRadius * u) 0 with hneg | hpos
      · exact le_trans hneg (Real.sqrt_nonneg _)
      · apply Real.le_sqrt_of_sq_le
        have hv2 : v ^ 2 = 1 - u ^ 2 := by linarith
        rw [mul_pow, hv2]
        have hkey : 0 ≤ 2 * crankRadius * (1 + u) * (rodLength - crankRadius) :=
          mul_nonneg (mul_nonneg (by linarith) (by linarith)) (by linarith)
        nlinarith
    linarith
  · have hsq : Real.sqrt (rodLength ^ 2 - (crankRadius * v) ^ 2) ≤ rodLength := by
      rw [Real.sqrt_le_left hr.le]
      nlinarith [sq_nonneg (crankRadius * v)]
    have : crankRadius * u ≤ crankRadius := by nlinarith
    linarith

theorem calculatePistonPosition_eq_sqrt (φ rodLength crankRadius : ℝ)
    (h1 : 0 < crankRadius) (h2 : crankRadius ≤ rodLength) :
    calculatePistonPosition φ rodLength crankRadius
      = some (crankRadius * Real.cos (φ * Real.pi / 180)
          + Real.sqrt (rodLength ^ 2 - (crankRadius * Real.sin (φ * Real.pi / 180)) ^ 2)) := by
  have hr : 0 < rodLength := lt_of_lt_of_le h1 h2
  rw [calculatePistonPosition_of_ratio_le φ rodLength crankRadius hr
    (crank_sin_le φ rodLength crankRadius h1 h2), rod_cos_arcsin rodLength _ hr]

theorem calculatePistonPosition_top (rodLength crankRadius : ℝ)
    (h1 : 0 < crankRadius) (h2 : crankRadius ≤ rodLength) :
    calculatePistonPosition 0 rodLength crankRadius = some (rodLength + crankRadius) := by
  have hr : 0 < rodLength := lt_of_lt_of_le h1 h2
  rw [calculatePistonPosition_eq_sqrt 0 rodLength crankRadius h1 h2]
  have h0 : (0 : ℝ) * Real.pi / 180 = 0 := by ring
  rw [h0, Real.cos_zero, Real.sin_zero, mul_zero, mul_one]
  have hs : Real.sqrt (rodLength ^ 2 - 0 ^ 2) = rodLength := by
    rw [zero_pow (by norm_num), sub_zero, Real.sqrt_sq hr.le]
  rw [hs, add_comm]

/-- C28: for rodLength ≥ crankRadius > 0 and every angle θ (degrees),
`calculatePistonPosition` returns a number in
[rodLength - crankRadius, rodLength + crankRadius] that equals
`crankRadius*cos θ + sqrt(rodLength^2 - crankRadius^2*sin(θ)^2)`; the value is
`rodLength + crankRadius` at θ = 0 and `rodLength - crankRadius` at θ = 180. -/
theorem C28_piston_travel_bounds (θ rodLength crankRadius : ℝ)
    (h1 : 0 < crankRadius) (h2 : crankRadius ≤ rodLength) :
    (∃ v : ℝ, calculatePistonPosition θ rodLength crankRadius = some v
        ∧ rodLength - crankRadius ≤ v ∧ v ≤ rodLength + crankRadius
        ∧ v = crankRadius * Real.cos (θ * Real.pi / 180)
            + Real.sqrt (rodLength ^ 2
                - crankRadius ^ 2 * Real.sin (θ * Real.pi / 180) ^ 2))
      ∧ calculatePistonPosition 0 rodLength crankRadius = some (rodLength + crankRadius)
      ∧ calculatePistonPosition 180 rodLength crankRadius
        = some (rodLength - crankRadius) := by
  have hr : 0 < rodLength := lt_of_lt_of_le h1 h2
  have hval := fun φ : ℝ => calculatePistonPosition_eq_sqrt φ rodLength crankRadius h1 h2
  refine ⟨⟨_, hval θ, ?_, ?_, ?_⟩, calculatePistonPosition_top rodLength crankRadius h1 h2, ?_⟩
  · exact (slider_crank_bounds rodLength crankRadius _ _ h1 h2
      (Real.cos_sq_add_sin_sq _)).1
  · exact (slider_crank_bounds rodLength crankRadius _ _ h1 h2
      (Real.cos_sq_add_sin_sq _)).2
  · rw [mul_pow]
  · rw [hval 180]
    have h180 : (180 : ℝ) * Real.pi / 180 = Real.pi := by ring
    rw [h180, Real.cos_pi, Real.sin_pi, mul_zero]
    have hs : Real.sqrt (rodLength ^ 2 - 0 ^ 2) = rodLength := by
      rw [zero_pow (by norm_num), sub_zero, Real.sqrt_sq hr.le]
    rw [hs]
    congr 1
    ring

/-- Witness for C28: the 2D default geometry (rod 150, crank radius 45) at top
and bottom dead centre. -/
theorem C28_piston_travel_bounds_witness :
    calculatePistonPosition 0 150 45 = some (150 + 45)
      ∧ calculatePistonPosition 180 150 45 = some (150 - 45) :=
  (C28_piston_travel_bounds 30 150 45 (by norm_num) (by norm_num)).2

/-! ## Valve overlap -/

theorem sin_mul_pi_pos_iff {p : ℝ} (h0 : 0 ≤ p) (h1 : p ≤ 1) :
    0 < Real.sin (p * Real.pi) ↔ 0 < p ∧ p < 1 := by
  constructor
  · intro h
    constructor
    · rcases eq_or_lt_of_le h0 with he | hl
      · rw [← he] at h
        simp at h
      · exact hl
    · rcases eq_or_lt_of_le h1 with he | hl
      · rw [he] at h
        simp at h
      · exact hl
  · rintro ⟨ha, hb⟩
    exact sin_mul_pi_pos ha hb

theorem halfSineLift_intake_pos_iff (maxLift a : ℝ) (hM : 0 < maxLift) (ha : a < 360) :
    0 < halfSineLift maxLift a "intake" ↔ 350 < a ∨ (-10 < a ∧ a < 110) := by
  rcases le_or_lt 350 a with h350 | h350
  · rw [halfSineLift_intake_high maxLift a h350 (by linarith)]
    have hp0 : 0 ≤ (a - 350) / 120 := div_nonneg (by linarith) (by norm_num)
    have hp1 : (a - 350) / 120 ≤ 1 := by
      rw [div_le_one (by norm_num)]
      linarith
    rw [mul_pos_iff_of_pos_left hM, sin_mul_pi_pos_iff hp0 hp1, div_pos_iff_of_pos_right
      (by norm_num), div_lt_one (by norm_num)]
    constructor
    · rintro ⟨h, _⟩
      exact Or.inl (by linarith)
    · rintro (h | ⟨_, h⟩)
      · exact ⟨by linarith, by linarith⟩
      · exact absurd h (by linarith)
  · rcases le_or_lt a 110 with h110 | h110
    · rcases le_or_lt (-10) a with hlo | hlo
      · rw [halfSineLift_intake_low maxLift a hlo h110]
        have hp0 : 0 ≤ (a + 10) / 120 := div_nonneg (by linarith) (by norm_num)
        have hp1 : (a + 10) / 120 ≤ 1 := by
          rw [div_le_one (by norm_num)]
          linarith
        rw [mul_pos_iff_of_pos_left hM, sin_mul_pi_pos_iff hp0 hp1, div_pos_iff_of_pos_right
          (by norm_num), div_lt_one (by norm_num)]
        constructor
        · rintro ⟨h, h'⟩
          exact Or.inr ⟨by linarith, by linarith⟩
        · rintro (h | ⟨h, h'⟩)
          · exact absurd h (by linarith)
          · exact ⟨by linarith, by linarith⟩
      · have hz : halfSineLift maxLift a "intake" = 0 := by
          have hn : ¬ a ≥ 350 := by
            intro h
            linarith
          have hp : ¬ ((a - (350 - 360)) / (110 - (350 - 360)) ≥ 0
              ∧ (a - (350 - 360)) / (110 - (350 - 360)) ≤ 1) := by
            rintro ⟨h, _⟩
            have : (a - (350 - 360)) / (110 - (350 - 360)) < 0 :=
              div_neg_of_neg_of_pos (by linarith) (by norm_num)
            linarith
          unfold halfSineLift
          dsimp only
          rw [if_pos rfl, if_pos (Or.inr h110), if_neg hn, if_neg hp]
        rw [hz]
        constructor
        · intro h
          exact absurd h (lt_irrefl _)
        · rintro (h | ⟨h, _⟩)
          · exact absurd h (by linarith)
          · exact absurd h (by linarith)
    · have hz : halfSineLift maxLift a "intake" = 0 := by
        have hw : ¬ (a ≥ 350 ∨ a ≤ 110) := by
          rintro (h | h) <;> linarith
        unfold halfSineLift
        dsimp only
        rw [if_pos rfl, if_neg hw]
      rw [hz]
      constructor
      · intro h
        exact absurd h (lt_irrefl _)
      · rintro (h | ⟨_, h⟩)
        · exact absurd h (by linarith)
        · exact absurd h (by linarith)

theorem halfSineLift_exhaust_pos_iff (maxLift a : ℝ) (hM : 0 < maxLift) :
    0 < halfSineLift maxLift a "exhaust" ↔ 130 < a ∧ a < 350 := by
  by_cases hw : 130 ≤ a ∧ a ≤ 350
  · rw [halfSineLift_exhaust maxLift a hw.1 hw.2]
    have hp0 : 0 ≤ (a - 130) / 220 := div_nonneg (by linarith [hw.1]) (by norm_num)
    have hp1 : (a - 130) / 220 ≤ 1 := by
      rw [div_le_one (by norm_num)]
      linarith [hw.2]
    rw [mul_pos_iff_of_pos_left hM, sin_mul_pi_pos_iff hp0 hp1, div_pos_iff_of_pos_right
      (by norm_num), div_lt_one (by norm_num)]
    constructor
    · rintro ⟨h, h'⟩
      exact ⟨by linarith, by linarith⟩
    · rintro ⟨h, h'⟩
      exact ⟨by linarith, by linarith⟩
  · have hz : halfSineLift maxLift a "exhaust" = 0 := by
      unfold halfSineLift
      dsimp only
      rw [if_neg (by decide), if_pos rfl, if_neg hw]
    rw [hz]
    constructor
    · intro h
      exact absurd h (lt_irrefl _)
    · rintro ⟨h, h'⟩
      exact absurd ⟨h.le, h'.le⟩ hw

/-- C27: at every crank angle the intake and exhaust lifts of
`Inline4Engine2D.getValveLift` are not both strictly positive; with
`cam = (c/2) % 360`, the intake lift is positive exactly for cam in (350,360),
[0,110) or (-10,0), and the exhaust lift exactly for cam in (130,350). -/
theorem C27_no_valve_overlap (c : ℝ) :
    ¬ (0 < Inline4Engine2D.getValveLift "intake" c
        ∧ 0 < Inline4Engine2D.getValveLift "exhaust" c)
      ∧ (0 < Inline4Engine2D.getValveLift "intake" c ↔
          (350 < jsRem (c / 2) 360 ∧ jsRem (c / 2) 360 < 360)
            ∨ (0 ≤ jsRem (c / 2) 360 ∧ jsRem (c / 2) 360 < 110)
            ∨ (-10 < jsRem (c / 2) 360 ∧ jsRem (c / 2) 360 < 0))
      ∧ (0 < Inline4Engine2D.getValveLift "exhaust" c ↔
          130 < jsRem (c / 2) 360 ∧ jsRem (c / 2) 360 < 350) := by
  have hcam : jsRem (c / 2) 360 < (360 : ℝ) := (abs_lt.mp (jsRem_abs_lt (by norm_num))).2
  have hin := halfSineLift_intake_pos_iff 15 (jsRem (c / 2) 360) (by norm_num) hcam
  have hex := halfSineLift_exhaust_pos_iff 15 (jsRem (c / 2) 360) (by norm_num)
  rw [inline4_getValveLift_eq, inline4_getValveLift_eq]
  refine ⟨?_, ?_, hex⟩
  · rintro ⟨hi, he⟩
    rcases hin.mp hi with h | ⟨_, h⟩
    · linarith [(hex.mp he).2]
    · linarith [(hex.mp he).1]
  · rw [hin]
    constructor
    · rintro (h | ⟨h, h'⟩)
      · exact Or.inl ⟨h, hcam⟩
      · rcases le_or_lt 0 (jsRem (c / 2) 360) with h0 | h0
        · exact Or.inr (Or.inl ⟨h0, h'⟩)
        · exact Or.inr (Or.inr ⟨h, h0⟩)
    · rintro (⟨h, _⟩ | ⟨h, h'⟩ | ⟨h, h'⟩)
      · exact Or.inl h
      · exact Or.inr ⟨by linarith, h'⟩
      · exact Or.inr ⟨h, by linarith⟩

/-! ## The engines as they are driven -/

theorem range_four : List.range 4 = [0, 1, 2, 3] := rfl

theorem range_six : List.range 6 = [0, 1, 2, 3, 4, 5] := rfl

/-- What `Inline4Engine2D.updateAnimation` leaves in slot `i` of the three
arrays, and that it does not touch the base fields. -/
theorem inline4_updateAnimation_entries (e : Engine2D) (i : ℕ) (hwf : e.WellFormed 4)
    (hi : i < 4) :
    (Inline4Engine2D.updateAnimation e).pistonPositions[i]?
        = some (calculatePistonPosition (e.base.crankAngle + ((i % 2 : ℕ) : ℝ) * 180) 150 45)
      ∧ (Inline4Engine2D.updateAnimation e).valvePositions[i]?
        = some ⟨Inline4Engine2D.getValveLift "intake"
              (e.base.crankAngle + ((i % 2 : ℕ) : ℝ) * 180),
            Inline4Engine2D.getValveLift "exhaust"
              (e.base.crankAngle + ((i % 2 : ℕ) : ℝ) * 180)⟩
      ∧ (Inline4Engine2D.updateAnimation e).combustionIntensities[i]?
        = some (getCombustionIntensity Inline4Engine2D.getFiringOrder e.base.settings (i : ℤ)
            (e.base.crankAngle + ((i % 2 : ℕ) : ℝ) * 180))
      ∧ (Inline4Engine2D.updateAnimation e).base = e.base := by
  obtain ⟨hn, hp, hv, hc⟩ := hwf
  unfold Inline4Engine2D.updateAnimation
  simp only [hn, range_four, List.foldl, Inline4Engine2D.updatePiston,
    Inline4Engine2D.updateValves, Inline4Engine2D.updateCombustion]
  interval_cases i <;> simp [List.getElem?_set, hp, hv, hc]

/-- What `V6Engine2D.updateAnimation` leaves in slot `i` of
`combustionIntensities`. -/
theorem v6_updateAnimation_intensity (e : Engine2D) (i : ℕ) (hwf : e.WellFormed 6)
    (hi : i < 6) :
    (V6Engine2D.updateAnimation e).combustionIntensities[i]?
      = some (getCombustionIntensity V6Engine2D.getFiringOrder e.base.settings (i : ℤ)
          (e.base.crankAngle
            + ((jsIndexOf V6Engine2D.getFiringOrder (i : ℤ) : ℤ) : ℝ) * 120)) := by
  obtain ⟨hn, hp, hv, hc⟩ := hwf
  unfold V6Engine2D.updateAnimation
  simp only [hn, range_six, List.foldl, V6Engine2D.updatePiston,
    V6Engine2D.updateValves, V6Engine2D.updateCombustion]
  interval_cases i <;> simp [List.getElem?_set, hc]

theorem inline4_init_wellFormed (base : BaseEngine2D ℝ) :
    (⟨base, 4, 45, 150, List.replicate 4 (some 0), List.replicate 4 ⟨0, 0⟩,
      List.replicate 4 0⟩ : Engine2D).WellFormed 4 :=
  ⟨rfl, rfl, rfl, rfl⟩

theorem v6_init_wellFormed (base : BaseEngine2D ℝ) :
    (⟨base, 6, 50, 160, List.replicate 6 (some 0), List.replicate 6 ⟨0, 0⟩,
      List.replicate 6 0⟩ : Engine2D).WellFormed 6 :=
  ⟨rfl, rfl, rfl, rfl⟩

/-- C22: `Inline4Engine2D.update(deltaTime)` advances the crank angle before
it evaluates the cylinders: with c' the angle returned by
`calculateCrankAngle` for this frame, slot i of `pistonPositions`,
`valvePositions` and `combustionIntensities` holds the piston position, the
two lifts and the intensity computed at `c' + (i % 2)*180`, the stored crank
angle is c' and `time` has grown by deltaTime. -/
theorem C22_phase_advanced_before_cylinders (e : Engine2D) (dt : ℝ) (i : ℕ)
    (hwf : e.WellFormed 4) (hi : i < 4) :
    (Inline4Engine2D.update e dt).pistonPositions[i]?
        = some (calculatePistonPosition
            ((e.base.calculateCrankAngle dt).1 + ((i % 2 : ℕ) : ℝ) * 180) 150 45)
      ∧ (Inline4Engine2D.update e dt).valvePositions[i]?
        = some ⟨Inline4Engine2D.getValveLift "intake"
              ((e.base.calculateCrankAngle dt).1 + ((i % 2 : ℕ) : ℝ) * 180),
            Inline4Engine2D.getValveLift "exhaust"
              ((e.base.calculateCrankAngle dt).1 + ((i % 2 : ℕ) : ℝ) * 180)⟩
      ∧ (Inline4Engine2D.update e dt).combustionIntensities[i]?
        = some (getCombustionIntensity Inline4Engine2D.getFiringOrder e.base.settings (i : ℤ)
            ((e.base.calculateCrankAngle dt).1 + ((i % 2 : ℕ) : ℝ) * 180))
      ∧ (Inline4Engine2D.update e dt).base.crankAngle = (e.base.calculateCrankAngle dt).1
      ∧ (Inline4Engine2D.update e dt).base.time = e.base.time + dt := by
  have hwf' : (⟨((⟨e.base.settings, e.base.time + dt, e.base.crankAngle⟩ :
      BaseEngine2D ℝ).calculateCrankAngle dt).2, e.cylinderCount, e.crankRadius, e.rodLength,
      e.pistonPositions, e.valvePositions, e.combustionIntensities⟩ : Engine2D).WellFormed 4 :=
    hwf
  obtain ⟨h1, h2, h3, h4⟩ := inline4_updateAnimation_entries _ i hwf' hi
  unfold Inline4Engine2D.update
  refine ⟨h1, h2, h3, ?_, ?_⟩
  · exact congrArg BaseEngine2D.crankAngle h4
  · exact congrArg BaseEngine2D.time h4

/-- Witness for C22: the freshly constructed inline-4 engine, a frame of a
sixtieth of a second, slot 1. -/
theorem C22_phase_advanced_before_cylinders_witness :
    (Inline4Engine2D.update Inline4Engine2D.init (1 / 60)).base.time
      = Inline4Engine2D.init.base.time + 1 / 60 :=
  (C22_phase_advanced_before_cylinders Inline4Engine2D.init (1 / 60) 1
    (inline4_init_wellFormed BaseEngine2D.init) (by norm_num)).2.2.2.2

theorem intensity_zero_of_adjusted_lt (firingOrder : List ℤ) (s : EngineSettings ℝ) (k : ℤ)
    (c : ℝ) (h : adjustedAngle firingOrder k c < 720 - s.ignitionTiming) :
    getCombustionIntensity firingOrder s k c = 0 := by
  simp only [getCombustionIntensity]
  split_ifs with h1 h2
  · rfl
  · exact absurd h2.1 (not_le.mpr h)
  · rfl

theorem intensity_pos_of_adjusted_gt (firingOrder : List ℤ) (s : EngineSettings ℝ) (k : ℤ)
    (c : ℝ) (hfo : firingOrder ≠ []) (ht : s.ignitionTiming = 15) (hthr : 0 < s.throttle)
    (h : 705 < adjustedAngle firingOrder k c) :
    0 < getCombustionIntensity firingOrder s k c := by
  have hlt := adjustedAngle_lt firingOrder k c
  rw [getCombustionIntensity_unfold _ _ _ _ hfo, ht]
  rw [if_pos ⟨by norm_num; exact h.le, by norm_num; linarith⟩]
  apply lt_max_of_lt_right
  have hp0 : 0 < (adjustedAngle firingOrder k c - (720 - 15)) / 60 :=
    div_pos (by linarith) (by norm_num)
  have hp1 : (adjustedAngle firingOrder k c - (720 - 15)) / 60 < 1 := by
    rw [div_lt_one (by norm_num)]
    linarith
  exact div_pos (mul_pos (sin_mul_pi_pos hp0 hp1) hthr) (by norm_num)

/-- The offsets computed for slot numbers: slot 0 is not in either firing
order, so `indexOf` is -1 and the offset is negative. -/
theorem cylinderOffset_slots :
    cylinderOffset Inline4Engine2D.getFiringOrder 0 = -180
      ∧ cylinderOffset V6Engine2D.getFiringOrder 0 = -120 := by
  have i4 : jsIndexOf Inline4Engine2D.getFiringOrder 0 = -1 := by decide
  have i6 : jsIndexOf V6Engine2D.getFiringOrder 0 = -1 := by decide
  have l4 : Inline4Engine2D.getFiringOrder.length = 4 := rfl
  have l6 : V6Engine2D.getFiringOrder.length = 6 := rfl
  constructor
  · rw [cylinderOffset, i4, l4]
    norm_num
    exact jsRem_of_abs_lt (by norm_num [abs_lt])
  · rw [cylinderOffset, i6, l6]
    norm_num
    exact jsRem_of_abs_lt (by norm_num [abs_lt])

/-- C23 (behaviour of the code for slot 0): with the default ignition timing
15 and any crank phase in [0,360), `updateAnimation` stores intensity 0 in
slot 0 of `combustionIntensities`, in `Inline4Engine2D` and in `V6Engine2D`
alike: the slot number 0 is not in the firing order, `indexOf` returns -1 and
the adjusted angle stays below 705. -/
theorem C23_slot_zero_never_fires (e4 e6 : Engine2D)
    (hwf4 : e4.WellFormed 4) (hwf6 : e6.WellFormed 6)
    (ht4 : e4.base.settings.ignitionTiming = 15) (ht6 : e6.base.settings.ignitionTiming = 15)
    (h4 : 0 ≤ e4.base.crankAngle ∧ e4.base.crankAngle < 360)
    (h6 : 0 ≤ e6.base.crankAngle ∧ e6.base.crankAngle < 360) :
    (Inline4Engine2D.updateAnimation e4).combustionIntensities[0]? = some 0
      ∧ (V6Engine2D.updateAnimation e6).combustionIntensities[0]? = some 0 := by
  have i6 : jsIndexOf V6Engine2D.getFiringOrder ((0 : ℕ) : ℤ) = -1 := by decide
  constructor
  · rw [(inline4_updateAnimation_entries e4 0 hwf4 (by norm_num)).2.2.1]
    congr 1
    apply intensity_zero_of_adjusted_lt
    rw [ht4, adjustedAngle]
    have hx : (e4.base.crankAngle + ((0 % 2 : ℕ) : ℝ) * 180) * 2
        + cylinderOffset Inline4Engine2D.getFiringOrder ((0 : ℕ) : ℤ)
        = e4.base.crankAngle * 2 - 180 := by
      have := cylinderOffset_slots.1
      push_cast
      rw [this]
      norm_num
      ring
    rw [hx, jsRem_of_abs_lt (by rw [abs_lt]; constructor <;> linarith [h4.1, h4.2])]
    linarith [h4.2]
  · rw [v6_updateAnimation_intensity e6 0 hwf6 (by norm_num)]
    congr 1
    apply intensity_zero_of_adjusted_lt
    rw [ht6, adjustedAngle, i6]
    have hx : (e6.base.crankAngle + ((-1 : ℤ) : ℝ) * 120) * 2
        + cylinderOffset V6Engine2D.getFiringOrder ((0 : ℕ) : ℤ)
        = e6.base.crankAngle * 2 - 360 := by
      have := cylinderOffset_slots.2
      push_cast
      rw [this]
      ring
    rw [hx, jsRem_of_abs_lt (by rw [abs_lt]; constructor <;> linarith [h6.1, h6.2])]
    linarith [h6.2]

/-- Witness for C23: the freshly constructed engines (crank angle 0, ignition
timing 15). -/
theorem C23_slot_zero_never_fires_witness :
    (Inline4Engine2D.updateAnimation Inline4Engine2D.init).combustionIntensities[0]? = some 0
      ∧ (V6Engine2D.updateAnimation V6Engine2D.init).combustionIntensities[0]? = some 0 :=
  C23_slot_zero_never_fires Inline4Engine2D.init V6Engine2D.init
    (inline4_init_wellFormed BaseEngine2D.init) (v6_init_wellFormed BaseEngine2D.init)
    rfl rfl ⟨le_refl _, by norm_num [Inline4Engine2D.init, BaseEngine2D.init]⟩
    ⟨le_refl _, by norm_num [V6Engine2D.init, BaseEngine2D.init]⟩

/-- C24 (behaviour of the code): at full throttle and the default ignition
timing, the inline-4 engine at crank phase 85 stores a positive intensity in
slot 2 and in slot 3 at once, and the V6 engine at crank phase 355 in slot 1
and in slot 2 at once (absent entries would read 0). -/
theorem C24_two_slots_fire_together :
    (0 < (Inline4Engine2D.updateAnimation
          ⟨⟨⟨4000, 100, 147 / 10, 15, 0⟩, 0, 85⟩, 4, 45, 150, List.replicate 4 (some 0),
            List.replicate 4 ⟨0, 0⟩, List.replicate 4 0⟩).combustionIntensities.getD 2 0
        ∧ 0 < (Inline4Engine2D.updateAnimation
          ⟨⟨⟨4000, 100, 147 / 10, 15, 0⟩, 0, 85⟩, 4, 45, 150, List.replicate 4 (some 0),
            List.replicate 4 ⟨0, 0⟩, List.replicate 4 0⟩).combustionIntensities.getD 3 0)
      ∧ (0 < (V6Engine2D.updateAnimation
          ⟨⟨⟨4000, 100, 147 / 10, 15, 0⟩, 0, 355⟩, 6, 50, 160, List.replicate 6 (some 0),
            List.replicate 6 ⟨0, 0⟩, List.replicate 6 0⟩).combustionIntensities.getD 1 0
        ∧ 0 < (V6Engine2D.updateAnimation
          ⟨⟨⟨4000, 100, 147 / 10, 15, 0⟩, 0, 355⟩, 6, 50, 160, List.replicate 6 (some 0),
            List.replicate 6 ⟨0, 0⟩, List.replicate 6 0⟩).combustionIntensities.getD 2 0) := by
  have hwf4 := inline4_init_wellFormed ⟨⟨4000, 100, 147 / 10, 15, 0⟩, 0, 85⟩
  have hwf6 := v6_init_wellFormed ⟨⟨4000, 100, 147 / 10, 15, 0⟩, 0, 355⟩
  obtain ⟨_, o3, _, o2⟩ := cylinderOffset_inline4
  obtain ⟨p1, _, p2, _, _, _⟩ := cylinderOffset_v6
  have j1 : jsIndexOf V6Engine2D.getFiringOrder ((1 : ℕ) : ℤ) = 0 := by decide
  have j2 : jsIndexOf V6Engine2D.getFiringOrder ((2 : ℕ) : ℤ) = 2 := by decide
  have h710 : jsRem (710 : ℝ) 720 = 710 := jsRem_small (by norm_num) (by norm_num)
  refine ⟨⟨?_, ?_⟩, ?_, ?_⟩
  · rw [List.getD_eq_getElem?_getD,
      (inline4_updateAnimation_entries _ 2 hwf4 (by norm_num)).2.2.1]
    apply intensity_pos_of_adjusted_gt _ _ _ _ inline4_order_ne_nil rfl (by norm_num)
    have hx : adjustedAngle Inline4Engine2D.getFiringOrder ((2 : ℕ) : ℤ)
        ((85 : ℝ) + ((2 % 2 : ℕ) : ℝ) * 180) = 710 := by
      rw [adjustedAngle]
      push_cast
      rw [o2]
      norm_num
      exact h710
    show 705 < adjustedAngle Inline4Engine2D.getFiringOrder ((2 : ℕ) : ℤ)
        ((85 : ℝ) + ((2 % 2 : ℕ) : ℝ) * 180)
    rw [hx]
    norm_num
  · rw [List.getD_eq_getElem?_getD,
      (inline4_updateAnimation_entries _ 3 hwf4 (by norm_num)).2.2.1]
    apply intensity_pos_of_adjusted_gt _ _ _ _ inline4_order_ne_nil rfl (by norm_num)
    have hx : adjustedAngle Inline4Engine2D.getFiringOrder ((3 : ℕ) : ℤ)
        ((85 : ℝ) + ((3 % 2 : ℕ) : ℝ) * 180) = 710 := by
      rw [adjustedAngle]
      push_cast
      rw [o3]
      norm_num
      exact h710
    show 705 < adjustedAngle Inline4Engine2D.getFiringOrder ((3 : ℕ) : ℤ)
        ((85 : ℝ) + ((3 % 2 : ℕ) : ℝ) * 180)
    rw [hx]
    norm_num
  · rw [List.getD_eq_getElem?_getD, v6_updateAnimation_intensity _ 1 hwf6 (by norm_num)]
    apply intensity_pos_of_adjusted_gt _ _ _ _ v6_order_ne_nil rfl (by norm_num)
    have hx : adjustedAngle V6Engine2D.getFiringOrder ((1 : ℕ) : ℤ)
        ((355 : ℝ) + ((jsIndexOf V6Engine2D.getFiringOrder ((1 : ℕ) : ℤ) : ℤ) : ℝ) * 120)
        = 710 := by
      rw [adjustedAngle, j1]
      push_cast
      rw [p1]
      norm_num
      exact h710
    show 705 < adjustedAngle V6Engine2D.getFiringOrder ((1 : ℕ) : ℤ)
        ((355 : ℝ) + ((jsIndexOf V6Engine2D.getFiringOrder ((1 : ℕ) : ℤ) : ℤ) : ℝ) * 120)
    rw [hx]
    norm_num
  · rw [List.getD_eq_getElem?_getD, v6_updateAnimation_intensity _ 2 hwf6 (by norm_num)]
    apply intensity_pos_of_adjusted_gt _ _ _ _ v6_order_ne_nil rfl (by norm_num)
    have hx : adjustedAngle V6Engine2D.getFiringOrder ((2 : ℕ) : ℤ)
        ((355 : ℝ) + ((jsIndexOf V6Engine2D.getFiringOrder ((2 : ℕ) : ℤ) : ℤ) : ℝ) * 120)
        = 710 := by
      rw [adjustedAngle, j2]
      push_cast
      rw [p2]
      have e : ((355 : ℝ) + 2 * 120) * 2 + 240 = 710 + 720 := by norm_num
      rw [e, jsRem_add_period (by norm_num) (by norm_num)]
      exact h710
    show 705 < adjustedAngle V6Engine2D.getFiringOrder ((2 : ℕ) : ℤ)
        ((355 : ℝ) + ((jsIndexOf V6Engine2D.getFiringOrder ((2 : ℕ) : ℤ) : ℤ) : ℝ) * 120)
    rw [hx]
    norm_num

theorem exhaust_lift_below_max (c : ℝ) (h0 : 0 ≤ c) (h1 : c < 360) :
    Inline4Engine2D.getValveLift "exhaust" c < 15 := by
  rw [inline4_getValveLift_eq, jsRem_small (by linarith : (0 : ℝ) ≤ c / 2) (by linarith)]
  by_cases hw : 130 ≤ c / 2
  · rw [halfSineLift_exhaust 15 (c / 2) hw (by linarith)]
    have hp0 : 0 ≤ (c / 2 - 130) / 220 := div_nonneg (by linarith) (by norm_num)
    have hp1 : (c / 2 - 130) / 220 < 1 / 2 := by
      rw [div_lt_iff₀ (by norm_num)]
      linarith
    have := sin_mul_pi_lt_one hp0 hp1
    linarith
  · have hz : halfSineLift 15 (c / 2) "exhaust" = 0 := by
      unfold halfSineLift
      dsimp only
      rw [if_neg (by decide), if_pos rfl, if_neg (fun h => hw h.1)]
    rw [hz]
    norm_num

/-- C25 (behaviour of the code for slot 0): for every crank phase in [0,360)
the exhaust lift that `Inline4Engine2D.updateAnimation` stores in
`valvePositions[0]` is strictly below maxLift = 15; the cam angle (c/2) % 360
stays below 180 and never reaches the exhaust midpoint 240. -/
theorem C25_exhaust_never_reaches_max_lift (e : Engine2D) (hwf : e.WellFormed 4)
    (h0 : 0 ≤ e.base.crankAngle) (h1 : e.base.crankAngle < 360) :
    ∃ v : ValvePosition, (Inline4Engine2D.updateAnimation e).valvePositions[0]? = some v
      ∧ v.exhaust < 15 := by
  refine ⟨_, (inline4_updateAnimation_entries e 0 hwf (by norm_num)).2.1, ?_⟩
  show Inline4Engine2D.getValveLift "exhaust" (e.base.crankAngle + ((0 % 2 : ℕ) : ℝ) * 180) < 15
  have hx : e.base.crankAngle + ((0 % 2 : ℕ) : ℝ) * 180 = e.base.crankAngle := by norm_num
  rw [hx]
  exact exhaust_lift_below_max e.base.crankAngle h0 h1

/-- Witness for C25: the freshly constructed inline-4 engine (crank angle
0). -/
theorem C25_exhaust_never_reaches_max_lift_witness :
    ∃ v : ValvePosition,
      (Inline4Engine2D.updateAnimation Inline4Engine2D.init).valvePositions[0]? = some v
        ∧ v.exhaust < 15 :=
  C25_exhaust_never_reaches_max_lift Inline4Engine2D.init
    (inline4_init_wellFormed BaseEngine2D.init) (le_refl _)
    (by norm_num [Inline4Engine2D.init, BaseEngine2D.init])

/-- C26 (behaviour of the code): `V6Engine2D.updatePiston(0, 0)` stores
150 + 45 = 195, the value for the default geometry of
`calculatePistonPosition`, while the slider-crank formula with the rodLength
160 and crankRadius 50 of the V6 instance gives 210. -/
theorem C26_v6_piston_uses_default_geometry :
    (V6Engine2D.updatePiston V6Engine2D.init 0 0).pistonPositions[0]? = some (some 195)
      ∧ V6Engine2D.init.rodLength = 160 ∧ V6Engine2D.init.crankRadius = 50
      ∧ calculatePistonPosition 0 V6Engine2D.init.rodLength V6Engine2D.init.crankRadius
        = some 210 := by
  refine ⟨?_, rfl, rfl, ?_⟩
  · have h : calculatePistonPosition 0 150 45 = some 195 := by
      rw [calculatePistonPosition_top 150 45 (by norm_num) (by norm_num)]
      norm_num
    simp [V6Engine2D.updatePiston, V6Engine2D.init, h]
  · show calculatePistonPosition 0 160 50 = some 210
    rw [calculatePistonPosition_top 160 50 (by norm_num) (by norm_num)]
    norm_num

end EngineSim
